import Mathlib

/-! # Session-affinity admission layer (my-ermes-labs/api-go)

A shallow embedding of `api/session_token.go` and `http/handle.go`.

* Part 1 models the token codec.  `MarshallSessionToken` and
  `UnmarshallSessionToken` are thin wrappers around Go's `encoding/json`; the
  fragment of that library which the two wrappers exercise on a struct with two
  string fields is modelled here byte for byte (string escaping, the scanner
  state machine, literal unquoting, field lookup).
* Part 2 models `Handle` as a function that threads the response writer and
  records every call it makes to a policy, to the node collaborator and to the
  caller's handler in a trace.

A byte is a natural number below 256, of type `Nat`; a Go string or byte slice
is a list of bytes, of type `List Nat`.
-/

namespace Ermes

/-! ## Part 1a: `unicode/utf8` -/

/-- The replacement rune U+FFFD (`utf8.RuneError`). -/
def RuneError : Nat := 0xFFFD

/-- The largest Unicode code point (`utf8.MaxRune`). -/
def MaxRune : Nat := 0x10FFFF

/-- Length of the sequence announced by a leading byte at or above 0x80
(table `first` of `unicode/utf8`); 0 marks an invalid leading byte. -/
def seqSize (p0 : Nat) : Nat :=
  if 0xC2 ≤ p0 ∧ p0 ≤ 0xDF then 2
  else if 0xE0 ≤ p0 ∧ p0 ≤ 0xEF then 3
  else if 0xF0 ≤ p0 ∧ p0 ≤ 0xF4 then 4
  else 0

/-- Lowest second byte accepted after leading byte `p0` (`acceptRanges`). -/
def acceptLo (p0 : Nat) : Nat :=
  if p0 = 0xE0 then 0xA0 else if p0 = 0xF0 then 0x90 else 0x80

/-- Highest second byte accepted after leading byte `p0` (`acceptRanges`). -/
def acceptHi (p0 : Nat) : Nat :=
  if p0 = 0xED then 0x9F else if p0 = 0xF4 then 0x8F else 0xBF

/-- Go's `utf8.DecodeRune`: the first rune of `p` and its width in bytes; an
invalid or truncated encoding yields `(RuneError, 1)`, the empty input
`(RuneError, 0)`.  Masks and shifts are written as `%` and `*`. -/
def decodeRune : List Nat → Nat × Nat
  | [] => (RuneError, 0)
  | p0 :: rest =>
    if p0 < 0x80 then (p0, 1)
    else if seqSize p0 = 0 then (RuneError, 1)
    else
      match rest with
      | [] => (RuneError, 1)
      | b1 :: rest1 =>
        if b1 < acceptLo p0 ∨ acceptHi p0 < b1 then (RuneError, 1)
        else if seqSize p0 = 2 then ((p0 % 32) * 64 + b1 % 64, 2)
        else
          match rest1 with
          | [] => (RuneError, 1)
          | b2 :: rest2 =>
            if b2 < 0x80 ∨ 0xBF < b2 then (RuneError, 1)
            else if seqSize p0 = 3 then
              ((p0 % 16) * 4096 + (b1 % 64) * 64 + b2 % 64, 3)
            else
              match rest2 with
              | [] => (RuneError, 1)
              | b3 :: _ =>
                if b3 < 0x80 ∨ 0xBF < b3 then (RuneError, 1)
                else ((p0 % 8) * 262144 + (b1 % 64) * 4096 + (b2 % 64) * 64 + b3 % 64, 4)

/-- Go's `utf8.AppendRune`: the UTF-8 encoding of `r`; surrogates and values
above `MaxRune` are encoded as U+FFFD. -/
def encodeRune (r : Nat) : List Nat :=
  if r ≤ 0x7F then [r]
  else if r ≤ 0x7FF then [0xC0 + r / 64, 0x80 + r % 64]
  else if MaxRune < r ∨ (0xD800 ≤ r ∧ r ≤ 0xDFFF) then [0xEF, 0xBF, 0xBD]
  else if r ≤ 0xFFFF then [0xE0 + r / 4096, 0x80 + (r / 64) % 64, 0x80 + r % 64]
  else [0xF0 + r / 262144, 0x80 + (r / 4096) % 64, 0x80 + (r / 64) % 64, 0x80 + r % 64]

/-- Loop of `utf8.Valid`: `skip` counts the bytes still to pass over because
they belong to the rune decoded last; at any other position the bytes must
not decode to `(RuneError, 1)`. -/
def validUTF8From : Nat → List Nat → Bool
  | _, [] => true
  | skip + 1, _ :: rest => validUTF8From skip rest
  | 0, b :: rest =>
    if (decodeRune (b :: rest)).1 = RuneError ∧ (decodeRune (b :: rest)).2 = 1 then false
    else validUTF8From ((decodeRune (b :: rest)).2 - 1) rest

/-- Go's `utf8.Valid`: the bytes are a sequence of valid rune encodings. -/
def validUTF8 (p : List Nat) : Bool := validUTF8From 0 p

/-! ## Part 1b: the data model -/

/-- Modelled from the spec: `api.SessionLocation`, whose declaration is not
among the sources; two string fields `Host` and `SessionId`, without JSON
tags. -/
structure SessionLocation where
  Host : List Nat
  SessionId : List Nat
  deriving DecidableEq

/-- The struct `SessionToken`: it embeds exactly one `SessionLocation`. -/
structure SessionToken where
  SessionLocation : SessionLocation
  deriving DecidableEq

/-- Promoted field `sessionToken.Host`. -/
def SessionToken.Host (t : SessionToken) : List Nat := t.SessionLocation.Host

/-- Promoted field `sessionToken.SessionId`. -/
def SessionToken.SessionId (t : SessionToken) : List Nat := t.SessionLocation.SessionId

/-- Go's `NewSessionTokenAfterOffloading`. -/
def NewSessionTokenAfterOffloading (sessionToken : SessionToken)
    (newLocation : Ermes.SessionLocation) : SessionToken :=
  { sessionToken with SessionLocation := newLocation }

/-- Errors of `encoding/json`: the two that `Unmarshal` reports for this type,
and the one `Marshal` reports for a value of a kind it cannot encode. -/
inductive JsonError where
  | syntaxError
  | unmarshalTypeError
  | unsupportedTypeError
  deriving DecidableEq

/-- A non-nil Go `error` value: one produced by the codec, or any other error
(of the node collaborator or of the caller's handler), identified by a
message. -/
inductive Error where
  | json (e : JsonError)
  | other (msg : String)
  deriving DecidableEq

/-! ## Part 1c: `encoding/json`, encoding -/

/-- Lower-case hexadecimal digit `"0123456789abcdef"[n]`. -/
def hex (n : Nat) : Nat := if n < 10 then 0x30 + n else 0x61 + (n - 10)

/-- Table `htmlSafeSet`: the ASCII bytes written without escaping. -/
def htmlSafe (b : Nat) : Bool :=
  decide (0x20 ≤ b ∧ b < 0x80 ∧ b ≠ 0x22 ∧ b ≠ 0x26 ∧ b ≠ 0x3C ∧ b ≠ 0x3E ∧ b ≠ 0x5C)

/-- Escape of one ASCII byte that is not in `htmlSafeSet`. -/
def escapeASCII (b : Nat) : List Nat :=
  if b = 0x5C ∨ b = 0x22 then [0x5C, b]
  else if b = 0x08 then [0x5C, 0x62]
  else if b = 0x0C then [0x5C, 0x66]
  else if b = 0x0A then [0x5C, 0x6E]
  else if b = 0x0D then [0x5C, 0x72]
  else if b = 0x09 then [0x5C, 0x74]
  else [0x5C, 0x75, 0x30, 0x30, hex (b / 16), hex (b % 16)]

/-- One iteration of the loop of `appendString` of `encoding/json` (with
`escapeHTML` set) at a position holding `b` followed by `rest`: the bytes
written and the number of input bytes consumed.  A byte that does not start a
valid encoding is written as the escape of U+FFFD; U+2028 and U+2029 are
escaped; every other rune is copied. -/
def appendStep (b : Nat) (rest : List Nat) : List Nat × Nat :=
  if b < 0x80 then
    (if htmlSafe b then [b] else escapeASCII b, 1)
  else if (decodeRune (b :: rest)).1 = RuneError ∧ (decodeRune (b :: rest)).2 = 1 then
    ([0x5C, 0x75, 0x66, 0x66, 0x66, 0x64], 1)
  else if (decodeRune (b :: rest)).1 = 0x2028 ∨ (decodeRune (b :: rest)).1 = 0x2029 then
    ([0x5C, 0x75, 0x32, 0x30, 0x32, hex ((decodeRune (b :: rest)).1 % 16)],
      (decodeRune (b :: rest)).2)
  else ((b :: rest).take (decodeRune (b :: rest)).2, (decodeRune (b :: rest)).2)

/-- Loop of `appendString`: `skip` counts the input bytes still to pass over
because the previous iteration consumed them. -/
def appendStringFrom : Nat → List Nat → List Nat
  | _, [] => []
  | skip + 1, _ :: rest => appendStringFrom skip rest
  | 0, b :: rest => (appendStep b rest).1 ++ appendStringFrom ((appendStep b rest).2 - 1) rest

/-- The escaped contents of a string, without the surrounding quotes
(`appendString` of `encoding/json`). -/
def appendString (src : List Nat) : List Nat := appendStringFrom 0 src

/-- A JSON string literal: the escaped contents between two quotes. -/
def quote (s : List Nat) : List Nat := [0x22] ++ appendString s ++ [0x22]

mutual
/-- A Go value as `json.Marshal` sees it through `reflect`, for the kinds that
matter here: a string, a struct, and a value of a kind for which the encoder
has nothing but `unsupportedTypeEncoder` (a channel, a function, a complex
number). -/
inductive GoValue where
  | string (s : List Nat)
  | unsupported
  | struct (fields : GoFields)

/-- The fields of a struct value in declaration order: the name, whether the
field is embedded (anonymous), and the value. -/
inductive GoFields where
  | nil
  | cons (name : List Nat) (anonymous : Bool) (v : GoValue) (rest : GoFields)
end

/-- The members of an object, separated by commas. -/
def joinMembers : List (List Nat) → List Nat
  | [] => []
  | [m] => m
  | m :: m1 :: ms => m ++ [0x2C] ++ joinMembers (m1 :: ms)

mutual
/-- The encoder `json.Marshal` picks by the kind of the value
(`newTypeEncoder`): `stringEncoder` writes the quoted string, `structEncoder`
the members between braces, and `unsupportedTypeEncoder` fails with an
`UnsupportedTypeError`.  The first error ends the encoding. -/
def encodeValue : GoValue → Except Error (List Nat)
  | .string s => .ok (quote s)
  | .unsupported => .error (.json .unsupportedTypeError)
  | .struct fields =>
    match encodeFields fields with
    | .ok members => .ok ([0x7B] ++ joinMembers members ++ [0x7D])
    | .error err => .error err

/-- The members `structEncoder` writes for the fields of a struct, in
declaration order. -/
def encodeFields : GoFields → Except Error (List (List Nat))
  | .nil => .ok []
  | .cons name anonymous v rest =>
    match encodeField name anonymous v, encodeFields rest with
    | .error err, _ => .error err
    | _, .error err => .error err
    | .ok here, .ok there => .ok (here ++ there)

/-- The members one field contributes: an embedded struct without a tag
contributes its own fields, which are promoted (`typeFields`); any other field
is one member, its name between quotes, a colon and its encoded value.  The
types modelled have no tags and no clashing names. -/
def encodeField (name : List Nat) (anonymous : Bool) :
    GoValue → Except Error (List (List Nat))
  | .string s => .ok [[0x22] ++ name ++ [0x22, 0x3A] ++ quote s]
  | .unsupported => .error (.json .unsupportedTypeError)
  | .struct inner =>
    if anonymous then encodeFields inner
    else
      match encodeFields inner with
      | .ok members =>
        .ok [[0x22] ++ name ++ [0x22, 0x3A] ++ ([0x7B] ++ joinMembers members ++ [0x7D])]
      | .error err => .error err
end

/-- The value `json.Marshal` receives for a `SessionToken`: a struct whose one
field is the embedded struct `SessionLocation`, with the string fields `Host`
and `SessionId`. -/
def SessionToken.reflect (t : SessionToken) : GoValue :=
  .struct
    (.cons [0x53, 0x65, 0x73, 0x73, 0x69, 0x6F, 0x6E, 0x4C, 0x6F, 0x63, 0x61, 0x74, 0x69,
        0x6F, 0x6E] true
      (.struct
        (.cons [0x48, 0x6F, 0x73, 0x74] false (.string t.SessionLocation.Host)
          (.cons [0x53, 0x65, 0x73, 0x73, 0x69, 0x6F, 0x6E, 0x49, 0x64] false
            (.string t.SessionLocation.SessionId) .nil)))
      .nil)

/-- Go's `json.Marshal` on a `SessionToken`: the bytes the encoder wrote, or
nil and the error it ended with. -/
def jsonMarshal (t : SessionToken) : List Nat × Option Error :=
  match encodeValue t.reflect with
  | .ok sessionTokenBytes => (sessionTokenBytes, none)
  | .error err => ([], some err)

/-- Go's `MarshallSessionToken`. -/
def MarshallSessionToken (sessionToken : SessionToken) : List Nat × Option Error :=
  match jsonMarshal sessionToken with
  | (_, some err) => ([], some err)
  | (sessionTokenBytes, none) => (sessionTokenBytes, none)

/-! ## Part 1d: `encoding/json`, the scanner -/

/-- Entries of the scanner's `parseState` stack. -/
inductive ParseState where
  | parseObjectKey
  | parseObjectValue
  | parseArrayValue
  deriving DecidableEq

/-- Values returned by the scanner's transition functions. -/
inductive Opcode where
  | scanContinue
  | scanBeginLiteral
  | scanBeginObject
  | scanObjectKey
  | scanObjectValue
  | scanEndObject
  | scanBeginArray
  | scanArrayValue
  | scanEndArray
  | scanSkipSpace
  | scanEnd
  | scanError
  deriving DecidableEq

/-- The transition function currently installed in `scanner.step`. -/
inductive StepFn where
  | stateBeginValueOrEmpty
  | stateBeginValue
  | stateBeginStringOrEmpty
  | stateBeginString
  | stateEndValue
  | stateEndTop
  | stateInString
  | stateInStringEsc
  | stateInStringEscU
  | stateInStringEscU1
  | stateInStringEscU12
  | stateInStringEscU123
  | stateNeg
  | state1
  | state0
  | stateDot
  | stateDot0
  | stateE
  | stateESign
  | stateE0
  | stateT
  | stateTr
  | stateTru
  | stateF
  | stateFa
  | stateFal
  | stateFals
  | stateN
  | stateNu
  | stateNul
  | stateError
  deriving DecidableEq

/-- Go's `scanner`: the installed transition function, the `endTop` flag, the
stack of open composite values (innermost first) and whether `err` is set. -/
structure Scanner where
  step : StepFn
  endTop : Bool
  parseState : List ParseState
  err : Bool
  deriving DecidableEq

/-- Go's `isSpace`. -/
def isSpace (c : Nat) : Bool :=
  decide (c ≤ 0x20 ∧ (c = 0x20 ∨ c = 0x09 ∨ c = 0x0D ∨ c = 0x0A))

/-- Nesting depth above which the scanner reports an error. -/
def maxNestingDepth : Nat := 10000

/-- Hexadecimal digit test used by the `\u` escape states. -/
def isHexDigit (c : Nat) : Bool :=
  decide ((0x30 ≤ c ∧ c ≤ 0x39) ∨ (0x61 ≤ c ∧ c ≤ 0x66) ∨ (0x41 ≤ c ∧ c ≤ 0x46))

/-- Decimal digit test. -/
def isDigit (c : Nat) : Bool := decide (0x30 ≤ c ∧ c ≤ 0x39)

namespace Scanner

/-- Go's `scanner.reset`. -/
def reset : Scanner :=
  { step := .stateBeginValue, endTop := false, parseState := [], err := false }

/-- Go's `scanner.error`: records the error and installs `stateError`. -/
def error (s : Scanner) : Scanner × Opcode :=
  ({ s with step := .stateError, err := true }, .scanError)

/-- Install the next transition function and return an opcode. -/
def goto (s : Scanner) (f : StepFn) (op : Opcode) : Scanner × Opcode :=
  ({ s with step := f }, op)

/-- Go's `scanner.pushParseState`, after `step` has been set to `f`. -/
def pushParseState (s : Scanner) (f : StepFn) (newParseState : ParseState)
    (successState : Opcode) : Scanner × Opcode :=
  if s.parseState.length + 1 ≤ maxNestingDepth then
    ({ s with step := f, parseState := newParseState :: s.parseState }, successState)
  else
    error { s with step := f, parseState := newParseState :: s.parseState }

/-- Go's `scanner.popParseState`. -/
def popParseState (s : Scanner) : Scanner :=
  match s.parseState.tail with
  | [] => { s with parseState := [], step := .stateEndTop, endTop := true }
  | ps => { s with parseState := ps, step := .stateEndValue }

/-- Go's `stateEndTop`; the opcode is `scanEnd` even when an error is recorded. -/
def stateEndTop (s : Scanner) (c : Nat) : Scanner × Opcode :=
  if isSpace c then (s, .scanEnd) else ((error s).1, .scanEnd)

/-- Go's `stateEndValue`. -/
def stateEndValue (s : Scanner) (c : Nat) : Scanner × Opcode :=
  match s.parseState with
  | [] => stateEndTop { s with step := .stateEndTop, endTop := true } c
  | ps :: below =>
    if isSpace c then goto s .stateEndValue .scanSkipSpace
    else
      match ps with
      | .parseObjectKey =>
        if c = 0x3A then
          ({ s with parseState := .parseObjectValue :: below, step := .stateBeginValue },
            .scanObjectKey)
        else error s
      | .parseObjectValue =>
        if c = 0x2C then
          ({ s with parseState := .parseObjectKey :: below, step := .stateBeginString },
            .scanObjectValue)
        else if c = 0x7D then (popParseState s, .scanEndObject)
        else error s
      | .parseArrayValue =>
        if c = 0x2C then goto s .stateBeginValue .scanArrayValue
        else if c = 0x5D then (popParseState s, .scanEndArray)
        else error s

/-- Go's `stateBeginValue`. -/
def stateBeginValue (s : Scanner) (c : Nat) : Scanner × Opcode :=
  if isSpace c then (s, .scanSkipSpace)
  else if c = 0x7B then pushParseState s .stateBeginStringOrEmpty .parseObjectKey .scanBeginObject
  else if c = 0x5B then pushParseState s .stateBeginValueOrEmpty .parseArrayValue .scanBeginArray
  else if c = 0x22 then goto s .stateInString .scanBeginLiteral
  else if c = 0x2D then goto s .stateNeg .scanBeginLiteral
  else if c = 0x30 then goto s .state0 .scanBeginLiteral
  else if c = 0x74 then goto s .stateT .scanBeginLiteral
  else if c = 0x66 then goto s .stateF .scanBeginLiteral
  else if c = 0x6E then goto s .stateN .scanBeginLiteral
  else if 0x31 ≤ c ∧ c ≤ 0x39 then goto s .state1 .scanBeginLiteral
  else error s

/-- Go's `stateBeginString`. -/
def stateBeginString (s : Scanner) (c : Nat) : Scanner × Opcode :=
  if isSpace c then (s, .scanSkipSpace)
  else if c = 0x22 then goto s .stateInString .scanBeginLiteral
  else error s

/-- Go's `state0`, also the tail of `state1`. -/
def state0 (s : Scanner) (c : Nat) : Scanner × Opcode :=
  if c = 0x2E then goto s .stateDot .scanContinue
  else if c = 0x65 ∨ c = 0x45 then goto s .stateE .scanContinue
  else stateEndValue s c

/-- Go's `stateESign`, also the tail of `stateE`. -/
def stateESign (s : Scanner) (c : Nat) : Scanner × Opcode :=
  if isDigit c then goto s .stateE0 .scanContinue else error s

/-- One letter of the literals `true`, `false` and `null`. -/
def expect (s : Scanner) (c want : Nat) (f : StepFn) : Scanner × Opcode :=
  if c = want then goto s f .scanContinue else error s

/-- The call `s.step(s, c)`: dispatch on the installed transition function. -/
def stepByte (s : Scanner) (c : Nat) : Scanner × Opcode :=
  match s.step with
  | .stateBeginValueOrEmpty =>
    if isSpace c then (s, .scanSkipSpace)
    else if c = 0x5D then stateEndValue s c
    else stateBeginValue s c
  | .stateBeginValue => stateBeginValue s c
  | .stateBeginStringOrEmpty =>
    if isSpace c then (s, .scanSkipSpace)
    else if c = 0x7D then
      stateEndValue { s with parseState := .parseObjectValue :: s.parseState.tail } c
    else stateBeginString s c
  | .stateBeginString => stateBeginString s c
  | .stateEndValue => stateEndValue s c
  | .stateEndTop => stateEndTop s c
  | .stateInString =>
    if c = 0x22 then goto s .stateEndValue .scanContinue
    else if c = 0x5C then goto s .stateInStringEsc .scanContinue
    else if c < 0x20 then error s
    else (s, .scanContinue)
  | .stateInStringEsc =>
    if c = 0x62 ∨ c = 0x66 ∨ c = 0x6E ∨ c = 0x72 ∨ c = 0x74 ∨ c = 0x5C ∨ c = 0x2F ∨ c = 0x22 then
      goto s .stateInString .scanContinue
    else if c = 0x75 then goto s .stateInStringEscU .scanContinue
    else error s
  | .stateInStringEscU =>
    if isHexDigit c then goto s .stateInStringEscU1 .scanContinue else error s
  | .stateInStringEscU1 =>
    if isHexDigit c then goto s .stateInStringEscU12 .scanContinue else error s
  | .stateInStringEscU12 =>
    if isHexDigit c then goto s .stateInStringEscU123 .scanContinue else error s
  | .stateInStringEscU123 =>
    if isHexDigit c then goto s .stateInString .scanContinue else error s
  | .stateNeg =>
    if c = 0x30 then goto s .state0 .scanContinue
    else if 0x31 ≤ c ∧ c ≤ 0x39 then goto s .state1 .scanContinue
    else error s
  | .state1 => if isDigit c then goto s .state1 .scanContinue else state0 s c
  | .state0 => state0 s c
  | .stateDot => if isDigit c then goto s .stateDot0 .scanContinue else error s
  | .stateDot0 =>
    if isDigit c then (s, .scanContinue)
    else if c = 0x65 ∨ c = 0x45 then goto s .stateE .scanContinue
    else stateEndValue s c
  | .stateE =>
    if c = 0x2B ∨ c = 0x2D then goto s .stateESign .scanContinue else stateESign s c
  | .stateESign => stateESign s c
  | .stateE0 => if isDigit c then (s, .scanContinue) else stateEndValue s c
  | .stateT => expect s c 0x72 .stateTr
  | .stateTr => expect s c 0x75 .stateTru
  | .stateTru => expect s c 0x65 .stateEndValue
  | .stateF => expect s c 0x61 .stateFa
  | .stateFa => expect s c 0x6C .stateFal
  | .stateFal => expect s c 0x73 .stateFals
  | .stateFals => expect s c 0x65 .stateEndValue
  | .stateN => expect s c 0x75 .stateNu
  | .stateNu => expect s c 0x6C .stateNul
  | .stateNul => expect s c 0x6C .stateEndValue
  | .stateError => (s, .scanError)

/-- Go's `scanner.eof`, as a test: `true` when the input read so far is one
complete JSON value. -/
def eof (s : Scanner) : Bool :=
  if s.err then false
  else if s.endTop then true
  else (s.stepByte 0x20).1.endTop

end Scanner

/-! ## Part 1e: `encoding/json`, decoding -/

/-- Value of one hexadecimal digit, as in `getu4`. -/
def hexVal (c : Nat) : Option Nat :=
  if 0x30 ≤ c ∧ c ≤ 0x39 then some (c - 0x30)
  else if 0x61 ≤ c ∧ c ≤ 0x66 then some (c - 0x61 + 10)
  else if 0x41 ≤ c ∧ c ≤ 0x46 then some (c - 0x41 + 10)
  else none

/-- Go's `getu4` on the four digits that follow `\u`. -/
def getu4 (h1 h2 h3 h4 : Nat) : Option Nat :=
  match hexVal h1, hexVal h2, hexVal h3, hexVal h4 with
  | some a, some b, some c, some d => some (((a * 16 + b) * 16 + c) * 16 + d)
  | _, _, _, _ => none

/-- Go's `utf16.IsSurrogate`. -/
def isSurrogate (r : Nat) : Bool := decide (0xD800 ≤ r ∧ r < 0xE000)

/-- Go's `utf16.DecodeRune`: the code point of a surrogate pair, U+FFFD when
the pair is not valid. -/
def utf16DecodeRune (r1 r2 : Nat) : Nat :=
  if 0xD800 ≤ r1 ∧ r1 < 0xDC00 ∧ 0xDC00 ≤ r2 ∧ r2 < 0xE000 then
    (r1 - 0xD800) * 1024 + (r2 - 0xDC00) + 0x10000
  else RuneError

/-- The rune written for a `\u` escape with value `rr` followed by `next`,
and whether a second escape was consumed as the low half of a pair. -/
def escapedRune (rr : Nat) (next : List Nat) : Nat × Bool :=
  if isSurrogate rr then
    match next with
    | a :: b :: g1 :: g2 :: g3 :: g4 :: _ =>
      if a = 0x5C ∧ b = 0x75 then
        match getu4 g1 g2 g3 g4 with
        | some rr1 =>
          if utf16DecodeRune rr rr1 ≠ RuneError then (utf16DecodeRune rr rr1, true)
          else (RuneError, false)
        | none => (RuneError, false)
      else (RuneError, false)
    | _ => (RuneError, false)
  else (rr, false)

/-- One iteration of the loop of `unquoteBytes` at a position holding `c`
followed by `rest`: the bytes written and the number of input bytes consumed;
`none` is Go's `ok = false`.  An escape is resolved, an ASCII byte is copied,
and any other byte is decoded and encoded again, so that a byte that does not
start a valid encoding becomes U+FFFD. -/
def unquoteStep (c : Nat) (rest : List Nat) : Option (List Nat × Nat) :=
  if c = 0x5C then
    match rest with
    | [] => none
    | e :: rest1 =>
      if e = 0x22 ∨ e = 0x5C ∨ e = 0x2F ∨ e = 0x27 then some ([e], 2)
      else if e = 0x62 then some ([0x08], 2)
      else if e = 0x66 then some ([0x0C], 2)
      else if e = 0x6E then some ([0x0A], 2)
      else if e = 0x72 then some ([0x0D], 2)
      else if e = 0x74 then some ([0x09], 2)
      else if e = 0x75 then
        match rest1 with
        | h1 :: h2 :: h3 :: h4 :: rest2 =>
          match getu4 h1 h2 h3 h4 with
          | none => none
          | some rr =>
            some (encodeRune (escapedRune rr rest2).1,
              if (escapedRune rr rest2).2 then 12 else 6)
        | _ => none
      else none
  else if c = 0x22 ∨ c < 0x20 then none
  else if c < 0x80 then some ([c], 1)
  else some (encodeRune (decodeRune (c :: rest)).1, (decodeRune (c :: rest)).2)

/-- Loop of `unquoteBytes`: `skip` counts the input bytes still to pass over
because the previous iteration consumed them. -/
def unquoteFrom : Nat → List Nat → Option (List Nat)
  | _, [] => some []
  | skip + 1, _ :: rest => unquoteFrom skip rest
  | 0, c :: rest =>
    match unquoteStep c rest with
    | none => none
    | some (out, width) => (unquoteFrom (width - 1) rest).map (out ++ ·)

/-- Go's `unquoteBytes` on the contents of a string literal (the bytes between
the quotes). -/
def unquote (s : List Nat) : Option (List Nat) := unquoteFrom 0 s

/-- Go's `foldRune` as far as it can reach ASCII: the only non-ASCII runes
whose case orbit contains an ASCII letter are U+017F and U+212A. -/
def foldRune (r : Nat) : Nat :=
  if r = 0x17F then 0x53 else if r = 0x212A then 0x4B else r

/-- Loop of `foldName`: ASCII letters are upper-cased, every other rune is
decoded, folded and encoded again; `skip` counts the input bytes still to pass
over because they belong to the rune decoded last. -/
def foldNameFrom : Nat → List Nat → List Nat
  | _, [] => []
  | skip + 1, _ :: rest => foldNameFrom skip rest
  | 0, c :: rest =>
    if c < 0x80 then
      (if 0x61 ≤ c ∧ c ≤ 0x7A then c - 0x20 else c) :: foldNameFrom 0 rest
    else
      encodeRune (foldRune (decodeRune (c :: rest)).1) ++
        foldNameFrom ((decodeRune (c :: rest)).2 - 1) rest

/-- Go's `foldName`. -/
def foldName (name : List Nat) : List Nat := foldNameFrom 0 name

/-- The two (promoted) fields of `SessionToken`. -/
inductive Field where
  | Host
  | SessionId
  deriving DecidableEq

/-- Field selected by an object key: an exact match on the field name first,
then a match up to case folding. -/
def lookupField (key : List Nat) : Option Field :=
  if key = [0x48, 0x6F, 0x73, 0x74] then some .Host
  else if key = [0x53, 0x65, 0x73, 0x73, 0x69, 0x6F, 0x6E, 0x49, 0x64] then some .SessionId
  else if foldName key = [0x48, 0x4F, 0x53, 0x54] then some .Host
  else if foldName key = [0x53, 0x45, 0x53, 0x53, 0x49, 0x4F, 0x4E, 0x49, 0x44] then
    some .SessionId
  else none

/-- Assignment of a decoded string to a field. -/
def Field.store (f : Field) (t : SessionToken) (s : List Nat) : SessionToken :=
  match f with
  | .Host => { t with SessionLocation := { t.SessionLocation with Host := s } }
  | .SessionId => { t with SessionLocation := { t.SessionLocation with SessionId := s } }

/-- Go's `decodeState` while a value is decoded into a `SessionToken`: the
scanner, the contents of the string literal being read, the field selected by
the last key of the top-level object, the value being filled in and whether a
type error has been saved. -/
structure DecodeState where
  scan : Scanner
  lit : List Nat
  field : Option Field
  v : SessionToken
  savedError : Bool
  deriving DecidableEq

namespace DecodeState

/-- Whether the scanner is inside a string literal. -/
def inString (f : StepFn) : Bool :=
  match f with
  | .stateInString | .stateInStringEsc | .stateInStringEscU | .stateInStringEscU1
  | .stateInStringEscU12 | .stateInStringEscU123 => true
  | _ => false

/-- Start of a value (`d.value`): at the top level only an object or `null`
fits the struct; as the value of a known key only a string or `null` fits the
field; under an unknown key and deeper down everything is skipped. -/
def beginValue (d : DecodeState) (op : Opcode) (c : Nat) : DecodeState :=
  let d := if op = .scanBeginLiteral ∧ c = 0x22 then { d with lit := [] } else d
  match d.scan.parseState with
  | [] =>
    if op = .scanBeginObject ∨ (op = .scanBeginLiteral ∧ c = 0x6E) then d
    else { d with savedError := true }
  | [.parseObjectValue] =>
    if d.field.isSome ∧ ¬ (op = .scanBeginLiteral ∧ (c = 0x22 ∨ c = 0x6E)) then
      { d with savedError := true }
    else d
  | _ => d

/-- End of a string literal: a key of the top-level object selects a field, a
value of the top-level object is stored into the selected field. -/
def endString (d : DecodeState) : DecodeState :=
  match d.scan.parseState with
  | [.parseObjectKey] => { d with field := (unquote d.lit).bind lookupField }
  | [.parseObjectValue] =>
    match d.field, unquote d.lit with
    | some f, some s => { d with v := f.store d.v s }
    | _, _ => d
  | _ => d

/-- One byte of input: the decoder acts on the opcode the scanner returns and
then adopts the scanner's new state. -/
def next (d : DecodeState) (c : Nat) : DecodeState :=
  let r := d.scan.stepByte c
  let d1 :=
    match r.2 with
    | .scanBeginLiteral | .scanBeginObject | .scanBeginArray => beginValue d r.2 c
    | .scanContinue =>
      if d.scan.step = StepFn.stateInString ∧ c = 0x22 then endString d
      else if inString d.scan.step then { d with lit := d.lit ++ [c] }
      else d
    | _ => d
  { d1 with scan := r.1 }

/-- State before the first byte. -/
def init (v : SessionToken) : DecodeState :=
  { scan := Scanner.reset, lit := [], field := none, v := v, savedError := false }

end DecodeState

/-- Go's `json.Unmarshal` into a `SessionToken` holding `v`: a syntax error is
reported before anything is stored (`checkValid`); otherwise the members are
stored in input order and the first saved type error, if any, is returned. -/
def jsonUnmarshal (data : List Nat) (v : SessionToken) : SessionToken × Option Error :=
  let d := data.foldl DecodeState.next (DecodeState.init v)
  if ¬ d.scan.eof then (v, some (.json .syntaxError))
  else if d.savedError then (d.v, some (.json .unmarshalTypeError))
  else (d.v, none)

/-- Go's `UnmarshallSessionToken`. -/
def UnmarshallSessionToken (sessionTokenBytes : List Nat) :
    Option SessionToken × Option Error :=
  if sessionTokenBytes.length = 0 then (none, none)
  else
    match jsonUnmarshal sessionTokenBytes ⟨⟨[], []⟩⟩ with
    | (_, some err) => (none, some err)
    | (sessionToken, none) => (some sessionToken, none)

/-! ## Part 2: the request orchestrator (`http/handle.go`) -/

/-- Modelled from the spec: `api.CreateSessionOptions`, an opaque options value
whose declaration is not among the sources. -/
structure CreateSessionOptions where
  id : Nat
  deriving DecidableEq

/-- Modelled from the spec: `api.AcquireSessionOptions`, an opaque options
value whose declaration is not among the sources. -/
structure AcquireSessionOptions where
  id : Nat
  deriving DecidableEq

/-- Modelled from the spec: `api.CreateAndAcquireSessionOptions`, the pair of
options handed to session creation and acquisition. -/
structure CreateAndAcquireSessionOptions where
  CreateSessionOptions : CreateSessionOptions
  AcquireSessionOptions : AcquireSessionOptions
  deriving DecidableEq

/-- A `context.Context`, identified by a number. -/
structure Context where
  id : Nat
  deriving DecidableEq

/-- The part of `http.Request` this package reads: the request context and
the header, as the map from a header name to its first value (empty when the
header is absent). -/
structure Request where
  Context : Context
  Header : List Nat → List Nat

/-- The part of `http.ResponseWriter` this package can write: the header
fields set so far, the status code (0 before it is written) and the body. -/
structure ResponseWriter where
  Header : List (List Nat × List Nat)
  status : Nat
  body : List Nat
  deriving DecidableEq

/-- Behaviour of a node operation that is handed a continuation: it either
returns `r`, or runs the continuation on `a` and carries on according to the
error the continuation returned. -/
inductive Collab (α ρ : Type) where
  | ret (r : ρ)
  | call (a : α) (k : Option Error → Collab α ρ)

/-- Modelled from the spec: `api.Node`, whose declaration is not among the
sources: the node's own `Host` and the operations of the node collaborator,
`createAndAcquireSession(context, options, continuation(token) -> error) ->
error`, `acquireSession(context, token, options, continuation() -> error) ->
(newLocation | none, error)` and `getParentNodeOf(context, host) -> (node,
error)`, the last one reduced to the parent's `Host`. -/
structure Node where
  Host : List Nat
  CreateAndAcquireSession :
    Context → CreateAndAcquireSessionOptions → Collab SessionToken (Option Error)
  AcquireSession :
    Context → SessionToken → AcquireSessionOptions →
      Collab Unit (Option SessionToken × Option Error)
  GetParentNodeOf : Context → List Nat → Option (List Nat) × Option Error

/-- The struct `HandlerOptions`: nine policies, the last four acting on the
response writer.  `redirectTarget` is the one policy whose shipped
implementation ends in `panic(err)` (`handle_options.go`, line 144), so its
result is either the host it returns or the value it panics with. -/
structure HandlerOptions where
  getAcquireSessionOptions : Request → AcquireSessionOptions
  getCreateSessionOptions : Request → CreateSessionOptions
  getSessionTokenBytes : Request → List Nat
  redirectNewRequest : Request → Node → Bool
  redirectTarget : Request → Node → Except Error (List Nat)
  setSessionTokenBytes : ResponseWriter → List Nat → ResponseWriter
  redirectResponse : ResponseWriter → Request → List Nat → ResponseWriter
  malformedSessionTokenErrorResponse : ResponseWriter → Error → ResponseWriter
  internalServerErrorResponse : ResponseWriter → Error → ResponseWriter

/-- The caller's handler: it may write the response and returns an error or
nil. -/
abbrev Handler := ResponseWriter → Request → SessionToken → ResponseWriter × Option Error

/-- A call made during one run of `Handle`, with the arguments that matter. -/
inductive Event where
  | getSessionTokenBytes
  | malformedSessionTokenErrorResponse (err : Error)
  | setSessionTokenBytes (sessionTokenBytes : List Nat)
  | redirectResponse (host : List Nat)
  | redirectNewRequest
  | redirectTarget
  | getCreateSessionOptions
  | getAcquireSessionOptions
  | CreateAndAcquireSession (ctx : Context) (options : CreateAndAcquireSessionOptions)
  | AcquireSession (ctx : Context) (sessionToken : SessionToken)
      (options : AcquireSessionOptions)
  | handler (sessionToken : SessionToken)
  | internalServerErrorResponse (err : Error)
  | panic (err : Error)
  deriving DecidableEq

/-- The response writer together with the calls made so far, oldest first. -/
structure State where
  w : ResponseWriter
  trace : List Event
  deriving DecidableEq

/-- Result of a piece of `Handle`: it returned `a`, or it panicked. -/
inductive Outcome (α : Type) where
  | ok (a : α) (s : State)
  | panic (s : State)
  deriving DecidableEq

/-- State in which an outcome ended. -/
def Outcome.state {α : Type} : Outcome α → State
  | .ok _ s => s
  | .panic s => s

/-- Record a call. -/
def State.log (s : State) (e : Event) : State := { s with trace := s.trace ++ [e] }

/-- The call `opt.setSessionTokenBytes(w, sessionTokenBytes)`. -/
def State.setSessionTokenBytes (s : State) (opt : HandlerOptions)
    (sessionTokenBytes : List Nat) : State :=
  { w := opt.setSessionTokenBytes s.w sessionTokenBytes,
    trace := s.trace ++ [.setSessionTokenBytes sessionTokenBytes] }

/-- The call `opt.redirectResponse(w, req, host)`. -/
def State.redirectResponse (s : State) (opt : HandlerOptions) (req : Request)
    (host : List Nat) : State :=
  { w := opt.redirectResponse s.w req host, trace := s.trace ++ [.redirectResponse host] }

/-- The call `opt.malformedSessionTokenErrorResponse(w, err)`. -/
def State.malformedSessionTokenErrorResponse (s : State) (opt : HandlerOptions)
    (err : Error) : State :=
  { w := opt.malformedSessionTokenErrorResponse s.w err,
    trace := s.trace ++ [.malformedSessionTokenErrorResponse err] }

/-- The call `opt.internalServerErrorResponse(w, err)`. -/
def State.internalServerErrorResponse (s : State) (opt : HandlerOptions)
    (err : Error) : State :=
  { w := opt.internalServerErrorResponse s.w err,
    trace := s.trace ++ [.internalServerErrorResponse err] }

/-- The call `handler(w, req, sessionToken)`. -/
def State.handler (s : State) (handler : Handler) (req : Request)
    (sessionToken : SessionToken) : Option Error × State :=
  ((handler s.w req sessionToken).2,
   { w := (handler s.w req sessionToken).1, trace := s.trace ++ [.handler sessionToken] })

/-- Run a node operation with the continuation `cont`; a panic inside the
continuation ends the run. -/
def Collab.run {α ρ : Type} (cont : α → State → Outcome (Option Error)) :
    Collab α ρ → State → Outcome ρ
  | .ret r, s => .ok r s
  | .call a k, s =>
    match cont a s with
    | .ok err s1 => Collab.run cont (k err) s1
    | .panic s1 => .panic s1

/-- Go's `dummyClientNeedsRedirect`. -/
def dummyClientNeedsRedirect (n : Node) (_ctx : Context) (sessionToken : SessionToken) :
    Bool × SessionLocation :=
  (decide (sessionToken.Host ≠ n.Host), sessionToken.SessionLocation)

/-- The closure handed to `CreateAndAcquireSession` (lines 102 to 113): encode
the fresh token, panic if that fails, write the bytes to the response, run the
handler. -/
def createContinuation (req : Request) (opt : HandlerOptions) (handler : Handler)
    (sessionToken : SessionToken) (s : State) : Outcome (Option Error) :=
  match MarshallSessionToken sessionToken with
  | (_, some err) => .panic (s.log (.panic err))
  | (sessionTokenBytes, none) =>
    let s1 := s.setSessionTokenBytes opt sessionTokenBytes
    .ok (s1.handler handler req sessionToken).1 (s1.handler handler req sessionToken).2

/-- The closure handed to `AcquireSession` (lines 126 to 128): run the handler
on the token of the request. -/
def acquireContinuation (req : Request) (handler : Handler) (sessionToken : SessionToken)
    (_ : Unit) (s : State) : Outcome (Option Error) :=
  .ok (s.handler handler req sessionToken).1 (s.handler handler req sessionToken).2

/-- The final test of `Handle` (lines 140 to 145). -/
def finish (opt : HandlerOptions) (err : Option Error) (s : State) : Outcome Unit :=
  match err with
  | some err => .ok () (s.internalServerErrorResponse opt err)
  | none => .ok () s

/-- State after `opt.getSessionTokenBytes(req)`, the first call of `Handle`. -/
def start (w : ResponseWriter) : State := { w := w, trace := [.getSessionTokenBytes] }

/-- The call `n.CreateAndAcquireSession(...)` of lines 93 to 113: the two
option policies are evaluated, then the collaborator runs with the creation
closure. -/
def callCreateAndAcquireSession (n : Node) (req : Request) (opt : HandlerOptions)
    (handler : Handler) (s : State) : Outcome (Option Error) :=
  let options : CreateAndAcquireSessionOptions :=
    { CreateSessionOptions := opt.getCreateSessionOptions req,
      AcquireSessionOptions := opt.getAcquireSessionOptions req }
  let s1 := ((s.log .getCreateSessionOptions).log .getAcquireSessionOptions).log
    (.CreateAndAcquireSession req.Context options)
  (n.CreateAndAcquireSession req.Context options).run (createContinuation req opt handler) s1

/-- The call `n.AcquireSession(...)` of lines 118 to 128: the option policy is
evaluated, then the collaborator runs with the acquisition closure. -/
def callAcquireSession (n : Node) (req : Request) (opt : HandlerOptions) (handler : Handler)
    (sessionToken : SessionToken) (s : State) :
    Outcome (Option SessionToken × Option Error) :=
  let options := opt.getAcquireSessionOptions req
  let s1 := (s.log .getAcquireSessionOptions).log
    (.AcquireSession req.Context sessionToken options)
  (n.AcquireSession req.Context sessionToken options).run
    (acquireContinuation req handler sessionToken) s1

/-- Go's `Handle`.  The successive tests on `err` and on `sessionToken` (lines
52, 60, 73 and 89) are written as one case distinction on the pair returned by
`UnmarshallSessionToken`.  The creation closure also assigns the outer
variables `sessionTokenBytes` and `err`; neither assignment can be observed,
since `err` is overwritten by the result of the call and `sessionTokenBytes`
is not read again on that path.  A panic of the creation closure or of the
`redirectTarget` policy ends the run. -/
def Handle (n : Node) (w : ResponseWriter) (req : Request) (opt : HandlerOptions)
    (handler : Handler) : Outcome Unit :=
  -- Try to get the session token from the request.
  let sessionTokenBytes := opt.getSessionTokenBytes req
  let s := start w
  match UnmarshallSessionToken sessionTokenBytes with
  | (_, some err) =>
    -- If there is an error, return an error response.
    .ok () (s.malformedSessionTokenErrorResponse opt err)
  | (some sessionToken, none) =>
    if (dummyClientNeedsRedirect n req.Context sessionToken).1 then
      -- The token belongs to another node: set the token and redirect.
      .ok () ((s.setSessionTokenBytes opt sessionTokenBytes).redirectResponse opt req
        (dummyClientNeedsRedirect n req.Context sessionToken).2.Host)
    else
      -- Acquire the session.
      match callAcquireSession n req opt handler sessionToken s with
      | .panic s2 => .panic s2
      | .ok (newToken, err) s2 =>
        -- If the session has been offloaded, redirect the request.
        finish opt err
          (if err = none ∧ newToken ≠ none then
            (s2.setSessionTokenBytes opt sessionTokenBytes).redirectResponse opt req
              sessionToken.Host
          else s2)
  | (none, none) =>
    -- The client does not already have a session.
    if opt.redirectNewRequest req n then
      -- Get the host to redirect the request to; a panic of the policy ends the run.
      match opt.redirectTarget req n with
      | .ok host =>
        .ok () (((s.log .redirectNewRequest).log .redirectTarget).redirectResponse opt req host)
      | .error err =>
        .panic (((s.log .redirectNewRequest).log .redirectTarget).log (.panic err))
    else
      -- Create a new session and acquire it to run the handler callback.
      match callCreateAndAcquireSession n req opt handler (s.log .redirectNewRequest) with
      | .panic s2 => .panic s2
      | .ok err s2 => finish opt err s2

/-! ### Reading a trace -/

/-- Tokens the handler was invoked with, in order. -/
def handlerRuns (tr : List Event) : List SessionToken :=
  tr.filterMap fun e => match e with | .handler t => some t | _ => none

/-- Byte strings written to the response's token carrier, in order. -/
def carrierWrites (tr : List Event) : List (List Nat) :=
  tr.filterMap fun e => match e with | .setSessionTokenBytes b => some b | _ => none

/-- Destinations of the redirects issued, in order. -/
def redirects (tr : List Event) : List (List Nat) :=
  tr.filterMap fun e => match e with | .redirectResponse h => some h | _ => none

/-- Errors passed to `malformedSessionTokenErrorResponse`, in order. -/
def malformedErrors (tr : List Event) : List Error :=
  tr.filterMap fun e => match e with | .malformedSessionTokenErrorResponse x => some x | _ => none

/-- Errors passed to `internalServerErrorResponse`, in order. -/
def internalErrors (tr : List Event) : List Error :=
  tr.filterMap fun e => match e with | .internalServerErrorResponse x => some x | _ => none

/-- Options of the calls to `CreateAndAcquireSession`, in order. -/
def createCalls (tr : List Event) : List CreateAndAcquireSessionOptions :=
  tr.filterMap fun e => match e with | .CreateAndAcquireSession _ o => some o | _ => none

/-- Token and options of the calls to `AcquireSession`, in order. -/
def acquireCalls (tr : List Event) : List (SessionToken × AcquireSessionOptions) :=
  tr.filterMap fun e => match e with | .AcquireSession _ t o => some (t, o) | _ => none

/-- The collaborator operation runs its continuation at most `k` times,
whatever the continuation returns. -/
def Collab.runsAtMost {α ρ : Type} : Nat → Collab α ρ → Prop
  | _, .ret _ => True
  | 0, .call _ _ => False
  | k + 1, .call _ next => ∀ err, Collab.runsAtMost k (next err)

/-- Number of times the collaborator operation runs the continuation `cont`
in the run that starts in `s`; a run of the continuation that panics is
counted and is the last one. -/
def Collab.runCount {α ρ : Type} (cont : α → State → Outcome (Option Error)) :
    Collab α ρ → State → Nat
  | .ret _, _ => 0
  | .call a k, s =>
    match cont a s with
    | .ok err s1 => Collab.runCount cont (k err) s1 + 1
    | .panic _ => 1

/-- Calls made by the creation closure when it is run on the tokens `ts` one
after the other: each run writes the encoding of its token to the carrier and
then invokes the handler on that token. -/
def createEvents : List SessionToken → List Event
  | [] => []
  | t :: ts =>
    .setSessionTokenBytes (MarshallSessionToken t).1 :: .handler t :: createEvents ts

/-- The call of `internalServerErrorResponse` made for the error `err` of the
collaborator, if any. -/
def surfaced (err : Option Error) : List Event :=
  match err with
  | some e => [.internalServerErrorResponse e]
  | none => []

/-! ## Part 2b: the configuration (`http/handle_options.go`) -/

/-- Go's `CreateHandler`. -/
def CreateHandler (n : Node) (opt : HandlerOptions) (handler : Handler) :
    ResponseWriter → Request → Outcome Unit :=
  fun w req => Handle n w req opt handler

/-- The functions of `net/http`, and the `Error` method of a Go error, that the
default policies call.  The library is not part of the repository; it is
taken as a parameter: `Redirect` is `http.Redirect(w, req, url, code)`, `Error`
is `http.Error(w, text, code)`, `HeaderSet` is `w.Header().Set(key, value)`
and `ErrorString` is `err.Error()`. -/
structure NetHTTP where
  Redirect : ResponseWriter → Request → List Nat → Nat → ResponseWriter
  Error : ResponseWriter → List Nat → Nat → ResponseWriter
  HeaderSet : ResponseWriter → List Nat → List Nat → ResponseWriter
  ErrorString : Ermes.Error → List Nat

/-- The constant `http.StatusFound`. -/
def StatusFound : Nat := 302

/-- The constant `http.StatusBadRequest`. -/
def StatusBadRequest : Nat := 400

/-- The constant `http.StatusInternalServerError`. -/
def StatusInternalServerError : Nat := 500

/-- The constant `DefaultTokenHeaderName`, `X-Ermes-Token`. -/
def DefaultTokenHeaderName : List Nat :=
  [0x58, 0x2D, 0x45, 0x72, 0x6D, 0x65, 0x73, 0x2D, 0x54, 0x6F, 0x6B, 0x65, 0x6E]

/-- Go's `GetSessionTokenBytesFromHeader`: the bytes of
`req.Header.Get(headerName)`. -/
def GetSessionTokenBytesFromHeader (req : Request) (headerName : List Nat) : List Nat :=
  req.Header headerName

/-- Go's `SetSessionTokenBytesToHeader`. -/
def SetSessionTokenBytesToHeader (net : NetHTTP) (w : ResponseWriter)
    (sessionTokenBytes : List Nat) (headerName : List Nat) : ResponseWriter :=
  net.HeaderSet w headerName sessionTokenBytes

/-- Modelled from the spec: `api.DefaultAcquireSessionOptions()`, the "system
default" acquisition options; the function is not among the sources. -/
def DefaultAcquireSessionOptions : AcquireSessionOptions := ⟨0⟩

/-- Modelled from the spec: `api.DefaultCreateSessionOptions()`, the "system
default" creation options; the function is not among the sources. -/
def DefaultCreateSessionOptions : CreateSessionOptions := ⟨0⟩

/-- The default `redirectTarget` (lines 139 to 148): the host of the parent
node; where `GetParentNodeOf` returns an error the closure panics with it, and
where it returns no node and no error the read of `parent.Host` panics with a
nil dereference. -/
def defaultRedirectTarget (req : Request) (node : Node) : Except Error (List Nat) :=
  match node.GetParentNodeOf req.Context node.Host with
  | (_, some err) => .error err
  | (some parentHost, none) => .ok parentHost
  | (none, none) => .error (.other "nil pointer dereference")

/-- Go's `DefaultHandlerOptions`. -/
def DefaultHandlerOptions (net : NetHTTP) : HandlerOptions :=
  { getAcquireSessionOptions := fun _ => DefaultAcquireSessionOptions
    getCreateSessionOptions := fun _ => DefaultCreateSessionOptions
    getSessionTokenBytes := fun req => GetSessionTokenBytesFromHeader req DefaultTokenHeaderName
    redirectNewRequest := fun _ _ => false
    redirectTarget := fun req node => defaultRedirectTarget req node
    setSessionTokenBytes := fun w sessionTokenBytes =>
      SetSessionTokenBytesToHeader net w sessionTokenBytes DefaultTokenHeaderName
    redirectResponse := fun w req host => net.Redirect w req host StatusFound
    malformedSessionTokenErrorResponse := fun w err =>
      net.Error w (net.ErrorString err) StatusBadRequest
    internalServerErrorResponse := fun w err =>
      net.Error w (net.ErrorString err) StatusInternalServerError }

/-- The struct `HandlerOptionsBuilder`.  The Go methods update the builder in
place and return it; here each method returns the updated builder. -/
structure HandlerOptionsBuilder where
  options : HandlerOptions

/-- Go's `NewHandlerOptionsBuilder`. -/
def NewHandlerOptionsBuilder (net : NetHTTP) : HandlerOptionsBuilder :=
  { options := DefaultHandlerOptions net }

namespace HandlerOptionsBuilder

/-- Go's `GetAcquireSessionOptionsFunc`. -/
def GetAcquireSessionOptionsFunc (builder : HandlerOptionsBuilder)
    (GetAcquireSessionOptions : Request → Ermes.AcquireSessionOptions) :
    HandlerOptionsBuilder :=
  { builder with
    options := { builder.options with getAcquireSessionOptions := GetAcquireSessionOptions } }

/-- Go's `AcquireSessionOptions`. -/
def AcquireSessionOptions (builder : HandlerOptionsBuilder)
    (acquireSessionOptions : Ermes.AcquireSessionOptions) : HandlerOptionsBuilder :=
  { builder with
    options := { builder.options with getAcquireSessionOptions := fun _ => acquireSessionOptions } }

/-- Go's `GetCreateSessionOptionsFunc`. -/
def GetCreateSessionOptionsFunc (builder : HandlerOptionsBuilder)
    (CreateSessionOptions : Request → Ermes.CreateSessionOptions) : HandlerOptionsBuilder :=
  { builder with
    options := { builder.options with getCreateSessionOptions := CreateSessionOptions } }

/-- Go's `CreateSessionOptions`. -/
def CreateSessionOptions (builder : HandlerOptionsBuilder)
    (createSessionOptions : Ermes.CreateSessionOptions) : HandlerOptionsBuilder :=
  { builder with
    options := { builder.options with getCreateSessionOptions := fun _ => createSessionOptions } }

/-- Go's `GetSessionTokenBytes`. -/
def GetSessionTokenBytes (builder : HandlerOptionsBuilder)
    (getSessionTokenBytes : Request → List Nat) : HandlerOptionsBuilder :=
  { builder with
    options := { builder.options with getSessionTokenBytes := getSessionTokenBytes } }

/-- Go's `RedirectNewRequest`. -/
def RedirectNewRequest (builder : HandlerOptionsBuilder)
    (redirectNewRequest : Request → Node → Bool) : HandlerOptionsBuilder :=
  { builder with options := { builder.options with redirectNewRequest := redirectNewRequest } }

/-- Go's `RedirectTarget`. -/
def RedirectTarget (builder : HandlerOptionsBuilder)
    (redirectTarget : Request → Node → Except Error (List Nat)) : HandlerOptionsBuilder :=
  { builder with options := { builder.options with redirectTarget := redirectTarget } }

/-- Go's `SetSessionTokenBytes`. -/
def SetSessionTokenBytes (builder : HandlerOptionsBuilder)
    (setSessionTokenBytes : ResponseWriter → List Nat → ResponseWriter) :
    HandlerOptionsBuilder :=
  { builder with
    options := { builder.options with setSessionTokenBytes := setSessionTokenBytes } }

/-- Go's `RedirectResponse`. -/
def RedirectResponse (builder : HandlerOptionsBuilder)
    (redirectResponse : ResponseWriter → Request → List Nat → ResponseWriter) :
    HandlerOptionsBuilder :=
  { builder with options := { builder.options with redirectResponse := redirectResponse } }

/-- Go's `MalformedSessionTokenErrorResponse`. -/
def MalformedSessionTokenErrorResponse (builder : HandlerOptionsBuilder)
    (malformedSessionTokenErrorResponse : ResponseWriter → Error → ResponseWriter) :
    HandlerOptionsBuilder :=
  { builder with
    options := { builder.options with
      malformedSessionTokenErrorResponse := malformedSessionTokenErrorResponse } }

/-- Go's `InternalServerErrorResponse`. -/
def InternalServerErrorResponse (builder : HandlerOptionsBuilder)
    (internalServerErrorResponse : ResponseWriter → Error → ResponseWriter) :
    HandlerOptionsBuilder :=
  { builder with
    options := { builder.options with
      internalServerErrorResponse := internalServerErrorResponse } }

/-- Go's `SessionTokenHeaderName`: both carrier policies use the header
`header`. -/
def SessionTokenHeaderName (builder : HandlerOptionsBuilder) (net : NetHTTP)
    (header : List Nat) : HandlerOptionsBuilder :=
  { builder with
    options := { builder.options with
      getSessionTokenBytes := fun req => GetSessionTokenBytesFromHeader req header
      setSessionTokenBytes := fun w sessionTokenBytes =>
        SetSessionTokenBytesToHeader net w sessionTokenBytes header } }

/-- Go's `Build`. -/
def Build (builder : HandlerOptionsBuilder) : HandlerOptions := builder.options

end HandlerOptionsBuilder

/-! ## Part 2c: Go's `checkValid` -/

/-- The scanner after reading `data` from the state `s`, one `s.step(s, c)` per
byte. -/
def Scanner.run (s : Scanner) (data : List Nat) : Scanner :=
  data.foldl (fun s c => (s.stepByte c).1) s

/-- Go's `checkValid`, as a test: `true` when `data` is one complete JSON
value.  `json.Unmarshal` reports a syntax error exactly when it is `false`. -/
def checkValid (data : List Nat) : Bool := (Scanner.reset.run data).eof

/-- Whether the scanner is inside a composite value that is still open, so
that the top-level value has not ended. -/
def Scanner.inside (s : Scanner) : Bool := !s.parseState.isEmpty && !s.endTop

/-! ## Part 3: concrete nodes, requests and policies used as instances -/

namespace Example

/-- Header that carries the token, `X-Ermes-Token`. -/
def tokenHeader : List Nat :=
  [0x58, 0x2D, 0x45, 0x72, 0x6D, 0x65, 0x73, 0x2D, 0x54, 0x6F, 0x6B, 0x65, 0x6E]

/-- A request whose token carrier holds `carrier`. -/
def request (carrier : List Nat) : Request :=
  { Context := ⟨0⟩, Header := fun name => if name = tokenHeader then carrier else [] }

/-- An untouched response writer. -/
def blank : ResponseWriter := { Header := [], status := 0, body := [] }

/-- Policies that read and write the carrier header, answer a fixed
`redirectNew` to the new-request question, redirect new requests to host `P`
and answer with the status codes 302, 400 and 500. -/
def options (redirectNew : Bool) : HandlerOptions :=
  { getAcquireSessionOptions := fun _ => ⟨1⟩
    getCreateSessionOptions := fun _ => ⟨2⟩
    getSessionTokenBytes := fun req => req.Header tokenHeader
    redirectNewRequest := fun _ _ => redirectNew
    redirectTarget := fun _ _ => .ok [0x50]
    setSessionTokenBytes := fun w b => { w with Header := (tokenHeader, b) :: w.Header }
    redirectResponse := fun w _ host => { w with status := 302, body := host }
    malformedSessionTokenErrorResponse := fun w _ => { w with status := 400 }
    internalServerErrorResponse := fun w _ => { w with status := 500 } }

/-- A handler that writes one byte of body and returns `result`. -/
def handler (result : Option Error) : Handler :=
  fun w _ _ => ({ w with body := w.body ++ [0x21] }, result)

/-- The token with `Host` "A" and `SessionId` "s1". -/
def tokenA : SessionToken := ⟨⟨[0x41], [0x73, 0x31]⟩⟩

/-- The token with `Host` "B" and `SessionId` "s1". -/
def tokenB : SessionToken := ⟨⟨[0x42], [0x73, 0x31]⟩⟩

/-- The token with `Host` "C" and `SessionId` "s1". -/
def tokenC : SessionToken := ⟨⟨[0x43], [0x73, 0x31]⟩⟩

/-- The bytes `\x7b"Host":"A","SessionId":"s1"\x7d`. -/
def bytesA : List Nat :=
  [0x7B, 0x22, 0x48, 0x6F, 0x73, 0x74, 0x22, 0x3A, 0x22, 0x41, 0x22, 0x2C, 0x22, 0x53, 0x65,
   0x73, 0x73, 0x69, 0x6F, 0x6E, 0x49, 0x64, 0x22, 0x3A, 0x22, 0x73, 0x31, 0x22, 0x7D]

/-- The bytes `\x7b"Host":"B","SessionId":"s1"\x7d`. -/
def bytesB : List Nat :=
  [0x7B, 0x22, 0x48, 0x6F, 0x73, 0x74, 0x22, 0x3A, 0x22, 0x42, 0x22, 0x2C, 0x22, 0x53, 0x65,
   0x73, 0x73, 0x69, 0x6F, 0x6E, 0x49, 0x64, 0x22, 0x3A, 0x22, 0x73, 0x31, 0x22, 0x7D]

/-- Node "A" whose collaborator creates the session `tokenA`, runs the
continuation once and returns what the continuation returned; on acquisition
it runs the continuation once and reports no new location. -/
def nodeA : Node :=
  { Host := [0x41]
    CreateAndAcquireSession := fun _ _ => .call tokenA (fun err => .ret err)
    AcquireSession := fun _ _ _ => .call () (fun err => .ret (none, err))
    GetParentNodeOf := fun _ _ => (some [0x50], none) }

/-- Node "A" whose sessions have all been offloaded to node "C": acquisition
reports the new location without running the continuation. -/
def nodeAOffloaded : Node :=
  { nodeA with AcquireSession := fun _ t _ => .ret (some ⟨⟨[0x43], t.SessionId⟩⟩, none) }

/-- Node "A" whose acquisition runs the continuation once and then reports a
new location on node "C". -/
def nodeAOffloading : Node :=
  { nodeA with
    AcquireSession := fun _ t _ => .call () (fun err => .ret (some ⟨⟨[0x43], t.SessionId⟩⟩, err)) }

/-- A stand-in for `net/http`: a redirect sets the status and writes the
destination to the body, an error sets the status and writes its text, and a
header is set by putting it in front of the others with another name. -/
def net : NetHTTP :=
  { Redirect := fun w _ url code => { w with status := code, body := url }
    Error := fun w text code => { w with status := code, body := text }
    HeaderSet := fun w key value =>
      { w with Header := (key, value) :: w.Header.filter (fun kv => kv.1 ≠ key) }
    ErrorString := fun err =>
      match err with
      | .json .syntaxError => [0x73]
      | .json .unmarshalTypeError => [0x74]
      | .json .unsupportedTypeError => [0x75]
      | .other _ => [0x6F] }

/-- Node "A" without a parent: `GetParentNodeOf` returns an error. -/
def nodeOrphan : Node :=
  { nodeA with GetParentNodeOf := fun _ _ => (none, some (.other "no parent")) }

end Example

/-! # Theorems -/

/-! ### The encoder on a `SessionToken` -/

/-- The encoder fails on a struct that has a field of a kind it cannot
encode, also when the field is promoted from an embedded struct. -/
theorem encodeValue_unsupported (name inner : List Nat) (s : List Nat) :
    encodeValue (.struct (.cons name true
      (.struct (.cons inner false (.string s) (.cons inner false .unsupported .nil)))
      .nil)) = .error (.json .unsupportedTypeError) := by
  simp [encodeValue, encodeFields, encodeField]

/-- For a `SessionToken` every encoder the dispatch reaches is `structEncoder`
or `stringEncoder`: the encoding succeeds with the two promoted members
between braces. -/
theorem jsonMarshal_eq (t : SessionToken) :
    jsonMarshal t =
      ([0x7B, 0x22, 0x48, 0x6F, 0x73, 0x74, 0x22, 0x3A] ++ quote t.Host ++
       [0x2C, 0x22, 0x53, 0x65, 0x73, 0x73, 0x69, 0x6F, 0x6E, 0x49, 0x64, 0x22, 0x3A] ++
       quote t.SessionId ++ [0x7D], none) := by
  simp [jsonMarshal, SessionToken.reflect, encodeValue, encodeFields, encodeField,
    joinMembers, SessionToken.Host, SessionToken.SessionId]

theorem MarshallSessionToken_eq (t : SessionToken) :
    MarshallSessionToken t = ((jsonMarshal t).1, none) := by
  simp [MarshallSessionToken, jsonMarshal_eq]

/-! ## The codec -/

/-! ### `unicode/utf8`: decoding and encoding one rune -/

theorem decodeRune_two (b b1 : Nat) (r : List Nat) (h0 : 0xC2 ≤ b) (h1 : b ≤ 0xDF)
    (h2 : 0x80 ≤ b1) (h3 : b1 ≤ 0xBF) :
    decodeRune (b :: b1 :: r) = ((b % 32) * 64 + b1 % 64, 2) := by
  have hs : seqSize b = 2 := by simp [seqSize, h0, h1]
  have hlo : acceptLo b = 0x80 := by
    unfold acceptLo; split_ifs <;> omega
  have hhi : acceptHi b = 0xBF := by
    unfold acceptHi; split_ifs <;> omega
  have hb : ¬ b < 0x80 := by omega
  have hacc : ¬ (b1 < 0x80 ∨ 0xBF < b1) := by omega
  simp [decodeRune, hs, hlo, hhi, hb, hacc]

theorem decodeRune_three (b b1 b2 : Nat) (r : List Nat) (h0 : 0xE0 ≤ b) (h1 : b ≤ 0xEF)
    (h2 : acceptLo b ≤ b1) (h3 : b1 ≤ acceptHi b) (h4 : 0x80 ≤ b2) (h5 : b2 ≤ 0xBF) :
    decodeRune (b :: b1 :: b2 :: r) = ((b % 16) * 4096 + (b1 % 64) * 64 + b2 % 64, 3) := by
  have hs : seqSize b = 3 := by
    unfold seqSize; split_ifs <;> omega
  have hb : ¬ b < 0x80 := by omega
  have hacc : ¬ (b1 < acceptLo b ∨ acceptHi b < b1) := by omega
  have hacc2 : ¬ (b2 < 0x80 ∨ 0xBF < b2) := by omega
  simp [decodeRune, hs, hb, hacc, hacc2]

theorem decodeRune_four (b b1 b2 b3 : Nat) (r : List Nat) (h0 : 0xF0 ≤ b) (h1 : b ≤ 0xF4)
    (h2 : acceptLo b ≤ b1) (h3 : b1 ≤ acceptHi b) (h4 : 0x80 ≤ b2) (h5 : b2 ≤ 0xBF)
    (h6 : 0x80 ≤ b3) (h7 : b3 ≤ 0xBF) :
    decodeRune (b :: b1 :: b2 :: b3 :: r) =
      ((b % 8) * 262144 + (b1 % 64) * 4096 + (b2 % 64) * 64 + b3 % 64, 4) := by
  have hs : seqSize b = 4 := by
    unfold seqSize; split_ifs <;> omega
  have hb : ¬ b < 0x80 := by omega
  have hacc : ¬ (b1 < acceptLo b ∨ acceptHi b < b1) := by omega
  have hacc2 : ¬ (b2 < 0x80 ∨ 0xBF < b2) := by omega
  have hacc3 : ¬ (b3 < 0x80 ∨ 0xBF < b3) := by omega
  simp [decodeRune, hs, hb, hacc, hacc2, hacc3]

theorem encodeRune_two (b b1 : Nat) (h0 : 0xC2 ≤ b) (h1 : b ≤ 0xDF)
    (h2 : 0x80 ≤ b1) (h3 : b1 ≤ 0xBF) :
    encodeRune ((b % 32) * 64 + b1 % 64) = [b, b1] := by
  unfold encodeRune
  rw [if_neg (by omega), if_pos (by omega)]
  congr 1
  · omega
  · congr 1
    omega

theorem encodeRune_three (b b1 b2 : Nat) (h0 : 0xE0 ≤ b) (h1 : b ≤ 0xEF)
    (h2 : acceptLo b ≤ b1) (h3 : b1 ≤ acceptHi b) (h4 : 0x80 ≤ b2) (h5 : b2 ≤ 0xBF) :
    encodeRune ((b % 16) * 4096 + (b1 % 64) * 64 + b2 % 64) = [b, b1, b2] := by
  unfold acceptLo at h2
  unfold acceptHi at h3
  unfold encodeRune MaxRune
  split_ifs at h2 h3 <;>
  · rw [if_neg (by omega), if_neg (by omega), if_neg (by omega), if_pos (by omega)]
    congr 1
    · omega
    · congr 1
      · omega
      · congr 1
        omega

theorem encodeRune_four (b b1 b2 b3 : Nat) (h0 : 0xF0 ≤ b) (h1 : b ≤ 0xF4)
    (h2 : acceptLo b ≤ b1) (h3 : b1 ≤ acceptHi b) (h4 : 0x80 ≤ b2) (h5 : b2 ≤ 0xBF)
    (h6 : 0x80 ≤ b3) (h7 : b3 ≤ 0xBF) :
    encodeRune ((b % 8) * 262144 + (b1 % 64) * 4096 + (b2 % 64) * 64 + b3 % 64) =
      [b, b1, b2, b3] := by
  unfold acceptLo at h2
  unfold acceptHi at h3
  unfold encodeRune MaxRune
  split_ifs at h2 h3 <;>
  · rw [if_neg (by omega), if_neg (by omega), if_neg (by omega), if_neg (by omega)]
    congr 1
    · omega
    · congr 1
      · omega
      · congr 1
        · omega
        · congr 1
          omega

theorem seqSize_cases (b : Nat) :
    (seqSize b = 0) ∨ (seqSize b = 2 ∧ 0xC2 ≤ b ∧ b ≤ 0xDF) ∨
    (seqSize b = 3 ∧ 0xE0 ≤ b ∧ b ≤ 0xEF) ∨ (seqSize b = 4 ∧ 0xF0 ≤ b ∧ b ≤ 0xF4) := by
  unfold seqSize
  split_ifs <;> omega

theorem accept_two (b : Nat) (h0 : 0xC2 ≤ b) (h1 : b ≤ 0xDF) :
    acceptLo b = 0x80 ∧ acceptHi b = 0xBF := by
  unfold acceptLo acceptHi
  constructor <;> split_ifs <;> omega

/-- The width `decodeRune` reports tells how the input starts. -/
theorem decodeRune_width (b : Nat) (rest : List Nat) (hb : ¬ b < 0x80) :
    ((decodeRune (b :: rest)).2 = 1 ∧ (decodeRune (b :: rest)).1 = RuneError) ∨
    (∃ b1 r1, rest = b1 :: r1 ∧ (decodeRune (b :: rest)).2 = 2 ∧
      0xC2 ≤ b ∧ b ≤ 0xDF ∧ 0x80 ≤ b1 ∧ b1 ≤ 0xBF) ∨
    (∃ b1 b2 r2, rest = b1 :: b2 :: r2 ∧ (decodeRune (b :: rest)).2 = 3 ∧
      0xE0 ≤ b ∧ b ≤ 0xEF ∧ acceptLo b ≤ b1 ∧ b1 ≤ acceptHi b ∧ 0x80 ≤ b2 ∧ b2 ≤ 0xBF) ∨
    (∃ b1 b2 b3 r3, rest = b1 :: b2 :: b3 :: r3 ∧ (decodeRune (b :: rest)).2 = 4 ∧
      0xF0 ≤ b ∧ b ≤ 0xF4 ∧ acceptLo b ≤ b1 ∧ b1 ≤ acceptHi b ∧ 0x80 ≤ b2 ∧ b2 ≤ 0xBF ∧
      0x80 ≤ b3 ∧ b3 ≤ 0xBF) := by
  rcases seqSize_cases b with hs | ⟨hs, h0, h1⟩ | ⟨hs, h0, h1⟩ | ⟨hs, h0, h1⟩
  · left
    simp [decodeRune, hb, hs]
  · cases rest with
    | nil => left; simp [decodeRune, hb, hs]
    | cons b1 r1 =>
      obtain ⟨hlo, hhi⟩ := accept_two b h0 h1
      by_cases hacc : b1 < 0x80 ∨ 0xBF < b1
      · left; simp [decodeRune, hb, hs, hlo, hhi, hacc]
      · right; left
        refine ⟨b1, r1, rfl, ?_, h0, h1, by omega, by omega⟩
        rw [decodeRune_two b b1 r1 h0 h1 (by omega) (by omega)]
  · cases rest with
    | nil => left; simp [decodeRune, hb, hs]
    | cons b1 r1 =>
      by_cases hacc : b1 < acceptLo b ∨ acceptHi b < b1
      · left; simp [decodeRune, hb, hs, hacc]
      · cases r1 with
        | nil => left; simp [decodeRune, hb, hs, hacc]
        | cons b2 r2 =>
          by_cases hacc2 : b2 < 0x80 ∨ 0xBF < b2
          · left; simp [decodeRune, hb, hs, hacc, hacc2]
          · right; right; left
            refine ⟨b1, b2, r2, rfl, ?_, h0, h1, by omega, by omega, by omega, by omega⟩
            rw [decodeRune_three b b1 b2 r2 h0 h1 (by omega) (by omega) (by omega) (by omega)]
  · cases rest with
    | nil => left; simp [decodeRune, hb, hs]
    | cons b1 r1 =>
      by_cases hacc : b1 < acceptLo b ∨ acceptHi b < b1
      · left; simp [decodeRune, hb, hs, hacc]
      · cases r1 with
        | nil => left; simp [decodeRune, hb, hs, hacc]
        | cons b2 r2 =>
          by_cases hacc2 : b2 < 0x80 ∨ 0xBF < b2
          · left; simp [decodeRune, hb, hs, hacc, hacc2]
          · cases r2 with
            | nil => left; simp [decodeRune, hb, hs, hacc, hacc2]
            | cons b3 r3 =>
              by_cases hacc3 : b3 < 0x80 ∨ 0xBF < b3
              · left; simp [decodeRune, hb, hs, hacc, hacc2, hacc3]
              · right; right; right
                refine ⟨b1, b2, b3, r3, rfl, ?_, h0, h1, by omega, by omega, by omega,
                  by omega, by omega, by omega⟩
                rw [decodeRune_four b b1 b2 b3 r3 h0 h1 (by omega) (by omega) (by omega)
                  (by omega) (by omega) (by omega)]

theorem decodeRune_ascii (b : Nat) (rest : List Nat) (hb : b < 0x80) :
    decodeRune (b :: rest) = (b, 1) := by
  simp [decodeRune, hb]

/-- Induction over a valid UTF-8 string, one encoded rune at a time. -/
theorem validUTF8_induction (P : List Nat → Prop) (hnil : P [])
    (h1 : ∀ b rest, b < 0x80 → P rest → P (b :: rest))
    (h2 : ∀ b b1 r, 0xC2 ≤ b → b ≤ 0xDF → 0x80 ≤ b1 → b1 ≤ 0xBF → P r → P (b :: b1 :: r))
    (h3 : ∀ b b1 b2 r, 0xE0 ≤ b → b ≤ 0xEF → acceptLo b ≤ b1 → b1 ≤ acceptHi b →
      0x80 ≤ b2 → b2 ≤ 0xBF → P r → P (b :: b1 :: b2 :: r))
    (h4 : ∀ b b1 b2 b3 r, 0xF0 ≤ b → b ≤ 0xF4 → acceptLo b ≤ b1 → b1 ≤ acceptHi b →
      0x80 ≤ b2 → b2 ≤ 0xBF → 0x80 ≤ b3 → b3 ≤ 0xBF → P r → P (b :: b1 :: b2 :: b3 :: r)) :
    ∀ s, validUTF8 s = true → P s := by
  have key : ∀ n (s : List Nat), s.length ≤ n → validUTF8 s = true → P s := by
    intro n
    induction n with
    | zero =>
      intro s hlen _
      have : s = [] := List.length_eq_zero.mp (Nat.le_zero.mp hlen)
      subst this
      exact hnil
    | succ n ih =>
      intro s hlen hv
      cases s with
      | nil => exact hnil
      | cons b rest =>
        have hrest : rest.length ≤ n := by simpa using hlen
        by_cases hb : b < 0x80
        · have hv1 : validUTF8 rest = true := by
            have hne : b ≠ RuneError := by unfold RuneError; omega
            simpa [validUTF8, validUTF8From, decodeRune_ascii b rest hb, hne] using hv
          exact h1 b rest hb (ih rest hrest hv1)
        · rcases decodeRune_width b rest hb with
            ⟨hw, he⟩ | ⟨b1, r1, hr, hw, c0, c1, c2, c3⟩ |
            ⟨b1, b2, r2, hr, hw, c0, c1, c2, c3, c4, c5⟩ |
            ⟨b1, b2, b3, r3, hr, hw, c0, c1, c2, c3, c4, c5, c6, c7⟩
          · exfalso
            simp [validUTF8, validUTF8From, hw, he] at hv
          · subst hr
            have hv1 : validUTF8 r1 = true := by
              simpa [validUTF8, validUTF8From, decodeRune_two b b1 r1 c0 c1 c2 c3] using hv
            exact h2 b b1 r1 c0 c1 c2 c3 (ih r1 (by simp at hrest; omega) hv1)
          · subst hr
            have hv1 : validUTF8 r2 = true := by
              simpa [validUTF8, validUTF8From,
                decodeRune_three b b1 b2 r2 c0 c1 c2 c3 c4 c5] using hv
            exact h3 b b1 b2 r2 c0 c1 c2 c3 c4 c5 (ih r2 (by simp at hrest; omega) hv1)
          · subst hr
            have hv1 : validUTF8 r3 = true := by
              simpa [validUTF8, validUTF8From,
                decodeRune_four b b1 b2 b3 r3 c0 c1 c2 c3 c4 c5 c6 c7] using hv
            exact h4 b b1 b2 b3 r3 c0 c1 c2 c3 c4 c5 c6 c7
              (ih r3 (by simp at hrest; omega) hv1)
  intro s hv
  exact key s.length s (Nat.le_refl _) hv

/-! ### `appendString`, one rune at a time -/

theorem appendString_nil : appendString [] = [] := rfl

theorem appendString_ascii (b : Nat) (rest : List Nat) (hb : b < 0x80) :
    appendString (b :: rest) =
      (if htmlSafe b then [b] else escapeASCII b) ++ appendString rest := by
  simp [appendString, appendStringFrom, appendStep, hb]

theorem appendString_two (b b1 : Nat) (r : List Nat) (h0 : 0xC2 ≤ b) (h1 : b ≤ 0xDF)
    (h2 : 0x80 ≤ b1) (h3 : b1 ≤ 0xBF) :
    appendString (b :: b1 :: r) = b :: b1 :: appendString r := by
  have hb : ¬ b < 0x80 := by omega
  have hsp : ¬ (b % 32 * 64 + b1 % 64 = 0x2028 ∨ b % 32 * 64 + b1 % 64 = 0x2029) := by omega
  simp [appendString, appendStringFrom, appendStep, hb, decodeRune_two b b1 r h0 h1 h2 h3, hsp]

theorem appendString_three (b b1 b2 : Nat) (r : List Nat) (h0 : 0xE0 ≤ b) (h1 : b ≤ 0xEF)
    (h2 : acceptLo b ≤ b1) (h3 : b1 ≤ acceptHi b) (h4 : 0x80 ≤ b2) (h5 : b2 ≤ 0xBF) :
    appendString (b :: b1 :: b2 :: r) =
      (if b % 16 * 4096 + b1 % 64 * 64 + b2 % 64 = 0x2028 ∨
          b % 16 * 4096 + b1 % 64 * 64 + b2 % 64 = 0x2029 then
        [0x5C, 0x75, 0x32, 0x30, 0x32, hex ((b % 16 * 4096 + b1 % 64 * 64 + b2 % 64) % 16)]
       else [b, b1, b2]) ++ appendString r := by
  have hb : ¬ b < 0x80 := by omega
  simp only [appendString, appendStringFrom, appendStep, if_neg hb,
    decodeRune_three b b1 b2 r h0 h1 h2 h3 h4 h5]
  split_ifs <;> simp_all [appendStringFrom]

theorem appendString_four (b b1 b2 b3 : Nat) (r : List Nat) (h0 : 0xF0 ≤ b) (h1 : b ≤ 0xF4)
    (h2 : acceptLo b ≤ b1) (h3 : b1 ≤ acceptHi b) (h4 : 0x80 ≤ b2) (h5 : b2 ≤ 0xBF)
    (h6 : 0x80 ≤ b3) (h7 : b3 ≤ 0xBF) :
    appendString (b :: b1 :: b2 :: b3 :: r) = b :: b1 :: b2 :: b3 :: appendString r := by
  have hb : ¬ b < 0x80 := by omega
  have hsp : ¬ (b % 8 * 262144 + b1 % 64 * 4096 + b2 % 64 * 64 + b3 % 64 = 0x2028 ∨
      b % 8 * 262144 + b1 % 64 * 4096 + b2 % 64 * 64 + b3 % 64 = 0x2029) := by
    unfold acceptLo at h2
    unfold acceptHi at h3
    split_ifs at h2 h3 <;> omega
  simp [appendString, appendStringFrom, appendStep, hb,
    decodeRune_four b b1 b2 b3 r h0 h1 h2 h3 h4 h5 h6 h7, hsp]

/-! ### `unquote`, one rune at a time -/

theorem unquote_nil : unquote [] = some [] := rfl

theorem hexVal_hex (n : Nat) (hn : n < 16) : hexVal (hex n) = some n := by
  unfold hex hexVal
  split_ifs <;> first | omega | (congr 1; omega)

theorem unquote_plain (c : Nat) (tail : List Nat) (h1 : c ≠ 0x22) (h2 : c ≠ 0x5C)
    (h3 : 0x20 ≤ c) (h4 : c < 0x80) :
    unquote (c :: tail) = (unquote tail).map (c :: ·) := by
  have h5 : ¬ c < 0x20 := by omega
  simp [unquote, unquoteFrom, unquoteStep, h1, h2, h5, h4]

theorem unquote_escapeASCII (b : Nat) (tail : List Nat) (hb : b < 0x80)
    (hs : htmlSafe b = false) :
    unquote (escapeASCII b ++ tail) = (unquote tail).map (b :: ·) := by
  unfold escapeASCII
  split_ifs with c1 c2 c3 c4 c5 c6
  · rcases c1 with rfl | rfl <;> simp [unquote, unquoteFrom, unquoteStep]
  · subst c2; simp [unquote, unquoteFrom, unquoteStep]
  · subst c3; simp [unquote, unquoteFrom, unquoteStep]
  · subst c4; simp [unquote, unquoteFrom, unquoteStep]
  · subst c5; simp [unquote, unquoteFrom, unquoteStep]
  · subst c6; simp [unquote, unquoteFrom, unquoteStep]
  · have hu : getu4 0x30 0x30 (hex (b / 16)) (hex (b % 16)) = some b := by
      have e1 := hexVal_hex (b / 16) (by omega)
      have e2 := hexVal_hex (b % 16) (by omega)
      have e0 : hexVal 0x30 = some 0 := by decide
      simp only [getu4, e0, e1, e2]
      congr 1
      omega
    have hsur : isSurrogate b = false := by
      simp [isSurrogate]; omega
    have hesc : ∀ l, escapedRune b l = (b, false) := by
      intro l; simp [escapedRune, hsur]
    have henc : encodeRune b = [b] := by
      simp [encodeRune]; omega
    simp [unquote, unquoteFrom, unquoteStep, hu, hesc, henc]

theorem unquote_two (b b1 : Nat) (tail : List Nat) (h0 : 0xC2 ≤ b) (h1 : b ≤ 0xDF)
    (h2 : 0x80 ≤ b1) (h3 : b1 ≤ 0xBF) :
    unquote (b :: b1 :: tail) = (unquote tail).map (b :: b1 :: ·) := by
  have c1 : b ≠ 0x5C := by omega
  have c2 : b ≠ 0x22 := by omega
  have c3 : ¬ b < 0x20 := by omega
  have c4 : ¬ b < 0x80 := by omega
  simp [unquote, unquoteFrom, unquoteStep, c1, c2, c3, c4,
    decodeRune_two b b1 tail h0 h1 h2 h3, encodeRune_two b b1 h0 h1 h2 h3]

theorem unquote_three_raw (b b1 b2 : Nat) (tail : List Nat) (h0 : 0xE0 ≤ b) (h1 : b ≤ 0xEF)
    (h2 : acceptLo b ≤ b1) (h3 : b1 ≤ acceptHi b) (h4 : 0x80 ≤ b2) (h5 : b2 ≤ 0xBF) :
    unquote (b :: b1 :: b2 :: tail) = (unquote tail).map (b :: b1 :: b2 :: ·) := by
  have c1 : b ≠ 0x5C := by omega
  have c2 : b ≠ 0x22 := by omega
  have c3 : ¬ b < 0x20 := by omega
  have c4 : ¬ b < 0x80 := by omega
  simp [unquote, unquoteFrom, unquoteStep, c1, c2, c3, c4,
    decodeRune_three b b1 b2 tail h0 h1 h2 h3 h4 h5, encodeRune_three b b1 b2 h0 h1 h2 h3 h4 h5]

theorem unquote_four (b b1 b2 b3 : Nat) (tail : List Nat) (h0 : 0xF0 ≤ b) (h1 : b ≤ 0xF4)
    (h2 : acceptLo b ≤ b1) (h3 : b1 ≤ acceptHi b) (h4 : 0x80 ≤ b2) (h5 : b2 ≤ 0xBF)
    (h6 : 0x80 ≤ b3) (h7 : b3 ≤ 0xBF) :
    unquote (b :: b1 :: b2 :: b3 :: tail) = (unquote tail).map (b :: b1 :: b2 :: b3 :: ·) := by
  have c1 : b ≠ 0x5C := by omega
  have c2 : b ≠ 0x22 := by omega
  have c3 : ¬ b < 0x20 := by omega
  have c4 : ¬ b < 0x80 := by omega
  simp [unquote, unquoteFrom, unquoteStep, c1, c2, c3, c4,
    decodeRune_four b b1 b2 b3 tail h0 h1 h2 h3 h4 h5 h6 h7,
    encodeRune_four b b1 b2 b3 h0 h1 h2 h3 h4 h5 h6 h7]

/-- The escape written for U+2028 and U+2029 reads back as the rune. -/
theorem unquote_lineSeparator (c : Nat) (tail : List Nat) (hc : c = 0x2028 ∨ c = 0x2029) :
    unquote ([0x5C, 0x75, 0x32, 0x30, 0x32, hex (c % 16)] ++ tail) =
      (unquote tail).map (encodeRune c ++ ·) := by
  rcases hc with rfl | rfl
  · have hu : getu4 0x32 0x30 0x32 (hex (0x2028 % 16)) = some 0x2028 := by decide
    have hesc : ∀ l, escapedRune 0x2028 l = (0x2028, false) := by
      intro l; simp [escapedRune, isSurrogate]
    simp [unquote, unquoteFrom, unquoteStep, hu, hesc]
  · have hu : getu4 0x32 0x30 0x32 (hex (0x2029 % 16)) = some 0x2029 := by decide
    have hesc : ∀ l, escapedRune 0x2029 l = (0x2029, false) := by
      intro l; simp [escapedRune, isSurrogate]
    simp [unquote, unquoteFrom, unquoteStep, hu, hesc]

/-- Decoding undoes the escaping of a valid UTF-8 string. -/
theorem unquote_appendString (s : List Nat) (hv : validUTF8 s = true) :
    unquote (appendString s) = some s := by
  revert hv
  apply validUTF8_induction (fun s => unquote (appendString s) = some s)
  · rfl
  · intro b rest hb ih
    rw [appendString_ascii b rest hb]
    cases hs : htmlSafe b with
    | true =>
      have hs1 := hs
      simp only [htmlSafe, decide_eq_true_eq] at hs1
      simp only [if_true]
      rw [List.singleton_append, unquote_plain b _ hs1.2.2.1 hs1.2.2.2.2.2.2 hs1.1 hb, ih]
      rfl
    | false =>
      simp only [Bool.false_eq_true, if_false]
      rw [unquote_escapeASCII b _ hb hs, ih]
      rfl
  · intro b b1 r h0 h1 h2 h3 ih
    rw [appendString_two b b1 r h0 h1 h2 h3, unquote_two b b1 _ h0 h1 h2 h3, ih]
    rfl
  · intro b b1 b2 r h0 h1 h2 h3 h4 h5 ih
    rw [appendString_three b b1 b2 r h0 h1 h2 h3 h4 h5]
    split_ifs with hsp
    · rw [unquote_lineSeparator _ _ hsp, ih, encodeRune_three b b1 b2 h0 h1 h2 h3 h4 h5]
      rfl
    · rw [List.cons_append, List.cons_append, List.cons_append, List.nil_append,
        unquote_three_raw b b1 b2 _ h0 h1 h2 h3 h4 h5, ih]
      rfl
  · intro b b1 b2 b3 r h0 h1 h2 h3 h4 h5 h6 h7 ih
    rw [appendString_four b b1 b2 b3 r h0 h1 h2 h3 h4 h5 h6 h7,
      unquote_four b b1 b2 b3 _ h0 h1 h2 h3 h4 h5 h6 h7, ih]
    rfl

/-! ### The decoder inside a string literal -/

/-- A byte that is neither a quote, nor a backslash, nor a control character is
added to the literal being read. -/
theorem next_plain (sc : Scanner) (lit : List Nat) (field : Option Field) (v : SessionToken)
    (saved : Bool) (c : Nat) (hd : sc.step = .stateInString)
    (h1 : c ≠ 0x22) (h2 : c ≠ 0x5C) (h3 : 0x20 ≤ c) :
    DecodeState.next ⟨sc, lit, field, v, saved⟩ c = ⟨sc, lit ++ [c], field, v, saved⟩ := by
  obtain ⟨step, endTop, ps, err⟩ := sc
  simp only at hd
  subst hd
  have h4 : ¬ c < 0x20 := by omega
  simp [DecodeState.next, Scanner.stepByte, h1, h2, h4, DecodeState.inString]

/-- A two-byte escape is added to the literal being read. -/
theorem foldl_next_escape (sc : Scanner) (lit : List Nat) (field : Option Field)
    (v : SessionToken) (saved : Bool) (e : Nat) (hd : sc.step = .stateInString)
    (he : e = 0x62 ∨ e = 0x66 ∨ e = 0x6E ∨ e = 0x72 ∨ e = 0x74 ∨ e = 0x5C ∨ e = 0x2F ∨
      e = 0x22) :
    [0x5C, e].foldl DecodeState.next ⟨sc, lit, field, v, saved⟩ =
      ⟨sc, lit ++ [0x5C, e], field, v, saved⟩ := by
  obtain ⟨step, endTop, ps, err⟩ := sc
  simp only at hd
  subst hd
  simp [DecodeState.next, Scanner.stepByte, Scanner.goto, DecodeState.inString, he]

/-- A `\u` escape with four hexadecimal digits is added to the literal being
read. -/
theorem foldl_next_escapeU (sc : Scanner) (lit : List Nat) (field : Option Field)
    (v : SessionToken) (saved : Bool) (x1 x2 x3 x4 : Nat)
    (hd : sc.step = .stateInString) (g1 : isHexDigit x1 = true)
    (g2 : isHexDigit x2 = true) (g3 : isHexDigit x3 = true) (g4 : isHexDigit x4 = true) :
    [0x5C, 0x75, x1, x2, x3, x4].foldl DecodeState.next ⟨sc, lit, field, v, saved⟩ =
      ⟨sc, lit ++ [0x5C, 0x75, x1, x2, x3, x4], field, v, saved⟩ := by
  obtain ⟨step, endTop, ps, err⟩ := sc
  simp only at hd
  subst hd
  simp [DecodeState.next, Scanner.stepByte, Scanner.goto, DecodeState.inString, g1, g2, g3, g4]

theorem isHexDigit_hex (n : Nat) (hn : n < 16) : isHexDigit (hex n) = true := by
  unfold hex isHexDigit
  split_ifs <;> simp <;> omega

/-- The escape of an ASCII byte is added to the literal being read. -/
theorem foldl_next_escapeASCII (sc : Scanner) (lit : List Nat) (field : Option Field)
    (v : SessionToken) (saved : Bool) (b : Nat) (hd : sc.step = .stateInString)
    (hb : b < 0x80) :
    (escapeASCII b).foldl DecodeState.next ⟨sc, lit, field, v, saved⟩ =
      ⟨sc, lit ++ escapeASCII b, field, v, saved⟩ := by
  unfold escapeASCII
  split_ifs with c1 c2 c3 c4 c5 c6
  · exact foldl_next_escape sc lit field v saved b hd (by omega)
  · exact foldl_next_escape sc lit field v saved _ hd (by simp)
  · exact foldl_next_escape sc lit field v saved _ hd (by simp)
  · exact foldl_next_escape sc lit field v saved _ hd (by simp)
  · exact foldl_next_escape sc lit field v saved _ hd (by simp)
  · exact foldl_next_escape sc lit field v saved _ hd (by simp)
  · exact foldl_next_escapeU sc lit field v saved _ _ _ _ hd (by decide) (by decide)
      (isHexDigit_hex _ (by omega)) (isHexDigit_hex _ (by omega))

/-- The decoder reads the escaped contents of a valid UTF-8 string as one
string literal. -/
theorem foldl_next_appendString (s : List Nat) (hv : validUTF8 s = true) :
    ∀ (sc : Scanner) (lit : List Nat) (field : Option Field) (v : SessionToken)
      (saved : Bool), sc.step = .stateInString →
      (appendString s).foldl DecodeState.next ⟨sc, lit, field, v, saved⟩ =
        ⟨sc, lit ++ appendString s, field, v, saved⟩ := by
  revert hv
  apply validUTF8_induction (fun s =>
    ∀ (sc : Scanner) (lit : List Nat) (field : Option Field) (v : SessionToken)
      (saved : Bool), sc.step = .stateInString →
      (appendString s).foldl DecodeState.next ⟨sc, lit, field, v, saved⟩ =
        ⟨sc, lit ++ appendString s, field, v, saved⟩)
  · intro sc lit field v saved _
    simp [appendString_nil]
  · intro b rest hb ih sc lit field v saved hd
    rw [appendString_ascii b rest hb, List.foldl_append]
    cases hs : htmlSafe b with
    | true =>
      have hs1 := hs
      simp only [htmlSafe, decide_eq_true_eq] at hs1
      simp only [if_true, List.foldl_cons, List.foldl_nil]
      rw [next_plain sc lit field v saved b hd hs1.2.2.1 hs1.2.2.2.2.2.2 hs1.1,
        ih sc _ field v saved hd]
      simp
    | false =>
      simp only [Bool.false_eq_true, if_false]
      rw [foldl_next_escapeASCII sc lit field v saved b hd hb, ih sc _ field v saved hd]
      simp
  · intro b b1 r h0 h1 h2 h3 ih sc lit field v saved hd
    rw [appendString_two b b1 r h0 h1 h2 h3]
    simp only [List.foldl_cons]
    rw [next_plain sc lit field v saved b hd (by omega) (by omega) (by omega),
      next_plain sc _ field v saved b1 hd (by omega) (by omega) (by omega),
      ih sc _ field v saved hd]
    simp
  · intro b b1 b2 r h0 h1 h2 h3 h4 h5 ih sc lit field v saved hd
    rw [appendString_three b b1 b2 r h0 h1 h2 h3 h4 h5, List.foldl_append]
    split_ifs with hsp
    · rw [foldl_next_escapeU sc lit field v saved _ _ _ _ hd (by decide) (by decide)
        (by decide) (isHexDigit_hex _ (by omega)), ih sc _ field v saved hd]
      simp
    · simp only [List.foldl_cons, List.foldl_nil]
      have hb1 : 0x80 ≤ b1 := by
        unfold acceptLo at h2
        split_ifs at h2 <;> omega
      rw [next_plain sc lit field v saved b hd (by omega) (by omega) (by omega),
        next_plain sc _ field v saved b1 hd (by omega) (by omega) (by omega),
        next_plain sc _ field v saved b2 hd (by omega) (by omega) (by omega),
        ih sc _ field v saved hd]
      simp
  · intro b b1 b2 b3 r h0 h1 h2 h3 h4 h5 h6 h7 ih sc lit field v saved hd
    rw [appendString_four b b1 b2 b3 r h0 h1 h2 h3 h4 h5 h6 h7]
    simp only [List.foldl_cons]
    have hb1 : 0x80 ≤ b1 := by
      unfold acceptLo at h2
      split_ifs at h2 <;> omega
    rw [next_plain sc lit field v saved b hd (by omega) (by omega) (by omega),
      next_plain sc _ field v saved b1 hd (by omega) (by omega) (by omega),
      next_plain sc _ field v saved b2 hd (by omega) (by omega) (by omega),
      next_plain sc _ field v saved b3 hd (by omega) (by omega) (by omega),
      ih sc _ field v saved hd]
    simp

/-! ### The decoder on the output of the encoder -/

/-- Up to the opening quote of the first value: the key `Host` selects the
field `Host`. -/
theorem foldl_next_hostKey (v : SessionToken) :
    [0x7B, 0x22, 0x48, 0x6F, 0x73, 0x74, 0x22, 0x3A, 0x22].foldl DecodeState.next
        (DecodeState.init v) =
      ⟨⟨.stateInString, false, [.parseObjectValue], false⟩, [], some .Host, v, false⟩ := by
  rfl

/-- The closing quote of a value of the top-level object stores the literal
into the selected field. -/
theorem foldl_next_closeValue (lit s : List Nat) (f : Field) (v : SessionToken)
    (hq : unquote lit = some s) :
    [0x22].foldl DecodeState.next
        ⟨⟨.stateInString, false, [.parseObjectValue], false⟩, lit, some f, v, false⟩ =
      ⟨⟨.stateEndValue, false, [.parseObjectValue], false⟩, lit, some f, f.store v s, false⟩ := by
  simp [DecodeState.next, Scanner.stepByte, Scanner.goto, DecodeState.endString, hq]

/-- The comma after the first value and the opening quote of the second key. -/
theorem foldl_next_comma (lit : List Nat) (v : SessionToken) :
    [0x2C, 0x22].foldl DecodeState.next
        ⟨⟨.stateEndValue, false, [.parseObjectValue], false⟩, lit, some .Host, v, false⟩ =
      ⟨⟨.stateInString, false, [.parseObjectKey], false⟩, [], some .Host, v, false⟩ := by
  rfl

/-- The letters of the second key. -/
theorem foldl_next_sessionIdLetters (v : SessionToken) :
    [0x53, 0x65, 0x73, 0x73, 0x69, 0x6F, 0x6E, 0x49, 0x64].foldl DecodeState.next
        ⟨⟨.stateInString, false, [.parseObjectKey], false⟩, [], some .Host, v, false⟩ =
      ⟨⟨.stateInString, false, [.parseObjectKey], false⟩,
        [0x53, 0x65, 0x73, 0x73, 0x69, 0x6F, 0x6E, 0x49, 0x64], some .Host, v, false⟩ := by
  rfl

/-- The end of the second key, which selects the field `SessionId`, the colon
and the opening quote of the second value. -/
theorem foldl_next_sessionIdKey (v : SessionToken) :
    [0x22, 0x3A, 0x22].foldl DecodeState.next
        ⟨⟨.stateInString, false, [.parseObjectKey], false⟩,
          [0x53, 0x65, 0x73, 0x73, 0x69, 0x6F, 0x6E, 0x49, 0x64], some .Host, v, false⟩ =
      ⟨⟨.stateInString, false, [.parseObjectValue], false⟩, [], some .SessionId, v, false⟩ := by
  rfl

/-- The closing brace ends the top-level value. -/
theorem foldl_next_closeObject (lit : List Nat) (f : Field) (v : SessionToken) :
    [0x7D].foldl DecodeState.next
        ⟨⟨.stateEndValue, false, [.parseObjectValue], false⟩, lit, some f, v, false⟩ =
      ⟨⟨.stateEndTop, true, [], false⟩, lit, some f, v, false⟩ := by
  rfl

/-- Decoding the encoding of a token with valid UTF-8 fields gives the token
back. -/
theorem jsonUnmarshal_jsonMarshal (t v : SessionToken) (hHost : validUTF8 t.Host = true)
    (hId : validUTF8 t.SessionId = true) :
    jsonUnmarshal (jsonMarshal t).1 v = (t, none) := by
  have e1 := foldl_next_appendString t.Host hHost
    ⟨.stateInString, false, [.parseObjectValue], false⟩ [] (some .Host) v false rfl
  have q1 : unquote ([] ++ appendString t.Host) = some t.Host := by
    simpa using unquote_appendString t.Host hHost
  have e2 := foldl_next_appendString t.SessionId hId
    ⟨.stateInString, false, [.parseObjectValue], false⟩ [] (some .SessionId)
    (Field.Host.store v t.Host) false rfl
  have q2 : unquote ([] ++ appendString t.SessionId) = some t.SessionId := by
    simpa using unquote_appendString t.SessionId hId
  have hrun : (jsonMarshal t).1.foldl DecodeState.next (DecodeState.init v) =
      ⟨⟨.stateEndTop, true, [], false⟩, [] ++ appendString t.SessionId, some .SessionId,
        Field.SessionId.store (Field.Host.store v t.Host) t.SessionId, false⟩ := by
    have split : (jsonMarshal t).1 =
        [0x7B, 0x22, 0x48, 0x6F, 0x73, 0x74, 0x22, 0x3A, 0x22] ++ appendString t.Host ++
          [0x22] ++ [0x2C, 0x22] ++ [0x53, 0x65, 0x73, 0x73, 0x69, 0x6F, 0x6E, 0x49, 0x64] ++
          [0x22, 0x3A, 0x22] ++ appendString t.SessionId ++ [0x22] ++ [0x7D] := by
      simp [jsonMarshal_eq, quote]
    rw [split]
    simp only [List.foldl_append]
    rw [foldl_next_hostKey, e1, foldl_next_closeValue _ _ _ _ q1, foldl_next_comma,
      foldl_next_sessionIdLetters, foldl_next_sessionIdKey, e2,
      foldl_next_closeValue _ _ _ _ q2, foldl_next_closeObject]
  unfold jsonUnmarshal
  simp only [hrun]
  cases t with
  | mk loc =>
    cases loc with
    | mk h s =>
      cases v with
      | mk vloc => simp [Scanner.eof, Field.store, SessionToken.Host, SessionToken.SessionId]

/-! ### The encoder's output is one string literal, for every string -/

/-- Bytes that are neither quotes, nor backslashes, nor control characters are
added to the literal being read. -/
theorem foldl_next_plain (l : List Nat) :
    ∀ (sc : Scanner) (lit : List Nat) (field : Option Field) (v : SessionToken)
      (saved : Bool), sc.step = .stateInString →
      (∀ c ∈ l, c ≠ 0x22 ∧ c ≠ 0x5C ∧ 0x20 ≤ c) →
      l.foldl DecodeState.next ⟨sc, lit, field, v, saved⟩ = ⟨sc, lit ++ l, field, v, saved⟩ := by
  induction l with
  | nil => intro sc lit field v saved _ _; simp
  | cons c l ih =>
    intro sc lit field v saved hd hl
    have hc := hl c (List.mem_cons_self c l)
    rw [List.foldl_cons, next_plain sc lit field v saved c hd hc.1 hc.2.1 hc.2.2,
      ih sc _ field v saved hd (fun x hx => hl x (List.mem_cons_of_mem c hx))]
    simp

/-- The bytes written by one iteration of `appendString` are added to the
literal being read. -/
theorem foldl_next_appendStep (b : Nat) (rest : List Nat) (sc : Scanner) (lit : List Nat)
    (field : Option Field) (v : SessionToken) (saved : Bool)
    (hd : sc.step = .stateInString) :
    (appendStep b rest).1.foldl DecodeState.next ⟨sc, lit, field, v, saved⟩ =
      ⟨sc, lit ++ (appendStep b rest).1, field, v, saved⟩ := by
  unfold appendStep
  by_cases hb : b < 0x80
  · rw [if_pos hb]
    cases hs : htmlSafe b with
    | true =>
      have hs1 := hs
      simp only [htmlSafe, decide_eq_true_eq] at hs1
      simp only [if_true]
      exact foldl_next_plain [b] sc lit field v saved hd
        (by intro c hc; simp at hc; subst hc; exact ⟨hs1.2.2.1, hs1.2.2.2.2.2.2, hs1.1⟩)
    | false =>
      simp only [Bool.false_eq_true, if_false]
      exact foldl_next_escapeASCII sc lit field v saved b hd hb
  · rw [if_neg hb]
    split_ifs with hinv hsp
    · exact foldl_next_escapeU sc lit field v saved _ _ _ _ hd (by decide) (by decide)
        (by decide) (by decide)
    · exact foldl_next_escapeU sc lit field v saved _ _ _ _ hd (by decide) (by decide)
        (by decide) (isHexDigit_hex _ (by omega))
    · apply foldl_next_plain _ sc lit field v saved hd
      rcases decodeRune_width b rest hb with
        ⟨hw, he⟩ | ⟨b1, r1, hr, hw, c0, c1, c2, c3⟩ |
        ⟨b1, b2, r2, hr, hw, c0, c1, c2, c3, c4, c5⟩ |
        ⟨b1, b2, b3, r3, hr, hw, c0, c1, c2, c3, c4, c5, c6, c7⟩
      · exact absurd ⟨he, hw⟩ hinv
      · subst hr
        rw [hw]
        intro c hc
        simp at hc
        rcases hc with rfl | rfl <;> omega
      · subst hr
        rw [hw]
        have hb1 : 0x80 ≤ b1 := by
          unfold acceptLo at c2
          split_ifs at c2 <;> omega
        intro c hc
        simp at hc
        rcases hc with rfl | rfl | rfl <;> omega
      · subst hr
        rw [hw]
        have hb1 : 0x80 ≤ b1 := by
          unfold acceptLo at c2
          split_ifs at c2 <;> omega
        intro c hc
        simp at hc
        rcases hc with rfl | rfl | rfl | rfl <;> omega

/-- The decoder reads the escaped contents of any string as one string
literal. -/
theorem foldl_next_appendStringFrom (s : List Nat) :
    ∀ (skip : Nat) (sc : Scanner) (lit : List Nat) (field : Option Field) (v : SessionToken)
      (saved : Bool), sc.step = .stateInString →
      (appendStringFrom skip s).foldl DecodeState.next ⟨sc, lit, field, v, saved⟩ =
        ⟨sc, lit ++ appendStringFrom skip s, field, v, saved⟩ := by
  induction s with
  | nil => intro skip sc lit field v saved _; cases skip <;> simp [appendStringFrom]
  | cons b rest ih =>
    intro skip sc lit field v saved hd
    cases skip with
    | succ k =>
      simp only [appendStringFrom]
      exact ih k sc lit field v saved hd
    | zero =>
      simp only [appendStringFrom, List.foldl_append]
      rw [foldl_next_appendStep b rest sc lit field v saved hd, ih _ sc _ field v saved hd]
      simp

/-- The scanner of the decoder is Go's scanner run on the same bytes. -/
theorem scan_foldl_next (data : List Nat) :
    ∀ d : DecodeState, (data.foldl DecodeState.next d).scan = d.scan.run data := by
  induction data with
  | nil => intro d; rfl
  | cons c data ih =>
    intro d
    rw [List.foldl_cons, ih]
    rfl

theorem Scanner_run_append (s : Scanner) (a b : List Nat) :
    s.run (a ++ b) = (s.run a).run b := by
  simp [Scanner.run, List.foldl_append]

/-- Inside a string literal the scanner passes over the escaped contents of
any string and stays where it was. -/
theorem Scanner_run_appendString (x : List Nat) (sc : Scanner)
    (hd : sc.step = .stateInString) : sc.run (appendString x) = sc := by
  have h := scan_foldl_next (appendString x) ⟨sc, [], none, ⟨⟨[], []⟩⟩, false⟩
  rw [show appendString x = appendStringFrom 0 x from rfl,
    foldl_next_appendStringFrom x 0 sc [] none ⟨⟨[], []⟩⟩ false hd] at h
  exact h.symm

/-- The scanner reads `quote x` as one complete string literal, for every
byte string `x`: it is back at the end of a value, at the same depth. -/
theorem Scanner_run_quote (x : List Nat) (endTop : Bool) (ps : List ParseState) :
    Scanner.run ⟨.stateBeginValue, endTop, ps, false⟩ (quote x) =
      ⟨.stateEndValue, endTop, ps, false⟩ := by
  have h1 : Scanner.run ⟨.stateBeginValue, endTop, ps, false⟩ [0x22] =
      ⟨.stateInString, endTop, ps, false⟩ := by
    simp [Scanner.run, Scanner.stepByte, Scanner.stateBeginValue, Scanner.goto, isSpace]
  have h2 : Scanner.run ⟨.stateInString, endTop, ps, false⟩ [0x22] =
      ⟨.stateEndValue, endTop, ps, false⟩ := by
    simp [Scanner.run, Scanner.stepByte, Scanner.goto]
  rw [quote, Scanner_run_append, Scanner_run_append, h1,
    Scanner_run_appendString x _ rfl, h2]

/-- The closing quote of a value of the top-level object, whatever the literal
holds: only the value being filled in may change. -/
theorem foldl_next_closeValue_any (lit : List Nat) (f : Field) (v : SessionToken) :
    ∃ v1, [0x22].foldl DecodeState.next
        ⟨⟨.stateInString, false, [.parseObjectValue], false⟩, lit, some f, v, false⟩ =
      ⟨⟨.stateEndValue, false, [.parseObjectValue], false⟩, lit, some f, v1, false⟩ := by
  cases hq : unquote lit with
  | none =>
    exact ⟨v, by simp [DecodeState.next, Scanner.stepByte, Scanner.goto, DecodeState.endString, hq]⟩
  | some s => exact ⟨f.store v s, foldl_next_closeValue lit s f v hq⟩

/-- The encoder's output, cut at the places where the decoder changes state. -/
theorem jsonMarshal_split (t : SessionToken) :
    (jsonMarshal t).1 =
      [0x7B, 0x22, 0x48, 0x6F, 0x73, 0x74, 0x22, 0x3A, 0x22] ++ appendString t.Host ++
        [0x22] ++ [0x2C, 0x22] ++ [0x53, 0x65, 0x73, 0x73, 0x69, 0x6F, 0x6E, 0x49, 0x64] ++
        [0x22, 0x3A, 0x22] ++ appendString t.SessionId ++ [0x22] ++ [0x7D] := by
  simp [jsonMarshal_eq, quote]

/-- The decoder reads the encoding of any token to the end of one top-level
value, without syntax error and without type error. -/
theorem foldl_next_jsonMarshal (t v : SessionToken) :
    ∃ (lit : List Nat) (v1 : SessionToken),
      (jsonMarshal t).1.foldl DecodeState.next (DecodeState.init v) =
        ⟨⟨.stateEndTop, true, [], false⟩, lit, some .SessionId, v1, false⟩ := by
  obtain ⟨v1, h1⟩ := foldl_next_closeValue_any ([] ++ appendString t.Host) .Host v
  obtain ⟨v2, h2⟩ := foldl_next_closeValue_any ([] ++ appendString t.SessionId) .SessionId v1
  refine ⟨[] ++ appendString t.SessionId, v2, ?_⟩
  rw [jsonMarshal_split]
  simp only [List.foldl_append]
  rw [foldl_next_hostKey, show appendString t.Host = appendStringFrom 0 t.Host from rfl,
    foldl_next_appendStringFrom t.Host 0 _ _ _ _ _ rfl]
  rw [show appendStringFrom 0 t.Host = appendString t.Host from rfl, h1, foldl_next_comma,
    foldl_next_sessionIdLetters, foldl_next_sessionIdKey,
    show appendString t.SessionId = appendStringFrom 0 t.SessionId from rfl,
    foldl_next_appendStringFrom t.SessionId 0 _ _ _ _ _ rfl]
  rw [show appendStringFrom 0 t.SessionId = appendString t.SessionId from rfl, h2,
    foldl_next_closeObject]

/-- Decoding the encoding of any token reports no error. -/
theorem jsonUnmarshal_jsonMarshal_no_error (t v : SessionToken) :
    (jsonUnmarshal (jsonMarshal t).1 v).2 = none := by
  obtain ⟨lit, v1, h⟩ := foldl_next_jsonMarshal t v
  unfold jsonUnmarshal
  simp only [h]
  simp [Scanner.eof]

/-! ### Every decoded string is valid UTF-8 -/

theorem validUTF8_ascii (b : Nat) (s : List Nat) (hb : b < 0x80) :
    validUTF8 (b :: s) = validUTF8 s := by
  have hne : b ≠ RuneError := by unfold RuneError; omega
  simp [validUTF8, validUTF8From, decodeRune_ascii b s hb, hne]

theorem validUTF8_two (b b1 : Nat) (s : List Nat) (h0 : 0xC2 ≤ b) (h1 : b ≤ 0xDF)
    (h2 : 0x80 ≤ b1) (h3 : b1 ≤ 0xBF) : validUTF8 (b :: b1 :: s) = validUTF8 s := by
  simp [validUTF8, validUTF8From, decodeRune_two b b1 s h0 h1 h2 h3]

theorem validUTF8_three (b b1 b2 : Nat) (s : List Nat) (h0 : 0xE0 ≤ b) (h1 : b ≤ 0xEF)
    (h2 : acceptLo b ≤ b1) (h3 : b1 ≤ acceptHi b) (h4 : 0x80 ≤ b2) (h5 : b2 ≤ 0xBF) :
    validUTF8 (b :: b1 :: b2 :: s) = validUTF8 s := by
  simp [validUTF8, validUTF8From, decodeRune_three b b1 b2 s h0 h1 h2 h3 h4 h5]

theorem validUTF8_four (b b1 b2 b3 : Nat) (s : List Nat) (h0 : 0xF0 ≤ b) (h1 : b ≤ 0xF4)
    (h2 : acceptLo b ≤ b1) (h3 : b1 ≤ acceptHi b) (h4 : 0x80 ≤ b2) (h5 : b2 ≤ 0xBF)
    (h6 : 0x80 ≤ b3) (h7 : b3 ≤ 0xBF) :
    validUTF8 (b :: b1 :: b2 :: b3 :: s) = validUTF8 s := by
  simp [validUTF8, validUTF8From, decodeRune_four b b1 b2 b3 s h0 h1 h2 h3 h4 h5 h6 h7]

/-- What `encodeRune` writes is one valid rune encoding, for every value:
putting it in front of a string does not change whether the string is valid. -/
theorem validUTF8_encodeRune (r : Nat) (s : List Nat) :
    validUTF8 (encodeRune r ++ s) = validUTF8 s := by
  unfold encodeRune MaxRune
  split_ifs with c1 c2 c3 c4
  · exact validUTF8_ascii r s (by omega)
  · exact validUTF8_two _ _ s (by omega) (by omega) (by omega) (by omega)
  · exact validUTF8_three 0xEF 0xBF 0xBD s (by decide) (by decide) (by decide) (by decide)
      (by decide) (by decide)
  · refine validUTF8_three _ _ _ s (by omega) (by omega) ?_ ?_ (by omega) (by omega)
    · unfold acceptLo
      split_ifs <;> omega
    · unfold acceptHi
      split_ifs <;> omega
  · refine validUTF8_four _ _ _ _ s (by omega) (by omega) ?_ ?_ (by omega) (by omega)
      (by omega) (by omega)
    · unfold acceptLo
      split_ifs <;> omega
    · unfold acceptHi
      split_ifs <;> omega

/-- What one iteration of `unquoteBytes` writes is valid UTF-8. -/
theorem validUTF8_unquoteStep (c : Nat) (rest out : List Nat) (width : Nat)
    (h : unquoteStep c rest = some (out, width)) (s : List Nat) :
    validUTF8 (out ++ s) = validUTF8 s := by
  unfold unquoteStep at h
  split_ifs at h with hc hq ha
  · cases rest with
    | nil => simp at h
    | cons e rest1 =>
      simp only at h
      split_ifs at h with e1 e2 e3 e4 e5 e6 e7
      · obtain ⟨rfl, -⟩ := Prod.mk.inj (Option.some.inj h)
        exact validUTF8_ascii e s (by omega)
      · obtain ⟨rfl, -⟩ := Prod.mk.inj (Option.some.inj h)
        exact validUTF8_ascii _ s (by omega)
      · obtain ⟨rfl, -⟩ := Prod.mk.inj (Option.some.inj h)
        exact validUTF8_ascii _ s (by omega)
      · obtain ⟨rfl, -⟩ := Prod.mk.inj (Option.some.inj h)
        exact validUTF8_ascii _ s (by omega)
      · obtain ⟨rfl, -⟩ := Prod.mk.inj (Option.some.inj h)
        exact validUTF8_ascii _ s (by omega)
      · obtain ⟨rfl, -⟩ := Prod.mk.inj (Option.some.inj h)
        exact validUTF8_ascii _ s (by omega)
      · rcases rest1 with _ | ⟨h1, _ | ⟨h2, _ | ⟨h3, _ | ⟨h4, rest2⟩⟩⟩⟩
        · simp at h
        · simp at h
        · simp at h
        · simp at h
        · simp only at h
          cases hg : getu4 h1 h2 h3 h4 with
          | none => simp [hg] at h
          | some rr =>
            simp only [hg] at h
            obtain ⟨rfl, -⟩ := Prod.mk.inj (Option.some.inj h)
            exact validUTF8_encodeRune _ s
  · obtain ⟨rfl, -⟩ := Prod.mk.inj (Option.some.inj h)
    exact validUTF8_ascii c s ha
  · obtain ⟨rfl, -⟩ := Prod.mk.inj (Option.some.inj h)
    exact validUTF8_encodeRune _ s

/-- Whatever `unquoteBytes` returns is valid UTF-8. -/
theorem validUTF8_unquoteFrom (l : List Nat) :
    ∀ (skip : Nat) (s : List Nat), unquoteFrom skip l = some s → validUTF8 s = true := by
  induction l with
  | nil =>
    intro skip s h
    cases skip <;> simp [unquoteFrom] at h <;> subst h <;> rfl
  | cons c rest ih =>
    intro skip s h
    cases skip with
    | succ k =>
      simp only [unquoteFrom] at h
      exact ih k s h
    | zero =>
      simp only [unquoteFrom] at h
      cases hs : unquoteStep c rest with
      | none => simp [hs] at h
      | some p =>
        obtain ⟨out, width⟩ := p
        simp only [hs] at h
        cases hr : unquoteFrom (width - 1) rest with
        | none => simp [hr] at h
        | some s1 =>
          simp only [hr, Option.map_some'] at h
          have hs1 := ih _ s1 hr
          obtain rfl := Option.some.inj h
          rw [validUTF8_unquoteStep c rest out width hs s1]
          exact hs1

/-- Storing a valid string keeps both fields valid. -/
theorem validUTF8_store (f : Field) (t : SessionToken) (s : List Nat)
    (hs : validUTF8 s = true)
    (ht : validUTF8 t.Host = true ∧ validUTF8 t.SessionId = true) :
    validUTF8 (f.store t s).Host = true ∧ validUTF8 (f.store t s).SessionId = true := by
  cases f
  · exact ⟨hs, ht.2⟩
  · exact ⟨ht.1, hs⟩

/-- The start of a value stores nothing. -/
theorem beginValue_v (d : DecodeState) (op : Opcode) (c : Nat) :
    (d.beginValue op c).v = d.v := by
  unfold DecodeState.beginValue
  simp only
  split <;> split_ifs <;> rfl

/-- One byte of input changes the value being filled in only by storing a
string returned by `unquote`. -/
theorem validUTF8_next (d : DecodeState) (c : Nat)
    (hd : validUTF8 d.v.Host = true ∧ validUTF8 d.v.SessionId = true) :
    validUTF8 (d.next c).v.Host = true ∧ validUTF8 (d.next c).v.SessionId = true := by
  have hend : validUTF8 d.endString.v.Host = true ∧
      validUTF8 d.endString.v.SessionId = true := by
    unfold DecodeState.endString
    split
    · exact hd
    · split
      · rename_i f s hf hu
        exact validUTF8_store f d.v s (validUTF8_unquoteFrom _ 0 s hu) hd
      · exact hd
    · exact hd
  have hbegin : ∀ op, validUTF8 (d.beginValue op c).v.Host = true ∧
      validUTF8 (d.beginValue op c).v.SessionId = true := by
    intro op
    rw [beginValue_v]
    exact hd
  unfold DecodeState.next
  simp only
  split
  · exact hbegin _
  · exact hbegin _
  · exact hbegin _
  · split_ifs
    · exact hend
    · exact hd
    · exact hd
  · exact hd

/-- The value being filled in holds valid strings after any input. -/
theorem validUTF8_foldl_next (data : List Nat) :
    ∀ d : DecodeState, validUTF8 d.v.Host = true ∧ validUTF8 d.v.SessionId = true →
      validUTF8 (data.foldl DecodeState.next d).v.Host = true ∧
        validUTF8 (data.foldl DecodeState.next d).v.SessionId = true := by
  induction data with
  | nil => intro d hd; exact hd
  | cons c data ih =>
    intro d hd
    rw [List.foldl_cons]
    exact ih _ (validUTF8_next d c hd)

/-- The decoder checks the syntax with Go's `checkValid`. -/
theorem eof_foldl_next (data : List Nat) (v : SessionToken) :
    (data.foldl DecodeState.next (DecodeState.init v)).scan.eof = checkValid data := by
  rw [scan_foldl_next]
  rfl

/-- A token comes back only with a nil error, from a non-empty input that
passes `checkValid` and saves no type error, and it is the value the decoder
filled in. -/
theorem UnmarshallSessionToken_some (b : List Nat) (t : SessionToken) (e : Option Error)
    (h : UnmarshallSessionToken b = (some t, e)) :
    e = none ∧ b ≠ [] ∧ checkValid b = true ∧
      t = (b.foldl DecodeState.next (DecodeState.init ⟨⟨[], []⟩⟩)).v := by
  unfold UnmarshallSessionToken at h
  split_ifs at h with hlen
  · simp at h
  · have hne : b ≠ [] := fun hb => hlen (by simp [hb])
    have heof := eof_foldl_next b ⟨⟨[], []⟩⟩
    unfold jsonUnmarshal at h
    simp only [heof] at h
    cases hc : checkValid b with
    | false => simp [hc] at h
    | true =>
      simp only [hc] at h
      cases hs : (b.foldl DecodeState.next (DecodeState.init ⟨⟨[], []⟩⟩)).savedError with
      | true => simp [hs] at h
      | false =>
        simp [hs] at h
        exact ⟨h.2.symm, hne, rfl, h.1.symm⟩

/-! ### What the decoder rejects -/

/-- Once the scanner has recorded an error it stays where it is. -/
theorem Scanner_run_stateError (data : List Nat) :
    ∀ s : Scanner, s.step = .stateError → s.run data = s := by
  induction data with
  | nil => intro s _; rfl
  | cons c data ih =>
    intro s hs
    have h1 : (s.stepByte c).1 = s := by simp [Scanner.stepByte, hs]
    show Scanner.run (s.stepByte c).1 data = s
    rw [h1]
    exact ih s hs

/-- A saved type error is never cleared. -/
theorem savedError_next (d : DecodeState) (c : Nat) (h : d.savedError = true) :
    (d.next c).savedError = true := by
  have hbegin : ∀ op, (d.beginValue op c).savedError = true := by
    intro op
    unfold DecodeState.beginValue
    simp only
    split <;> split_ifs <;> first | rfl | exact h
  have hend : d.endString.savedError = true := by
    unfold DecodeState.endString
    split
    · exact h
    · split <;> exact h
    · exact h
  unfold DecodeState.next
  simp only
  split
  · exact hbegin _
  · exact hbegin _
  · exact hbegin _
  · split_ifs
    · exact hend
    · exact h
    · exact h
  · exact h

theorem savedError_foldl_next (data : List Nat) :
    ∀ d : DecodeState, d.savedError = true →
      (data.foldl DecodeState.next d).savedError = true := by
  induction data with
  | nil => intro d h; exact h
  | cons c data ih =>
    intro d h
    rw [List.foldl_cons]
    exact ih _ (savedError_next d c h)

/-- A recorded syntax error, or a saved type error, after part of the input
decides the outcome for the whole input: the scanner does not reach the end
of a value, or the saved error is still there. -/
theorem foldl_next_rejected (data : List Nat) (d : DecodeState)
    (h : d.scan.step = .stateError ∧ d.scan.err = true ∨ d.savedError = true) :
    (data.foldl DecodeState.next d).scan.eof = false ∨
      (data.foldl DecodeState.next d).savedError = true := by
  rcases h with ⟨hs, he⟩ | h
  · left
    rw [scan_foldl_next, Scanner_run_stateError data d.scan hs]
    simp [Scanner.eof, he]
  · right
    exact savedError_foldl_next data d h

/-- An input on which the decoder ends outside a complete value, or with a
saved type error, is answered with an error and no token. -/
theorem UnmarshallSessionToken_rejected (b : List Nat) (hne : b ≠ [])
    (h : (b.foldl DecodeState.next (DecodeState.init ⟨⟨[], []⟩⟩)).scan.eof = false ∨
      (b.foldl DecodeState.next (DecodeState.init ⟨⟨[], []⟩⟩)).savedError = true) :
    ∃ err, UnmarshallSessionToken b = (none, some err) := by
  have hlen : b.length ≠ 0 := by
    intro h0
    exact hne (List.length_eq_zero.mp h0)
  unfold UnmarshallSessionToken jsonUnmarshal
  rw [if_neg hlen]
  simp only
  cases he : (b.foldl DecodeState.next (DecodeState.init ⟨⟨[], []⟩⟩)).scan.eof with
  | false => exact ⟨.json .syntaxError, by simp⟩
  | true =>
    rcases h with h | h
    · rw [he] at h
      exact absurd h (by simp)
    · exact ⟨.json .unmarshalTypeError, by simp [h]⟩

/-- An input that fails `checkValid` is answered with the syntax error. -/
theorem UnmarshallSessionToken_syntaxError (b : List Nat) (hne : b ≠ [])
    (h : checkValid b = false) :
    UnmarshallSessionToken b = (none, some (.json .syntaxError)) := by
  have hlen : b.length ≠ 0 := by
    intro h0
    exact hne (List.length_eq_zero.mp h0)
  unfold UnmarshallSessionToken jsonUnmarshal
  rw [if_neg hlen]
  simp [eof_foldl_next, h]

/-- What `stateBeginValue` answers to a byte that is not white space: an
error, the start of an object, the start of an array, or the start of a
literal. -/
theorem stateBeginValue_cases (s : Scanner) (c : Nat) (hc : isSpace c = false) :
    ((Scanner.stateBeginValue s c).1.step = .stateError ∧
        (Scanner.stateBeginValue s c).1.err = true ∧
        (Scanner.stateBeginValue s c).2 = .scanError) ∨
      ((Scanner.stateBeginValue s c).2 = .scanBeginObject ∧ c = 0x7B) ∨
      ((Scanner.stateBeginValue s c).2 = .scanBeginArray ∧ c = 0x5B) ∨
      ((Scanner.stateBeginValue s c).2 = .scanBeginLiteral ∧ c ≠ 0x7B ∧ c ≠ 0x5B) := by
  unfold Scanner.stateBeginValue Scanner.pushParseState Scanner.goto Scanner.error
  rw [hc]
  simp only [Bool.false_eq_true, if_false]
  split_ifs <;> simp_all

/-- The first byte of a value that does not fit: at the top level anything
but an object or `null`, as the value of a member that selects a field
anything but a string or `null`.  The scanner records a syntax error or the
decoder saves a type error. -/
theorem next_misfit (d : DecodeState) (c : Nat) (hstep : d.scan.step = .stateBeginValue)
    (hc : isSpace c = false)
    (hfit : (d.scan.parseState = [] ∧ c ≠ 0x7B ∧ c ≠ 0x6E) ∨
      (d.scan.parseState = [.parseObjectValue] ∧ d.field.isSome = true ∧
        c ≠ 0x22 ∧ c ≠ 0x6E)) :
    ((d.next c).scan.step = .stateError ∧ (d.next c).scan.err = true) ∨
      (d.next c).savedError = true := by
  have hr : d.scan.stepByte c = Scanner.stateBeginValue d.scan c := by
    rw [Scanner.stepByte, hstep]
  have hsaved : ∀ op, (op = .scanBeginObject ∧ c = 0x7B) ∨ (op = .scanBeginArray ∧ c = 0x5B) ∨
      (op = .scanBeginLiteral ∧ c ≠ 0x7B ∧ c ≠ 0x5B) →
      (d.beginValue op c).savedError = true := by
    intro op hop
    unfold DecodeState.beginValue
    rcases hfit with ⟨hps, h1, h2⟩ | ⟨hps, hf, h1, h2⟩
    · rcases hop with ⟨rfl, h⟩ | ⟨rfl, h⟩ | ⟨rfl, h3, h4⟩
      · exact absurd h h1
      · simp [hps]
      · by_cases hq : c = 0x22 <;> simp [hps, hq, h2]
    · rcases hop with ⟨rfl, h⟩ | ⟨rfl, h⟩ | ⟨rfl, h3, h4⟩
      · simp [hps, hf]
      · simp [hps, hf]
      · simp [hps, hf, h1, h2]
  unfold DecodeState.next
  simp only [hr]
  rcases stateBeginValue_cases d.scan c hc with ⟨h1, h2, h3⟩ | h | h | h
  · left
    exact ⟨h1, h2⟩
  · right
    rw [h.1]
    exact hsaved _ (Or.inl ⟨rfl, h.2⟩)
  · right
    rw [h.1]
    exact hsaved _ (Or.inr (Or.inl ⟨rfl, h.2⟩))
  · right
    rw [h.1]
    exact hsaved _ (Or.inr (Or.inr ⟨rfl, h.2⟩))

/-- An input with a value that does not fit is answered with an error and no
token, whatever follows the first byte of that value. -/
theorem UnmarshallSessionToken_misfit (p : List Nat) (c : Nat) (rest : List Nat)
    (hstep : (p.foldl DecodeState.next (DecodeState.init ⟨⟨[], []⟩⟩)).scan.step =
      .stateBeginValue)
    (hc : isSpace c = false)
    (hfit :
      ((p.foldl DecodeState.next (DecodeState.init ⟨⟨[], []⟩⟩)).scan.parseState = [] ∧
        c ≠ 0x7B ∧ c ≠ 0x6E) ∨
      ((p.foldl DecodeState.next (DecodeState.init ⟨⟨[], []⟩⟩)).scan.parseState =
          [.parseObjectValue] ∧
        (p.foldl DecodeState.next (DecodeState.init ⟨⟨[], []⟩⟩)).field.isSome = true ∧
        c ≠ 0x22 ∧ c ≠ 0x6E)) :
    ∃ err, UnmarshallSessionToken (p ++ c :: rest) = (none, some err) := by
  apply UnmarshallSessionToken_rejected _ (by simp)
  rw [List.foldl_append, List.foldl_cons]
  exact foldl_next_rejected rest _ (next_misfit _ c hstep hc hfit)

/-- Only the empty input decodes to no token and no error. -/
theorem UnmarshallSessionToken_absent_only (b : List Nat)
    (h : UnmarshallSessionToken b = (none, none)) : b = [] := by
  by_contra hne
  have hpos : b.length ≠ 0 := by
    simpa [List.length_eq_zero] using hne
  unfold UnmarshallSessionToken at h
  rw [if_neg hpos] at h
  rcases hj : jsonUnmarshal b ⟨⟨[], []⟩⟩ with ⟨v, je⟩
  rw [hj] at h
  cases je <;> simp at h

/-! ### The scanner on every prefix of the encoder's output -/

/-- A property of the scanner holds after every prefix of `c :: cs` when it
holds at the start and after every prefix of `cs` read from the next state. -/
theorem run_prefix_cons (P : Scanner → Prop) (s : Scanner) (c : Nat) (cs : List Nat)
    (h0 : P s) (h : ∀ p, p <+: cs → P ((s.stepByte c).1.run p)) :
    ∀ p, p <+: c :: cs → P (s.run p) := by
  intro p hp
  rcases List.prefix_cons_iff.mp hp with rfl | ⟨t, rfl, ht⟩
  · exact h0
  · exact h t ht

theorem run_prefix_append (P : Scanner → Prop) (s : Scanner) (a b : List Nat)
    (ha : ∀ p, p <+: a → P (s.run p)) (hb : ∀ p, p <+: b → P ((s.run a).run p)) :
    ∀ p, p <+: a ++ b → P (s.run p) := by
  intro p hp
  rcases List.prefix_or_prefix_of_prefix hp (List.prefix_append a b) with h | h
  · exact ha p h
  · obtain ⟨q, rfl⟩ := h
    rw [Scanner_run_append]
    exact hb q ((List.prefix_append_right_inj a).mp hp)

theorem run_prefix_nil (P : Scanner → Prop) (s : Scanner) (h0 : P s) :
    ∀ p, p <+: [] → P (s.run p) := by
  intro p hp
  rw [List.prefix_nil.mp hp]
  exact h0

/-- Inside a string literal no byte changes the stack of open values or the
`endTop` flag. -/
theorem stepByte_inString (s : Scanner) (c : Nat) (h : DecodeState.inString s.step = true) :
    (s.stepByte c).1.parseState = s.parseState ∧ (s.stepByte c).1.endTop = s.endTop := by
  obtain ⟨step, endTop, ps, err⟩ := s
  cases step <;> simp [DecodeState.inString] at h <;>
    simp only [Scanner.stepByte, Scanner.goto, Scanner.error] <;>
    split_ifs <;> exact ⟨rfl, rfl⟩

/-- While a string literal is open, white space does not end the top-level
value. -/
theorem eof_of_inside (s : Scanner) (h : s.inside = true) : s.eof = false := by
  obtain ⟨step, endTop, ps, err⟩ := s
  simp only [Scanner.inside, Bool.and_eq_true, Bool.not_eq_true', List.isEmpty_eq_false] at h
  obtain ⟨hps, he⟩ := h
  subst he
  cases ps with
  | nil => exact absurd rfl hps
  | cons top below =>
    cases err
    · have hsp : isSpace 0x20 = true := by decide
      have hhex : isHexDigit 0x20 = false := by decide
      cases step <;>
        simp [Scanner.eof, Scanner.stepByte, Scanner.stateBeginValue, Scanner.stateBeginString,
          Scanner.stateEndValue, Scanner.stateEndTop, Scanner.state0, Scanner.stateESign,
          Scanner.expect, Scanner.goto, Scanner.error, hsp, hhex, isDigit]
    · rfl

/-- Every state the scanner passes through while it reads a list of bytes
inside string literals, none of which leaves the literal for good, keeps the
stack of open values and the `endTop` flag. -/
theorem run_prefix_inString (l : List Nat) :
    ∀ s : Scanner, (∀ p, p <+: l → p ≠ l → DecodeState.inString (s.run p).step = true) →
      ∀ p, p <+: l → (s.run p).parseState = s.parseState ∧ (s.run p).endTop = s.endTop := by
  induction l with
  | nil =>
    intro s _ p hp
    rw [List.prefix_nil.mp hp]
    exact ⟨rfl, rfl⟩
  | cons c cs ih =>
    intro s h p hp
    rcases List.prefix_cons_iff.mp hp with rfl | ⟨t, rfl, ht⟩
    · exact ⟨rfl, rfl⟩
    · have h0 : DecodeState.inString s.step = true :=
        h [] (List.nil_prefix) (by simp)
      have hk := stepByte_inString s c h0
      have := ih (s.stepByte c).1
        (fun q hq hne => h (c :: q) (List.cons_prefix_cons.mpr ⟨rfl, hq⟩) (by simpa using hne))
        t ht
      exact ⟨this.1.trans hk.1, this.2.trans hk.2⟩

theorem run_prefix_cons_inString (s : Scanner) (c : Nat) (cs : List Nat)
    (h0 : DecodeState.inString s.step = true)
    (h : ∀ p, p <+: cs → DecodeState.inString ((s.stepByte c).1.run p).step = true) :
    ∀ p, p <+: c :: cs → DecodeState.inString (s.run p).step = true :=
  run_prefix_cons (fun s => DecodeState.inString s.step = true) s c cs h0 h

theorem run_prefix_nil_inString (s : Scanner) (h0 : DecodeState.inString s.step = true) :
    ∀ p, p <+: [] → DecodeState.inString (s.run p).step = true :=
  run_prefix_nil (fun s => DecodeState.inString s.step = true) s h0

/-- Inside a string literal the scanner stays where it is on bytes that are
neither quotes, nor backslashes, nor control characters. -/
theorem Scanner_run_plain (l : List Nat) (s : Scanner) (hd : s.step = .stateInString)
    (hl : ∀ c ∈ l, c ≠ 0x22 ∧ c ≠ 0x5C ∧ 0x20 ≤ c) : s.run l = s := by
  have h := scan_foldl_next l ⟨s, [], none, ⟨⟨[], []⟩⟩, false⟩
  rw [foldl_next_plain l s [] none ⟨⟨[], []⟩⟩ false hd hl] at h
  exact h.symm

theorem run_prefix_plain (l : List Nat) (s : Scanner) (hd : s.step = .stateInString)
    (hl : ∀ c ∈ l, c ≠ 0x22 ∧ c ≠ 0x5C ∧ 0x20 ≤ c) :
    ∀ p, p <+: l → DecodeState.inString (s.run p).step = true := by
  intro p hp
  rw [Scanner_run_plain p s hd (fun c hc => hl c (hp.subset hc)), hd]
  rfl

theorem run_prefix_escape (s : Scanner) (e : Nat) (hd : s.step = .stateInString)
    (he : e = 0x62 ∨ e = 0x66 ∨ e = 0x6E ∨ e = 0x72 ∨ e = 0x74 ∨ e = 0x5C ∨ e = 0x2F ∨
      e = 0x22) :
    ∀ p, p <+: [0x5C, e] → DecodeState.inString (s.run p).step = true := by
  obtain ⟨step, endTop, ps, err⟩ := s
  simp only at hd
  subst hd
  refine run_prefix_cons_inString _ _ _ ?_
    (run_prefix_cons_inString _ _ _ ?_ (run_prefix_nil_inString _ ?_))
  all_goals simp [Scanner.stepByte, Scanner.goto, DecodeState.inString, he]

theorem run_prefix_escapeU (s : Scanner) (x1 x2 x3 x4 : Nat) (hd : s.step = .stateInString)
    (g1 : isHexDigit x1 = true) (g2 : isHexDigit x2 = true) (g3 : isHexDigit x3 = true)
    (g4 : isHexDigit x4 = true) :
    ∀ p, p <+: [0x5C, 0x75, x1, x2, x3, x4] →
      DecodeState.inString (s.run p).step = true := by
  obtain ⟨step, endTop, ps, err⟩ := s
  simp only at hd
  subst hd
  refine run_prefix_cons_inString _ _ _ ?_
    (run_prefix_cons_inString _ _ _ ?_ (run_prefix_cons_inString _ _ _ ?_
      (run_prefix_cons_inString _ _ _ ?_ (run_prefix_cons_inString _ _ _ ?_
        (run_prefix_cons_inString _ _ _ ?_ (run_prefix_nil_inString _ ?_))))))
  all_goals simp [Scanner.stepByte, Scanner.goto, DecodeState.inString, g1, g2, g3, g4]

theorem run_prefix_escapeASCII (s : Scanner) (b : Nat) (hd : s.step = .stateInString)
    (hb : b < 0x80) :
    ∀ p, p <+: escapeASCII b → DecodeState.inString (s.run p).step = true := by
  unfold escapeASCII
  split_ifs with c1 c2 c3 c4 c5 c6
  · exact run_prefix_escape s b hd (by omega)
  · exact run_prefix_escape s _ hd (by simp)
  · exact run_prefix_escape s _ hd (by simp)
  · exact run_prefix_escape s _ hd (by simp)
  · exact run_prefix_escape s _ hd (by simp)
  · exact run_prefix_escape s _ hd (by simp)
  · exact run_prefix_escapeU s _ _ _ _ hd (by decide) (by decide)
      (isHexDigit_hex _ (by omega)) (isHexDigit_hex _ (by omega))

/-- The scanner stays inside the string literal after every prefix of the
bytes written by one iteration of `appendString`. -/
theorem run_prefix_appendStep (b : Nat) (rest : List Nat) (s : Scanner)
    (hd : s.step = .stateInString) :
    ∀ p, p <+: (appendStep b rest).1 → DecodeState.inString (s.run p).step = true := by
  unfold appendStep
  by_cases hb : b < 0x80
  · rw [if_pos hb]
    cases hs : htmlSafe b with
    | true =>
      have hs1 := hs
      simp only [htmlSafe, decide_eq_true_eq] at hs1
      simp only [if_true]
      exact run_prefix_plain [b] s hd
        (by intro c hc; simp at hc; subst hc; exact ⟨hs1.2.2.1, hs1.2.2.2.2.2.2, hs1.1⟩)
    | false =>
      simp only [Bool.false_eq_true, if_false]
      exact run_prefix_escapeASCII s b hd hb
  · rw [if_neg hb]
    split_ifs with hinv hsp
    · exact run_prefix_escapeU s _ _ _ _ hd (by decide) (by decide) (by decide) (by decide)
    · exact run_prefix_escapeU s _ _ _ _ hd (by decide) (by decide) (by decide)
        (isHexDigit_hex _ (by omega))
    · apply run_prefix_plain _ s hd
      rcases decodeRune_width b rest hb with
        ⟨hw, he⟩ | ⟨b1, r1, hr, hw, c0, c1, c2, c3⟩ |
        ⟨b1, b2, r2, hr, hw, c0, c1, c2, c3, c4, c5⟩ |
        ⟨b1, b2, b3, r3, hr, hw, c0, c1, c2, c3, c4, c5, c6, c7⟩
      · exact absurd ⟨he, hw⟩ hinv
      · subst hr
        rw [hw]
        intro c hc
        simp at hc
        rcases hc with rfl | rfl <;> omega
      · subst hr
        rw [hw]
        have hb1 : 0x80 ≤ b1 := by
          unfold acceptLo at c2
          split_ifs at c2 <;> omega
        intro c hc
        simp at hc
        rcases hc with rfl | rfl | rfl <;> omega
      · subst hr
        rw [hw]
        have hb1 : 0x80 ≤ b1 := by
          unfold acceptLo at c2
          split_ifs at c2 <;> omega
        intro c hc
        simp at hc
        rcases hc with rfl | rfl | rfl | rfl <;> omega

/-- The scanner passes over the bytes written by one iteration of
`appendString` and stays where it was. -/
theorem Scanner_run_appendStep (b : Nat) (rest : List Nat) (s : Scanner)
    (hd : s.step = .stateInString) : s.run (appendStep b rest).1 = s := by
  have h := scan_foldl_next (appendStep b rest).1 ⟨s, [], none, ⟨⟨[], []⟩⟩, false⟩
  rw [foldl_next_appendStep b rest s [] none ⟨⟨[], []⟩⟩ false hd] at h
  exact h.symm

/-- The scanner stays inside the string literal after every prefix of the
escaped contents of any string. -/
theorem run_prefix_appendStringFrom (x : List Nat) :
    ∀ (skip : Nat) (s : Scanner), s.step = .stateInString →
      ∀ p, p <+: appendStringFrom skip x → DecodeState.inString (s.run p).step = true := by
  induction x with
  | nil =>
    intro skip s hd p hp
    have : appendStringFrom skip [] = [] := by cases skip <;> rfl
    rw [this] at hp
    rw [List.prefix_nil.mp hp]
    show DecodeState.inString s.step = true
    rw [hd]
    rfl
  | cons b rest ih =>
    intro skip s hd
    cases skip with
    | succ k =>
      simp only [appendStringFrom]
      exact ih k s hd
    | zero =>
      simp only [appendStringFrom]
      apply run_prefix_append (fun s => DecodeState.inString s.step = true)
      · exact run_prefix_appendStep b rest s hd
      · rw [Scanner_run_appendStep b rest s hd]
        exact ih _ s hd

/-- Inside an open composite value, the scanner is still inside it after
every prefix of the escaped contents of any string. -/
theorem run_prefix_appendString_inside (x : List Nat) (s : Scanner)
    (hd : s.step = .stateInString) (hin : s.inside = true) :
    ∀ p, p <+: appendString x → (s.run p).inside = true := by
  intro p hp
  have hk := run_prefix_inString (appendString x) s
    (fun q hq _ => run_prefix_appendStringFrom x 0 s hd q hq) p hp
  unfold Scanner.inside at hin ⊢
  rw [hk.1, hk.2]
  exact hin

theorem run_prefix_cons_inside (s : Scanner) (c : Nat) (cs : List Nat)
    (h0 : s.inside = true) (h : ∀ p, p <+: cs → ((s.stepByte c).1.run p).inside = true) :
    ∀ p, p <+: c :: cs → (s.run p).inside = true :=
  run_prefix_cons (fun s => s.inside = true) s c cs h0 h

theorem run_prefix_nil_inside (s : Scanner) (h0 : s.inside = true) :
    ∀ p, p <+: [] → (s.run p).inside = true :=
  run_prefix_nil (fun s => s.inside = true) s h0

theorem run_prefix_append_inside (s : Scanner) (a b : List Nat)
    (ha : ∀ p, p <+: a → (s.run p).inside = true)
    (hb : ∀ p, p <+: b → ((s.run a).run p).inside = true) :
    ∀ p, p <+: a ++ b → (s.run p).inside = true :=
  run_prefix_append (fun s => s.inside = true) s a b ha hb

/-- After the opening brace, the scanner is inside the object after every
prefix of the key `"Host"`, the colon and the opening quote of the value. -/
theorem run_prefix_hostKey :
    ∀ p, p <+: [0x22, 0x48, 0x6F, 0x73, 0x74, 0x22, 0x3A, 0x22] →
      (Scanner.run ⟨.stateBeginStringOrEmpty, false, [.parseObjectKey], false⟩ p).inside =
        true := by
  repeat (refine run_prefix_cons_inside _ _ _ (by decide) ?_)
  exact run_prefix_nil_inside _ (by decide)

/-- From inside the value of `Host`, the scanner is inside the object after
every prefix of the closing quote, the comma, the key `"SessionId"`, the colon
and the opening quote of the value. -/
theorem run_prefix_sessionIdKey :
    ∀ p, p <+: [0x22, 0x2C, 0x22, 0x53, 0x65, 0x73, 0x73, 0x69, 0x6F, 0x6E, 0x49, 0x64, 0x22,
        0x3A, 0x22] →
      (Scanner.run ⟨.stateInString, false, [.parseObjectValue], false⟩ p).inside = true := by
  repeat (refine run_prefix_cons_inside _ _ _ (by decide) ?_)
  exact run_prefix_nil_inside _ (by decide)

/-- The encoder's output as the opening brace, what stands between the braces
and the closing brace. -/
theorem jsonMarshal_braces (t : SessionToken) :
    (jsonMarshal t).1 =
      (0x7B :: ([0x22, 0x48, 0x6F, 0x73, 0x74, 0x22, 0x3A, 0x22] ++ (appendString t.Host ++
        ([0x22, 0x2C, 0x22, 0x53, 0x65, 0x73, 0x73, 0x69, 0x6F, 0x6E, 0x49, 0x64, 0x22, 0x3A,
          0x22] ++ (appendString t.SessionId ++ [0x22]))))) ++ [0x7D] := by
  simp [jsonMarshal_eq, quote]

/-- No truncation of the encoding of a token is a complete JSON value: every
non-empty proper prefix of the encoder's output fails `checkValid`. -/
theorem checkValid_prefix_jsonMarshal (t : SessionToken) (p : List Nat)
    (hp : p <+: (jsonMarshal t).1) (hne : p ≠ []) (hproper : p ≠ (jsonMarshal t).1) :
    checkValid p = false := by
  rw [jsonMarshal_braces] at hp hproper
  rcases List.prefix_concat_iff.mp hp with h | h
  · exact absurd h hproper
  · rcases List.prefix_cons_iff.mp h with rfl | ⟨q, rfl, hq⟩
    · exact absurd rfl hne
    · have hK : Scanner.run ⟨.stateBeginStringOrEmpty, false, [.parseObjectKey], false⟩
          [0x22, 0x48, 0x6F, 0x73, 0x74, 0x22, 0x3A, 0x22] =
          ⟨.stateInString, false, [.parseObjectValue], false⟩ := by decide
      have hM : Scanner.run ⟨.stateInString, false, [.parseObjectValue], false⟩
          [0x22, 0x2C, 0x22, 0x53, 0x65, 0x73, 0x73, 0x69, 0x6F, 0x6E, 0x49, 0x64, 0x22, 0x3A,
            0x22] = ⟨.stateInString, false, [.parseObjectValue], false⟩ := by decide
      have hin : (Scanner.run ⟨.stateBeginStringOrEmpty, false, [.parseObjectKey], false⟩
          q).inside = true := by
        refine run_prefix_append_inside _ _ _ run_prefix_hostKey ?_ q hq
        rw [hK]
        refine run_prefix_append_inside _ _ _
          (run_prefix_appendString_inside t.Host _ rfl (by decide)) ?_
        rw [Scanner_run_appendString t.Host _ rfl]
        refine run_prefix_append_inside _ _ _ run_prefix_sessionIdKey ?_
        rw [hM]
        refine run_prefix_append_inside _ _ _
          (run_prefix_appendString_inside t.SessionId _ rfl (by decide)) ?_
        rw [Scanner_run_appendString t.SessionId _ rfl]
        exact run_prefix_cons_inside _ _ _ (by decide) (run_prefix_nil_inside _ (by decide))
      exact eof_of_inside _ hin

/-- A truncated encoding of a token is answered with the syntax error. -/
theorem UnmarshallSessionToken_truncated (t : SessionToken) (p : List Nat)
    (hp : p <+: (MarshallSessionToken t).1) (hne : p ≠ [])
    (hproper : p ≠ (MarshallSessionToken t).1) :
    UnmarshallSessionToken p = (none, some (.json .syntaxError)) := by
  rw [MarshallSessionToken_eq] at hp hproper
  exact UnmarshallSessionToken_syntaxError p hne (checkValid_prefix_jsonMarshal t p hp hne hproper)

/-! ### Every string literal the scanner accepts can be unquoted -/

/-- The scanner leaves `stateEndValue` for a state outside string literals. -/
theorem stateEndValue_not_inString (s : Scanner) (c : Nat) :
    DecodeState.inString (Scanner.stateEndValue s c).1.step = false := by
  obtain ⟨step, endTop, ps, err⟩ := s
  unfold Scanner.stateEndValue
  cases ps with
  | nil =>
    simp only [Scanner.stateEndTop, Scanner.error]
    split_ifs <;> rfl
  | cons top below =>
    cases top <;> cases below <;>
      simp only [Scanner.goto, Scanner.error, Scanner.popParseState, List.tail_cons] <;>
      split_ifs <;> rfl

theorem pushParseState_step (s : Scanner) (f : StepFn) (p : ParseState) (op : Opcode) :
    (Scanner.pushParseState s f p op).1.step = f ∨
      (Scanner.pushParseState s f p op).1.step = .stateError := by
  unfold Scanner.pushParseState
  by_cases h : s.parseState.length + 1 ≤ maxNestingDepth
  · rw [if_pos h]
    exact Or.inl rfl
  · rw [if_neg h]
    exact Or.inr rfl

theorem stateBeginValue_quote (s : Scanner) :
    Scanner.stateBeginValue s 0x22 = Scanner.goto s .stateInString .scanBeginLiteral := by
  simp [Scanner.stateBeginValue, isSpace]

set_option maxHeartbeats 1000000 in
theorem stateBeginValue_enter (s : Scanner) (c : Nat)
    (hin : DecodeState.inString (Scanner.stateBeginValue s c).1.step = true) :
    c = 0x22 ∨ DecodeState.inString s.step = true := by
  have hp1 := pushParseState_step s .stateBeginStringOrEmpty .parseObjectKey .scanBeginObject
  have hp2 := pushParseState_step s .stateBeginValueOrEmpty .parseArrayValue .scanBeginArray
  unfold Scanner.stateBeginValue at hin
  split_ifs at hin
  · exact Or.inr hin
  · rcases hp1 with h | h <;> rw [h] at hin <;> cases hin
  · rcases hp2 with h | h <;> rw [h] at hin <;> cases hin
  · exact Or.inl (by assumption)
  all_goals cases hin

theorem stateBeginString_quote (s : Scanner) :
    Scanner.stateBeginString s 0x22 = Scanner.goto s .stateInString .scanBeginLiteral := by
  simp [Scanner.stateBeginString, isSpace]

theorem stateBeginString_enter (s : Scanner) (c : Nat)
    (hin : DecodeState.inString (Scanner.stateBeginString s c).1.step = true) :
    c = 0x22 ∨ DecodeState.inString s.step = true := by
  unfold Scanner.stateBeginString at hin
  split_ifs at hin
  · exact Or.inr hin
  · exact Or.inl (by assumption)
  · cases hin

theorem state0_not_inString (s : Scanner) (c : Nat) :
    DecodeState.inString (Scanner.state0 s c).1.step = false := by
  unfold Scanner.state0 Scanner.goto
  split_ifs
  · rfl
  · rfl
  · exact stateEndValue_not_inString s c

theorem stateESign_not_inString (s : Scanner) (c : Nat) :
    DecodeState.inString (Scanner.stateESign s c).1.step = false := by
  unfold Scanner.stateESign Scanner.goto Scanner.error
  split_ifs <;> rfl

theorem expect_not_inString (s : Scanner) (c want : Nat) (f : StepFn)
    (hf : DecodeState.inString f = false) :
    DecodeState.inString (Scanner.expect s c want f).1.step = false := by
  unfold Scanner.expect Scanner.goto Scanner.error
  split_ifs
  · exact hf
  · rfl

/-- What the scanner does on a quote where a value or a key may start. -/
theorem stepByte_quote (s : Scanner)
    (h : s.step = .stateBeginValueOrEmpty ∨ s.step = .stateBeginValue ∨
      s.step = .stateBeginStringOrEmpty ∨ s.step = .stateBeginString) :
    s.stepByte 0x22 = ({ s with step := .stateInString }, .scanBeginLiteral) := by
  have h1 : isSpace 0x22 = false := by decide
  rcases h with h | h | h | h <;> rw [Scanner.stepByte, h] <;>
    simp [h1, stateBeginValue_quote, stateBeginString_quote, Scanner.goto]

set_option maxHeartbeats 1000000 in
/-- From a state outside string literals the scanner enters a string literal
only on a quote, where a value or a key may start. -/
theorem stepByte_enter_inString (s : Scanner) (c : Nat)
    (hout : DecodeState.inString s.step = false)
    (hin : DecodeState.inString (s.stepByte c).1.step = true) :
    c = 0x22 ∧ (s.step = .stateBeginValueOrEmpty ∨ s.step = .stateBeginValue ∨
      s.step = .stateBeginStringOrEmpty ∨ s.step = .stateBeginString) := by
  obtain ⟨step, endTop, ps, err⟩ := s
  have hno : ∀ r : Scanner × Opcode, DecodeState.inString r.1.step = false →
      Scanner.stepByte ⟨step, endTop, ps, err⟩ c = r → False := by
    intro r hr he
    rw [he, hr] at hin
    cases hin
  have hyes : ∀ r : Scanner × Opcode,
      (DecodeState.inString r.1.step = true → (c = 0x22 ∨ DecodeState.inString step = true)) →
      Scanner.stepByte ⟨step, endTop, ps, err⟩ c = r → c = 0x22 := by
    intro r hr he
    rw [he] at hin
    rcases hr hin with h | h
    · exact h
    · rw [hout] at h
      cases h
  have hsame : ∀ op : Opcode,
      DecodeState.inString ((⟨step, endTop, ps, err⟩ : Scanner), op).1.step = false :=
    fun _ => hout
  clear hin
  cases step
  case stateBeginValueOrEmpty =>
    refine ⟨?_, Or.inl rfl⟩
    refine hyes (if isSpace c then (⟨.stateBeginValueOrEmpty, endTop, ps, err⟩, .scanSkipSpace)
      else if c = 0x5D then Scanner.stateEndValue ⟨.stateBeginValueOrEmpty, endTop, ps, err⟩ c
      else Scanner.stateBeginValue ⟨.stateBeginValueOrEmpty, endTop, ps, err⟩ c) ?_ rfl
    intro h
    split_ifs at h
    · cases h
    · rw [stateEndValue_not_inString] at h
      cases h
    · exact stateBeginValue_enter _ c h
  case stateBeginValue =>
    exact ⟨hyes _ (stateBeginValue_enter _ c) rfl, Or.inr (Or.inl rfl)⟩
  case stateBeginStringOrEmpty =>
    refine ⟨?_, Or.inr (Or.inr (Or.inl rfl))⟩
    refine hyes (if isSpace c then (⟨.stateBeginStringOrEmpty, endTop, ps, err⟩, .scanSkipSpace)
      else if c = 0x7D then
        Scanner.stateEndValue
          ⟨.stateBeginStringOrEmpty, endTop, .parseObjectValue :: ps.tail, err⟩ c
      else Scanner.stateBeginString ⟨.stateBeginStringOrEmpty, endTop, ps, err⟩ c) ?_ rfl
    intro h
    split_ifs at h
    · cases h
    · rw [stateEndValue_not_inString] at h
      cases h
    · exact stateBeginString_enter _ c h
  case stateBeginString =>
    exact ⟨hyes _ (stateBeginString_enter _ c) rfl, Or.inr (Or.inr (Or.inr rfl))⟩
  case stateEndValue => exact (hno _ (stateEndValue_not_inString _ c) rfl).elim
  case stateEndTop =>
    refine (hno (Scanner.stateEndTop ⟨.stateEndTop, endTop, ps, err⟩ c) ?_ rfl).elim
    unfold Scanner.stateEndTop Scanner.error
    split_ifs <;> rfl
  case stateInString => cases hout
  case stateInStringEsc => cases hout
  case stateInStringEscU => cases hout
  case stateInStringEscU1 => cases hout
  case stateInStringEscU12 => cases hout
  case stateInStringEscU123 => cases hout
  case stateNeg =>
    refine (hno (if c = 0x30 then Scanner.goto ⟨.stateNeg, endTop, ps, err⟩ .state0 .scanContinue
      else if 0x31 ≤ c ∧ c ≤ 0x39 then
        Scanner.goto ⟨.stateNeg, endTop, ps, err⟩ .state1 .scanContinue
      else Scanner.error ⟨.stateNeg, endTop, ps, err⟩) ?_ rfl).elim
    unfold Scanner.goto Scanner.error
    split_ifs <;> rfl
  case state1 =>
    refine (hno (if isDigit c then Scanner.goto ⟨.state1, endTop, ps, err⟩ .state1 .scanContinue
      else Scanner.state0 ⟨.state1, endTop, ps, err⟩ c) ?_ rfl).elim
    split_ifs
    · rfl
    · exact state0_not_inString _ c
  case state0 => exact (hno _ (state0_not_inString _ c) rfl).elim
  case stateDot =>
    refine (hno (if isDigit c then
        Scanner.goto ⟨.stateDot, endTop, ps, err⟩ .stateDot0 .scanContinue
      else Scanner.error ⟨.stateDot, endTop, ps, err⟩) ?_ rfl).elim
    unfold Scanner.goto Scanner.error
    split_ifs <;> rfl
  case stateDot0 =>
    refine (hno (if isDigit c then (⟨.stateDot0, endTop, ps, err⟩, .scanContinue)
      else if c = 0x65 ∨ c = 0x45 then
        Scanner.goto ⟨.stateDot0, endTop, ps, err⟩ .stateE .scanContinue
      else Scanner.stateEndValue ⟨.stateDot0, endTop, ps, err⟩ c) ?_ rfl).elim
    split_ifs
    · rfl
    · rfl
    · exact stateEndValue_not_inString _ c
  case stateE =>
    refine (hno (if c = 0x2B ∨ c = 0x2D then
        Scanner.goto ⟨.stateE, endTop, ps, err⟩ .stateESign .scanContinue
      else Scanner.stateESign ⟨.stateE, endTop, ps, err⟩ c) ?_ rfl).elim
    split_ifs
    · rfl
    · exact stateESign_not_inString _ c
  case stateESign => exact (hno _ (stateESign_not_inString _ c) rfl).elim
  case stateE0 =>
    refine (hno (if isDigit c then (⟨.stateE0, endTop, ps, err⟩, .scanContinue)
      else Scanner.stateEndValue ⟨.stateE0, endTop, ps, err⟩ c) ?_ rfl).elim
    split_ifs
    · rfl
    · exact stateEndValue_not_inString _ c
  case stateT =>
    exact (hno (Scanner.expect ⟨.stateT, endTop, ps, err⟩ c 0x72 .stateTr)
      (expect_not_inString _ c _ _ rfl) rfl).elim
  case stateTr =>
    exact (hno (Scanner.expect ⟨.stateTr, endTop, ps, err⟩ c 0x75 .stateTru)
      (expect_not_inString _ c _ _ rfl) rfl).elim
  case stateTru =>
    exact (hno (Scanner.expect ⟨.stateTru, endTop, ps, err⟩ c 0x65 .stateEndValue)
      (expect_not_inString _ c _ _ rfl) rfl).elim
  case stateF =>
    exact (hno (Scanner.expect ⟨.stateF, endTop, ps, err⟩ c 0x61 .stateFa)
      (expect_not_inString _ c _ _ rfl) rfl).elim
  case stateFa =>
    exact (hno (Scanner.expect ⟨.stateFa, endTop, ps, err⟩ c 0x6C .stateFal)
      (expect_not_inString _ c _ _ rfl) rfl).elim
  case stateFal =>
    exact (hno (Scanner.expect ⟨.stateFal, endTop, ps, err⟩ c 0x73 .stateFals)
      (expect_not_inString _ c _ _ rfl) rfl).elim
  case stateFals =>
    exact (hno (Scanner.expect ⟨.stateFals, endTop, ps, err⟩ c 0x65 .stateEndValue)
      (expect_not_inString _ c _ _ rfl) rfl).elim
  case stateN =>
    exact (hno (Scanner.expect ⟨.stateN, endTop, ps, err⟩ c 0x75 .stateNu)
      (expect_not_inString _ c _ _ rfl) rfl).elim
  case stateNu =>
    exact (hno (Scanner.expect ⟨.stateNu, endTop, ps, err⟩ c 0x6C .stateNul)
      (expect_not_inString _ c _ _ rfl) rfl).elim
  case stateNul =>
    exact (hno (Scanner.expect ⟨.stateNul, endTop, ps, err⟩ c 0x6C .stateEndValue)
      (expect_not_inString _ c _ _ rfl) rfl).elim
  case stateError => exact (hno _ (hsame .scanError) rfl).elim

/-- Inside a string literal the scanner moves by the byte alone: while it stays
inside, it reports `scanContinue`, the byte is not the closing quote, and a
scanner with an empty stack would have moved the same way. -/
theorem stepByte_stay_inString (step : StepFn) (endTop : Bool) (ps : List ParseState)
    (err : Bool) (c : Nat) (hold : DecodeState.inString step = true)
    (hin : DecodeState.inString (Scanner.stepByte ⟨step, endTop, ps, err⟩ c).1.step = true) :
    (Scanner.stepByte ⟨step, endTop, ps, err⟩ c).2 = .scanContinue ∧
      ¬ (step = .stateInString ∧ c = 0x22) ∧
      (Scanner.stepByte ⟨step, false, [], false⟩ c).1 =
        ⟨(Scanner.stepByte ⟨step, endTop, ps, err⟩ c).1.step, false, [], false⟩ := by
  cases step <;> first | (cases hold; done) | skip
  all_goals
    simp only [Scanner.stepByte, Scanner.goto, Scanner.error] at hin ⊢
    split_ifs at hin ⊢ <;> first | (cases hin; done) | simp_all

theorem next_scan (d : DecodeState) (c : Nat) : (d.next c).scan = (d.scan.stepByte c).1 := rfl

/-- The opening quote of a string literal empties the literal being read. -/
theorem next_lit_begin (d : DecodeState) (h : (d.scan.stepByte 0x22).2 = .scanBeginLiteral) :
    (d.next 0x22).lit = [] := by
  unfold DecodeState.next
  simp only [h]
  unfold DecodeState.beginValue
  simp only [and_self, if_true]
  split <;> first | rfl | (split_ifs <;> rfl)

/-- Inside a string literal every byte but the closing quote is added to the
literal being read. -/
theorem next_lit_continue (d : DecodeState) (c : Nat)
    (h : (d.scan.stepByte c).2 = .scanContinue)
    (hne : ¬ (d.scan.step = .stateInString ∧ c = 0x22))
    (hold : DecodeState.inString d.scan.step = true) :
    (d.next c).lit = d.lit ++ [c] := by
  unfold DecodeState.next
  simp only [h]
  rw [if_neg hne, if_pos hold]

/-- While the decoder is inside a string literal, the literal being read is
what a scanner that started inside a string literal has read to reach the
same state. -/
theorem lit_next (d : DecodeState) (c : Nat)
    (h : DecodeState.inString d.scan.step = true →
      Scanner.run ⟨.stateInString, false, [], false⟩ d.lit = ⟨d.scan.step, false, [], false⟩)
    (hnew : DecodeState.inString (d.next c).scan.step = true) :
    Scanner.run ⟨.stateInString, false, [], false⟩ (d.next c).lit =
      ⟨(d.next c).scan.step, false, [], false⟩ := by
  rw [next_scan] at hnew ⊢
  cases hold : DecodeState.inString d.scan.step with
  | true =>
    obtain ⟨sc, lit, field, v, saved⟩ := d
    obtain ⟨step, endTop, ps, err⟩ := sc
    obtain ⟨hop, hne, heq⟩ := stepByte_stay_inString step endTop ps err c hold hnew
    rw [next_lit_continue _ c hop hne hold, Scanner_run_append]
    simp only at h
    rw [h hold]
    exact heq
  | false =>
    obtain ⟨hc, hs⟩ := stepByte_enter_inString d.scan c hold hnew
    subst hc
    have hq := stepByte_quote d.scan hs
    rw [next_lit_begin d (by rw [hq]), hq]
    rfl

theorem lit_foldl_next (data : List Nat) :
    ∀ d : DecodeState,
      (DecodeState.inString d.scan.step = true →
        Scanner.run ⟨.stateInString, false, [], false⟩ d.lit =
          ⟨d.scan.step, false, [], false⟩) →
      DecodeState.inString (data.foldl DecodeState.next d).scan.step = true →
      Scanner.run ⟨.stateInString, false, [], false⟩ (data.foldl DecodeState.next d).lit =
        ⟨(data.foldl DecodeState.next d).scan.step, false, [], false⟩ := by
  induction data with
  | nil => intro d h; exact h
  | cons c data ih =>
    intro d h
    rw [List.foldl_cons]
    exact ih (d.next c) (lit_next d c h)

/-- After the end of the top-level value, or after an error, the scanner never
comes back inside a string literal. -/
theorem run_outside (data : List Nat) :
    ∀ s : Scanner, (s.step = .stateError ∨ s.step = .stateEndTop ∨
        (s.step = .stateEndValue ∧ s.parseState = [])) →
      (s.run data).step ≠ .stateInString := by
  induction data with
  | nil =>
    intro s h
    show s.step ≠ .stateInString
    rcases h with h | h | ⟨h, -⟩ <;> rw [h] <;> decide
  | cons c data ih =>
    intro s h
    show (Scanner.run (s.stepByte c).1 data).step ≠ .stateInString
    apply ih
    obtain ⟨step, endTop, ps, err⟩ := s
    simp only at h
    rcases h with h | h | ⟨h, hps⟩
    · subst h
      exact Or.inl rfl
    · subst h
      simp only [Scanner.stepByte, Scanner.stateEndTop, Scanner.error]
      split_ifs
      · exact Or.inr (Or.inl rfl)
      · exact Or.inl rfl
    · subst h
      subst hps
      simp only [Scanner.stepByte, Scanner.stateEndValue, Scanner.stateEndTop, Scanner.error]
      split_ifs
      · exact Or.inr (Or.inl rfl)
      · exact Or.inl rfl

theorem unquoteFrom_step (c : Nat) (rest out : List Nat) (w : Nat) (s : List Nat)
    (hstep : unquoteStep c rest = some (out, w))
    (hrest : unquoteFrom (w - 1) rest = some s) :
    unquoteFrom 0 (c :: rest) = some (out ++ s) := by
  simp [unquoteFrom, hstep, hrest]

theorem hexVal_of_isHexDigit (c : Nat) (h : isHexDigit c = true) : ∃ n, hexVal c = some n := by
  simp only [isHexDigit, decide_eq_true_eq] at h
  unfold hexVal
  split_ifs with h1 h2 h3
  · exact ⟨_, rfl⟩
  · exact ⟨_, rfl⟩
  · exact ⟨_, rfl⟩
  · omega

theorem isHexDigit_of_hexVal (c n : Nat) (h : hexVal c = some n) : isHexDigit c = true := by
  unfold hexVal at h
  simp only [isHexDigit, decide_eq_true_eq]
  split_ifs at h with h1 h2 h3
  · exact Or.inl h1
  · exact Or.inr (Or.inl h2)
  · exact Or.inr (Or.inr h3)

theorem getu4_of_isHexDigit (h1 h2 h3 h4 : Nat) (g1 : isHexDigit h1 = true)
    (g2 : isHexDigit h2 = true) (g3 : isHexDigit h3 = true) (g4 : isHexDigit h4 = true) :
    ∃ rr, getu4 h1 h2 h3 h4 = some rr := by
  obtain ⟨a, ha⟩ := hexVal_of_isHexDigit h1 g1
  obtain ⟨b, hb⟩ := hexVal_of_isHexDigit h2 g2
  obtain ⟨c, hc⟩ := hexVal_of_isHexDigit h3 g3
  obtain ⟨d, hd⟩ := hexVal_of_isHexDigit h4 g4
  exact ⟨((a * 16 + b) * 16 + c) * 16 + d, by simp [getu4, ha, hb, hc, hd]⟩

theorem isHexDigit_of_getu4 (h1 h2 h3 h4 rr : Nat) (h : getu4 h1 h2 h3 h4 = some rr) :
    isHexDigit h1 = true ∧ isHexDigit h2 = true ∧ isHexDigit h3 = true ∧
      isHexDigit h4 = true := by
  unfold getu4 at h
  cases ha : hexVal h1 with
  | none => simp [ha] at h
  | some a =>
    cases hb : hexVal h2 with
    | none => simp [ha, hb] at h
    | some b =>
      cases hc : hexVal h3 with
      | none => simp [ha, hb, hc] at h
      | some c =>
        cases hd : hexVal h4 with
        | none => simp [ha, hb, hc, hd] at h
        | some d =>
          exact ⟨isHexDigit_of_hexVal _ _ ha, isHexDigit_of_hexVal _ _ hb,
            isHexDigit_of_hexVal _ _ hc, isHexDigit_of_hexVal _ _ hd⟩

/-- A `\u` escape is paired with what follows only when that is a second `\u`
escape with four hexadecimal digits. -/
theorem escapedRune_pair (rr : Nat) (next : List Nat) (h : (escapedRune rr next).2 = true) :
    ∃ g1 g2 g3 g4 r3, next = 0x5C :: 0x75 :: g1 :: g2 :: g3 :: g4 :: r3 ∧
      isHexDigit g1 = true ∧ isHexDigit g2 = true ∧ isHexDigit g3 = true ∧
      isHexDigit g4 = true := by
  unfold escapedRune at h
  split_ifs at h with hs
  rcases next with _ | ⟨a, _ | ⟨b, _ | ⟨g1, _ | ⟨g2, _ | ⟨g3, _ | ⟨g4, r3⟩⟩⟩⟩⟩⟩
  · simp at h
  · simp at h
  · simp at h
  · simp at h
  · simp at h
  · simp at h
  · simp only at h
    split_ifs at h with hab
    cases hg : getu4 g1 g2 g3 g4 with
    | none => simp [hg] at h
    | some rr1 =>
      obtain ⟨rfl, rfl⟩ := hab
      exact ⟨g1, g2, g3, g4, r3, rfl, isHexDigit_of_getu4 _ _ _ _ _ hg⟩

/-- A byte that is neither a quote, nor a backslash, nor a control character
leaves the scanner inside the string literal. -/
theorem run_inString_plain (c : Nat) (rest : List Nat) (h1 : c ≠ 0x22) (h2 : c ≠ 0x5C)
    (h3 : ¬ c < 0x20) :
    Scanner.run ⟨.stateInString, false, [], false⟩ (c :: rest) =
      Scanner.run ⟨.stateInString, false, [], false⟩ rest := by
  show Scanner.run (Scanner.stepByte ⟨.stateInString, false, [], false⟩ c).1 rest = _
  simp [Scanner.stepByte, h1, h2, h3]

/-- One hexadecimal digit of a `\u` escape. -/
theorem run_hexDigit (f g : StepFn)
    (hstep : ∀ c, Scanner.stepByte ⟨f, false, [], false⟩ c =
      if isHexDigit c then Scanner.goto ⟨f, false, [], false⟩ g .scanContinue
      else Scanner.error ⟨f, false, [], false⟩)
    (hf : f ≠ .stateInString) (data : List Nat)
    (h : Scanner.run ⟨f, false, [], false⟩ data = ⟨.stateInString, false, [], false⟩) :
    ∃ c rest, data = c :: rest ∧ isHexDigit c = true ∧
      Scanner.run ⟨g, false, [], false⟩ rest = ⟨.stateInString, false, [], false⟩ := by
  cases data with
  | nil =>
    exfalso
    apply hf
    have := congrArg Scanner.step h
    exact this
  | cons c rest =>
    have h1 : Scanner.run (Scanner.stepByte ⟨f, false, [], false⟩ c).1 rest =
        ⟨.stateInString, false, [], false⟩ := h
    rw [hstep] at h1
    by_cases hc : isHexDigit c = true
    · rw [if_pos hc] at h1
      exact ⟨c, rest, rfl, hc, h1⟩
    · rw [if_neg hc] at h1
      exfalso
      exact run_outside rest _ (Or.inl rfl) (congrArg Scanner.step h1)

/-- The four digits of a `\u` escape. -/
theorem run_escU (data : List Nat)
    (h : Scanner.run ⟨.stateInStringEscU, false, [], false⟩ data =
      ⟨.stateInString, false, [], false⟩) :
    ∃ h1 h2 h3 h4 rest, data = h1 :: h2 :: h3 :: h4 :: rest ∧ isHexDigit h1 = true ∧
      isHexDigit h2 = true ∧ isHexDigit h3 = true ∧ isHexDigit h4 = true ∧
      Scanner.run ⟨.stateInString, false, [], false⟩ rest =
        ⟨.stateInString, false, [], false⟩ := by
  obtain ⟨h1, r1, rfl, g1, e1⟩ :=
    run_hexDigit .stateInStringEscU .stateInStringEscU1 (fun _ => rfl) (by decide) data h
  obtain ⟨h2, r2, rfl, g2, e2⟩ :=
    run_hexDigit .stateInStringEscU1 .stateInStringEscU12 (fun _ => rfl) (by decide) r1 e1
  obtain ⟨h3, r3, rfl, g3, e3⟩ :=
    run_hexDigit .stateInStringEscU12 .stateInStringEscU123 (fun _ => rfl) (by decide) r2 e2
  obtain ⟨h4, r4, rfl, g4, e4⟩ :=
    run_hexDigit .stateInStringEscU123 .stateInString (fun _ => rfl) (by decide) r3 e3
  exact ⟨h1, h2, h3, h4, r4, rfl, g1, g2, g3, g4, e4⟩

/-- What follows a backslash inside a string literal the scanner accepts: one
of the eight escape characters, or `u` and four hexadecimal digits. -/
theorem run_esc (data : List Nat)
    (h : Scanner.run ⟨.stateInStringEsc, false, [], false⟩ data =
      ⟨.stateInString, false, [], false⟩) :
    (∃ e rest, data = e :: rest ∧
      (e = 0x62 ∨ e = 0x66 ∨ e = 0x6E ∨ e = 0x72 ∨ e = 0x74 ∨ e = 0x5C ∨ e = 0x2F ∨
        e = 0x22) ∧
      Scanner.run ⟨.stateInString, false, [], false⟩ rest =
        ⟨.stateInString, false, [], false⟩) ∨
    (∃ h1 h2 h3 h4 rest, data = 0x75 :: h1 :: h2 :: h3 :: h4 :: rest ∧ isHexDigit h1 = true ∧
      isHexDigit h2 = true ∧ isHexDigit h3 = true ∧ isHexDigit h4 = true ∧
      Scanner.run ⟨.stateInString, false, [], false⟩ rest =
        ⟨.stateInString, false, [], false⟩) := by
  cases data with
  | nil => exact absurd (congrArg Scanner.step h) (by decide)
  | cons e rest =>
    have h1 : Scanner.run (Scanner.stepByte ⟨.stateInStringEsc, false, [], false⟩ e).1 rest =
        ⟨.stateInString, false, [], false⟩ := h
    by_cases he : e = 0x62 ∨ e = 0x66 ∨ e = 0x6E ∨ e = 0x72 ∨ e = 0x74 ∨ e = 0x5C ∨
        e = 0x2F ∨ e = 0x22
    · left
      refine ⟨e, rest, rfl, he, ?_⟩
      simpa [Scanner.stepByte, Scanner.goto, he] using h1
    · by_cases hu : e = 0x75
      · right
        subst hu
        have h2 : Scanner.run ⟨.stateInStringEscU, false, [], false⟩ rest =
            ⟨.stateInString, false, [], false⟩ := h1
        obtain ⟨x1, x2, x3, x4, r, rfl, g⟩ := run_escU rest h2
        exact ⟨x1, x2, x3, x4, r, rfl, g⟩
      · exfalso
        have h3 : Scanner.stepByte ⟨.stateInStringEsc, false, [], false⟩ e =
            Scanner.error ⟨.stateInStringEsc, false, [], false⟩ := by
          simp [Scanner.stepByte, he, hu]
        rw [h3] at h1
        exact run_outside rest _ (Or.inl rfl) (congrArg Scanner.step h1)

theorem unquoteStep_escape (e : Nat) (rest : List Nat)
    (he : e = 0x62 ∨ e = 0x66 ∨ e = 0x6E ∨ e = 0x72 ∨ e = 0x74 ∨ e = 0x5C ∨ e = 0x2F ∨
      e = 0x22) :
    ∃ out, unquoteStep 0x5C (e :: rest) = some (out, 2) := by
  rcases he with rfl | rfl | rfl | rfl | rfl | rfl | rfl | rfl <;>
    simp [unquoteStep]

/-- Every string literal the scanner accepts can be unquoted: if the bytes
`l` take the scanner from inside a string literal to inside the same string
literal, `unquoteBytes` succeeds on `l`. -/
theorem unquote_of_run :
    ∀ (n : Nat) (l : List Nat), l.length ≤ n →
      Scanner.run ⟨.stateInString, false, [], false⟩ l = ⟨.stateInString, false, [], false⟩ →
      ∃ s, unquoteFrom 0 l = some s := by
  intro n
  induction n using Nat.strong_induction_on with
  | _ n ih =>
    intro l hlen h
    cases l with
    | nil => exact ⟨[], rfl⟩
    | cons c rest =>
      have hn : rest.length < n := by simpa using hlen
      have h1 : Scanner.run (Scanner.stepByte ⟨.stateInString, false, [], false⟩ c).1 rest =
          ⟨.stateInString, false, [], false⟩ := h
      by_cases hq : c = 0x22
      · exfalso
        subst hq
        exact run_outside rest _ (Or.inr (Or.inr ⟨rfl, rfl⟩)) (congrArg Scanner.step h1)
      by_cases hb : c = 0x5C
      · subst hb
        have h2 : Scanner.run ⟨.stateInStringEsc, false, [], false⟩ rest =
            ⟨.stateInString, false, [], false⟩ := h1
        rcases run_esc rest h2 with ⟨e, r, rfl, he, hr⟩ | ⟨x1, x2, x3, x4, r, rfl, g1, g2, g3,
          g4, hr⟩
        · obtain ⟨out, hout⟩ := unquoteStep_escape e r he
          obtain ⟨s, hs⟩ := ih r.length (by simp at hn; omega) r (Nat.le_refl _) hr
          exact ⟨_, unquoteFrom_step _ _ out 2 s hout (by simpa [unquoteFrom] using hs)⟩
        · obtain ⟨rr, hrr⟩ := getu4_of_isHexDigit x1 x2 x3 x4 g1 g2 g3 g4
          have hstep : unquoteStep 0x5C (0x75 :: x1 :: x2 :: x3 :: x4 :: r) =
              some (encodeRune (escapedRune rr r).1,
                if (escapedRune rr r).2 then 12 else 6) := by
            simp [unquoteStep, hrr]
          cases hp : (escapedRune rr r).2 with
          | false =>
            obtain ⟨s, hs⟩ := ih r.length (by simp at hn; omega) r (Nat.le_refl _) hr
            rw [hp] at hstep
            exact ⟨_, unquoteFrom_step _ _ _ 6 s hstep (by simpa [unquoteFrom] using hs)⟩
          | true =>
            obtain ⟨y1, y2, y3, y4, r3, rfl, k1, k2, k3, k4⟩ := escapedRune_pair rr r hp
            have hr3 : Scanner.run ⟨.stateInString, false, [], false⟩ r3 =
                ⟨.stateInString, false, [], false⟩ := by
              have h3 : Scanner.run ⟨.stateInStringEsc, false, [], false⟩
                  (0x75 :: y1 :: y2 :: y3 :: y4 :: r3) =
                  ⟨.stateInString, false, [], false⟩ := hr
              rcases run_esc _ h3 with ⟨e, r', heq, he, -⟩ | ⟨z1, z2, z3, z4, r', heq, -, -, -,
                -, hr'⟩
              · exfalso
                have := (List.cons.inj heq).1
                omega
              · have hinj : r3 = r' := by
                  simp only [List.cons.injEq] at heq
                  exact heq.2.2.2.2.2
                rw [hinj]
                exact hr'
            obtain ⟨s, hs⟩ := ih r3.length (by simp at hn; omega) r3 (Nat.le_refl _) hr3
            rw [hp] at hstep
            exact ⟨_, unquoteFrom_step _ _ _ 12 s hstep (by simpa [unquoteFrom] using hs)⟩
      by_cases hctl : c < 0x20
      · exfalso
        have h3 : Scanner.stepByte ⟨.stateInString, false, [], false⟩ c =
            Scanner.error ⟨.stateInString, false, [], false⟩ := by
          simp [Scanner.stepByte, hq, hb, hctl]
        rw [h3] at h1
        exact run_outside rest _ (Or.inl rfl) (congrArg Scanner.step h1)
      have hrest : Scanner.run ⟨.stateInString, false, [], false⟩ rest =
          ⟨.stateInString, false, [], false⟩ := by
        rw [← run_inString_plain c rest hq hb hctl]
        exact h
      by_cases ha : c < 0x80
      · obtain ⟨s, hs⟩ := ih rest.length hn rest (Nat.le_refl _) hrest
        have hstep : unquoteStep c rest = some ([c], 1) := by
          have hqc : ¬ (c = 0x22 ∨ c < 0x20) := by omega
          simp [unquoteStep, hb, hqc, ha]
        exact ⟨_, unquoteFrom_step c rest _ 1 s hstep hs⟩
      · have hstep : unquoteStep c rest =
            some (encodeRune (decodeRune (c :: rest)).1, (decodeRune (c :: rest)).2) := by
          have hqc : ¬ (c = 0x22 ∨ c < 0x20) := by omega
          simp [unquoteStep, hb, hqc, ha]
        rcases decodeRune_width c rest ha with
          ⟨hw, -⟩ | ⟨b1, r1, hr, hw, c0, c1, c2, c3⟩ |
          ⟨b1, b2, r2, hr, hw, c0, c1, c2, c3, c4, c5⟩ |
          ⟨b1, b2, b3, r3, hr, hw, c0, c1, c2, c3, c4, c5, c6, c7⟩
        · obtain ⟨s, hs⟩ := ih rest.length hn rest (Nat.le_refl _) hrest
          exact ⟨_, unquoteFrom_step c rest _ _ s hstep (by rw [hw]; exact hs)⟩
        · subst hr
          rw [run_inString_plain b1 r1 (by omega) (by omega) (by omega)] at hrest
          obtain ⟨s, hs⟩ := ih r1.length (by simp at hn; omega) r1 (Nat.le_refl _) hrest
          exact ⟨_, unquoteFrom_step c _ _ _ s hstep
            (by rw [hw]; simpa [unquoteFrom] using hs)⟩
        · subst hr
          have hb1 : 0x80 ≤ b1 := by
            unfold acceptLo at c2
            split_ifs at c2 <;> omega
          rw [run_inString_plain b1 _ (by omega) (by omega) (by omega),
            run_inString_plain b2 _ (by omega) (by omega) (by omega)] at hrest
          obtain ⟨s, hs⟩ := ih r2.length (by simp at hn; omega) r2 (Nat.le_refl _) hrest
          exact ⟨_, unquoteFrom_step c _ _ _ s hstep
            (by rw [hw]; simpa [unquoteFrom] using hs)⟩
        · subst hr
          have hb1 : 0x80 ≤ b1 := by
            unfold acceptLo at c2
            split_ifs at c2 <;> omega
          rw [run_inString_plain b1 _ (by omega) (by omega) (by omega),
            run_inString_plain b2 _ (by omega) (by omega) (by omega),
            run_inString_plain b3 _ (by omega) (by omega) (by omega)] at hrest
          obtain ⟨s, hs⟩ := ih r3.length (by simp at hn; omega) r3 (Nat.le_refl _) hrest
          exact ⟨_, unquoteFrom_step c _ _ _ s hstep
            (by rw [hw]; simpa [unquoteFrom] using hs)⟩

/-- Whenever the decoder is inside a string literal, `unquoteBytes` succeeds on
the literal read so far: the call on a scanned literal that Go's decoder
answers with a panic when it fails does not fail. -/
theorem unquote_lit (data : List Nat) (v : SessionToken)
    (h : (data.foldl DecodeState.next (DecodeState.init v)).scan.step = .stateInString) :
    ∃ s, unquote (data.foldl DecodeState.next (DecodeState.init v)).lit = some s := by
  have hrun := lit_foldl_next data (DecodeState.init v) (fun h0 => by cases h0)
    (by rw [h]; rfl)
  rw [h] at hrun
  exact unquote_of_run _ _ (Nat.le_refl _) hrun

/-! ## The orchestrator -/

/-! ### Reading the trace of an append -/

@[simp] theorem handlerRuns_append (a b : List Event) :
    handlerRuns (a ++ b) = handlerRuns a ++ handlerRuns b := by
  simp [handlerRuns, List.filterMap_append]

@[simp] theorem carrierWrites_append (a b : List Event) :
    carrierWrites (a ++ b) = carrierWrites a ++ carrierWrites b := by
  simp [carrierWrites, List.filterMap_append]

@[simp] theorem redirects_append (a b : List Event) :
    redirects (a ++ b) = redirects a ++ redirects b := by
  simp [redirects, List.filterMap_append]

@[simp] theorem malformedErrors_append (a b : List Event) :
    malformedErrors (a ++ b) = malformedErrors a ++ malformedErrors b := by
  simp [malformedErrors, List.filterMap_append]

@[simp] theorem internalErrors_append (a b : List Event) :
    internalErrors (a ++ b) = internalErrors a ++ internalErrors b := by
  simp [internalErrors, List.filterMap_append]

@[simp] theorem createCalls_append (a b : List Event) :
    createCalls (a ++ b) = createCalls a ++ createCalls b := by
  simp [createCalls, List.filterMap_append]

@[simp] theorem acquireCalls_append (a b : List Event) :
    acquireCalls (a ++ b) = acquireCalls a ++ acquireCalls b := by
  simp [acquireCalls, List.filterMap_append]

/-! ### Reading the trace one call at a time -/

@[simp] theorem handlerRuns_nil : handlerRuns [] = [] := rfl

@[simp] theorem handlerRuns_cons (e : Event) (tr : List Event) :
    handlerRuns (e :: tr) =
      match e with
      | Event.handler t => t :: handlerRuns tr
      | _ => handlerRuns tr := by
  cases e <;> rfl

@[simp] theorem carrierWrites_nil : carrierWrites [] = [] := rfl

@[simp] theorem carrierWrites_cons (e : Event) (tr : List Event) :
    carrierWrites (e :: tr) =
      match e with
      | Event.setSessionTokenBytes b => b :: carrierWrites tr
      | _ => carrierWrites tr := by
  cases e <;> rfl

@[simp] theorem redirects_nil : redirects [] = [] := rfl

@[simp] theorem redirects_cons (e : Event) (tr : List Event) :
    redirects (e :: tr) =
      match e with
      | Event.redirectResponse h => h :: redirects tr
      | _ => redirects tr := by
  cases e <;> rfl

@[simp] theorem malformedErrors_nil : malformedErrors [] = [] := rfl

@[simp] theorem malformedErrors_cons (e : Event) (tr : List Event) :
    malformedErrors (e :: tr) =
      match e with
      | Event.malformedSessionTokenErrorResponse x => x :: malformedErrors tr
      | _ => malformedErrors tr := by
  cases e <;> rfl

@[simp] theorem internalErrors_nil : internalErrors [] = [] := rfl

@[simp] theorem internalErrors_cons (e : Event) (tr : List Event) :
    internalErrors (e :: tr) =
      match e with
      | Event.internalServerErrorResponse x => x :: internalErrors tr
      | _ => internalErrors tr := by
  cases e <;> rfl

@[simp] theorem createCalls_nil : createCalls [] = [] := rfl

@[simp] theorem createCalls_cons (e : Event) (tr : List Event) :
    createCalls (e :: tr) =
      match e with
      | Event.CreateAndAcquireSession _ o => o :: createCalls tr
      | _ => createCalls tr := by
  cases e <;> rfl

@[simp] theorem acquireCalls_nil : acquireCalls [] = [] := rfl

@[simp] theorem acquireCalls_cons (e : Event) (tr : List Event) :
    acquireCalls (e :: tr) =
      match e with
      | Event.AcquireSession _ t o => (t, o) :: acquireCalls tr
      | _ => acquireCalls tr := by
  cases e <;> rfl

/-! ### What the two closures add to the trace -/

theorem handlerRuns_replicate (k : Nat) (t : SessionToken) :
    handlerRuns (List.replicate k (Event.handler t)) = List.replicate k t := by
  induction k with
  | zero => rfl
  | succ k ih => simpa [List.replicate_succ] using ih

theorem quiet_replicate (k : Nat) (t : SessionToken) :
    carrierWrites (List.replicate k (Event.handler t)) = [] ∧
    redirects (List.replicate k (Event.handler t)) = [] ∧
    malformedErrors (List.replicate k (Event.handler t)) = [] ∧
    internalErrors (List.replicate k (Event.handler t)) = [] ∧
    createCalls (List.replicate k (Event.handler t)) = [] ∧
    acquireCalls (List.replicate k (Event.handler t)) = [] := by
  induction k with
  | zero => simp
  | succ k ih => simpa [List.replicate_succ] using ih

theorem handlerRuns_createEvents (ts : List SessionToken) :
    handlerRuns (createEvents ts) = ts := by
  induction ts with
  | nil => rfl
  | cons t ts ih => simpa [createEvents] using ih

theorem carrierWrites_createEvents (ts : List SessionToken) :
    carrierWrites (createEvents ts) = ts.map fun t => (MarshallSessionToken t).1 := by
  induction ts with
  | nil => rfl
  | cons t ts ih => simpa [createEvents] using ih

theorem quiet_createEvents (ts : List SessionToken) :
    redirects (createEvents ts) = [] ∧
    malformedErrors (createEvents ts) = [] ∧
    internalErrors (createEvents ts) = [] ∧
    createCalls (createEvents ts) = [] ∧
    acquireCalls (createEvents ts) = [] := by
  induction ts with
  | nil => simp [createEvents]
  | cons t ts ih => simpa [createEvents] using ih

/-- The creation closure never panics: it writes the encoded token and runs
the handler. -/
theorem createContinuation_eq (req : Request) (opt : HandlerOptions) (handler : Handler)
    (t : SessionToken) (s : State) :
    createContinuation req opt handler t s =
      .ok (handler (opt.setSessionTokenBytes s.w (MarshallSessionToken t).1) req t).2
        { w := (handler (opt.setSessionTokenBytes s.w (MarshallSessionToken t).1) req t).1,
          trace := s.trace ++ createEvents [t] } := by
  simp [createContinuation, MarshallSessionToken_eq, State.setSessionTokenBytes, State.handler,
    createEvents]

/-- A run of a collaborator operation with the creation closure returns, and
adds to the trace the closure's calls for the tokens it was run on. -/
theorem run_createContinuation (req : Request) (opt : HandlerOptions) (handler : Handler)
    {ρ : Type} (c : Collab SessionToken ρ) (s : State) :
    ∃ (r : ρ) (w1 : ResponseWriter) (ts : List SessionToken),
      c.run (createContinuation req opt handler) s =
        .ok r { w := w1, trace := s.trace ++ createEvents ts } ∧
      ∀ m, c.runsAtMost m → ts.length ≤ m := by
  induction c generalizing s with
  | ret r => exact ⟨r, s.w, [], by simp [Collab.run, createEvents], fun m _ => Nat.zero_le _⟩
  | call a next ih =>
    obtain ⟨r, w1, ts, hrun, hbound⟩ :=
      ih (handler (opt.setSessionTokenBytes s.w (MarshallSessionToken a).1) req a).2
        { w := (handler (opt.setSessionTokenBytes s.w (MarshallSessionToken a).1) req a).1,
          trace := s.trace ++ createEvents [a] }
    refine ⟨r, w1, a :: ts, ?_, ?_⟩
    · rw [Collab.run, createContinuation_eq]
      dsimp only
      rw [hrun]
      simp [createEvents]
    · intro m hm
      cases m with
      | zero => exact absurd hm (by simp [Collab.runsAtMost])
      | succ m => exact Nat.succ_le_succ (hbound m (hm _))

/-- A run of a collaborator operation with the acquisition closure returns, and
adds to the trace one handler call on the request's token per run of the
closure. -/
theorem run_acquireContinuation (req : Request) (handler : Handler) (t : SessionToken)
    {ρ : Type} (c : Collab Unit ρ) (s : State) :
    ∃ (r : ρ) (w1 : ResponseWriter) (k : Nat),
      c.run (acquireContinuation req handler t) s =
        .ok r { w := w1, trace := s.trace ++ List.replicate k (.handler t) } ∧
      ∀ m, c.runsAtMost m → k ≤ m := by
  induction c generalizing s with
  | ret r => exact ⟨r, s.w, 0, by simp [Collab.run], fun m _ => Nat.zero_le _⟩
  | call a next ih =>
    obtain ⟨r, w1, k, hrun, hbound⟩ :=
      ih (handler s.w req t).2
        { w := (handler s.w req t).1, trace := s.trace ++ [.handler t] }
    refine ⟨r, w1, k + 1, ?_, ?_⟩
    · rw [Collab.run, acquireContinuation]
      dsimp only [State.handler]
      rw [hrun]
      simp [List.replicate_succ]
    · intro m hm
      cases m with
      | zero => exact absurd hm (by simp [Collab.runsAtMost])
      | succ m => exact Nat.succ_le_succ (hbound m (hm _))

/-- A run of a collaborator operation with the acquisition closure adds to the
trace exactly one handler call on the request's token for each time the
operation runs the closure. -/
theorem run_acquireContinuation_count (req : Request) (handler : Handler) (t : SessionToken)
    {ρ : Type} (c : Collab Unit ρ) (s : State) :
    ∃ (r : ρ) (w1 : ResponseWriter),
      c.run (acquireContinuation req handler t) s =
        .ok r
          { w := w1,
            trace := s.trace ++
              List.replicate (c.runCount (acquireContinuation req handler t) s)
                (.handler t) } := by
  induction c generalizing s with
  | ret r => exact ⟨r, s.w, by simp [Collab.run, Collab.runCount]⟩
  | call a next ih =>
    obtain ⟨r, w1, hrun⟩ :=
      ih (handler s.w req t).2
        { w := (handler s.w req t).1, trace := s.trace ++ [.handler t] }
    refine ⟨r, w1, ?_⟩
    rw [Collab.run, Collab.runCount, acquireContinuation]
    dsimp only [State.handler]
    rw [hrun]
    simp [List.replicate_succ']
    rw [← List.replicate_succ, List.replicate_succ']

/-! ### The two branches of `Handle` that reach the node collaborator -/

theorem UnmarshallSessionToken_nil : UnmarshallSessionToken [] = (none, none) := rfl

/-- Calls made up to and including the call of `CreateAndAcquireSession`. -/
theorem callCreateAndAcquireSession_run (n : Node) (w : ResponseWriter) (req : Request)
    (opt : HandlerOptions) (handler : Handler) :
    ∃ (err : Option Error) (w1 : ResponseWriter) (ts : List SessionToken),
      callCreateAndAcquireSession n req opt handler ((start w).log .redirectNewRequest) =
        .ok err
          { w := w1,
            trace := [.getSessionTokenBytes, .redirectNewRequest, .getCreateSessionOptions,
                .getAcquireSessionOptions,
                .CreateAndAcquireSession req.Context
                  ⟨opt.getCreateSessionOptions req, opt.getAcquireSessionOptions req⟩] ++
              createEvents ts } ∧
      ∀ m, (n.CreateAndAcquireSession req.Context
          ⟨opt.getCreateSessionOptions req, opt.getAcquireSessionOptions req⟩).runsAtMost m →
        ts.length ≤ m := by
  obtain ⟨err, w1, ts, hrun, hbound⟩ :=
    run_createContinuation req opt handler
      (n.CreateAndAcquireSession req.Context
        ⟨opt.getCreateSessionOptions req, opt.getAcquireSessionOptions req⟩)
      ((((start w).log .redirectNewRequest).log .getCreateSessionOptions).log
        .getAcquireSessionOptions |>.log
          (.CreateAndAcquireSession req.Context
            ⟨opt.getCreateSessionOptions req, opt.getAcquireSessionOptions req⟩))
  refine ⟨err, w1, ts, ?_, hbound⟩
  rw [callCreateAndAcquireSession, hrun]
  simp [State.log, start]

/-- Calls made up to and including the call of `AcquireSession`. -/
theorem callAcquireSession_run (n : Node) (w : ResponseWriter) (req : Request)
    (opt : HandlerOptions) (handler : Handler) (t : SessionToken) :
    ∃ (newToken : Option SessionToken) (err : Option Error) (w1 : ResponseWriter) (k : Nat),
      callAcquireSession n req opt handler t (start w) =
        .ok (newToken, err)
          { w := w1,
            trace := [.getSessionTokenBytes, .getAcquireSessionOptions,
                .AcquireSession req.Context t (opt.getAcquireSessionOptions req)] ++
              List.replicate k (.handler t) } ∧
      ∀ m, (n.AcquireSession req.Context t (opt.getAcquireSessionOptions req)).runsAtMost m →
        k ≤ m := by
  obtain ⟨⟨newToken, err⟩, w1, k, hrun, hbound⟩ :=
    run_acquireContinuation req handler t
      (n.AcquireSession req.Context t (opt.getAcquireSessionOptions req))
      (((start w).log .getAcquireSessionOptions).log
        (.AcquireSession req.Context t (opt.getAcquireSessionOptions req)))
  refine ⟨newToken, err, w1, k, ?_, hbound⟩
  rw [callAcquireSession, hrun]
  simp [State.log, start]

/-- The branch of `Handle` for a request without token that is not redirected:
the result is what the collaborator call left, followed by the internal-error
response when the call returned an error. -/
theorem Handle_create (n : Node) (w : ResponseWriter) (req : Request) (opt : HandlerOptions)
    (handler : Handler) (hempty : opt.getSessionTokenBytes req = [])
    (hpolicy : opt.redirectNewRequest req n = false) (err : Option Error) (s2 : State)
    (hcall : callCreateAndAcquireSession n req opt handler
      ((start w).log .redirectNewRequest) = .ok err s2) :
    Handle n w req opt handler = finish opt err s2 := by
  simp only [Handle, hempty, UnmarshallSessionToken_nil, hpolicy, hcall]
  simp

/-- The branch of `Handle` for a token of the local node: the result is what
the collaborator call left, followed by the carrier write and the redirect when
the call returned a new token without error, and by the internal-error
response when it returned an error. -/
theorem Handle_acquire (n : Node) (w : ResponseWriter) (req : Request) (opt : HandlerOptions)
    (handler : Handler) (t : SessionToken)
    (hdecode : UnmarshallSessionToken (opt.getSessionTokenBytes req) = (some t, none))
    (hhost : t.Host = n.Host) (newToken : Option SessionToken) (err : Option Error)
    (s2 : State)
    (hcall : callAcquireSession n req opt handler t (start w) = .ok (newToken, err) s2) :
    Handle n w req opt handler =
      finish opt err
        (if err = none ∧ newToken ≠ none then
          (s2.setSessionTokenBytes opt (opt.getSessionTokenBytes req)).redirectResponse opt req
            t.Host
        else s2) := by
  simp only [Handle, hdecode, dummyClientNeedsRedirect, hhost, hcall]
  simp

/-- The trace of a run of `Handle` has one of six shapes: the malformed-token
answer, the redirect of a foreign token, the redirect of a new request, the
panic of the `redirectTarget` policy, session creation, or session
acquisition. -/
theorem Handle_trace (n : Node) (w : ResponseWriter) (req : Request) (opt : HandlerOptions)
    (handler : Handler) :
    (∃ err, (Handle n w req opt handler).state.trace =
        [.getSessionTokenBytes, .malformedSessionTokenErrorResponse err]) ∨
    (∃ t : SessionToken, (Handle n w req opt handler).state.trace =
        [.getSessionTokenBytes, .setSessionTokenBytes (opt.getSessionTokenBytes req),
         .redirectResponse t.Host]) ∨
    (∃ host, (Handle n w req opt handler).state.trace =
        [.getSessionTokenBytes, .redirectNewRequest, .redirectTarget,
         .redirectResponse host]) ∨
    (∃ e, (Handle n w req opt handler).state.trace =
        [.getSessionTokenBytes, .redirectNewRequest, .redirectTarget, .panic e]) ∨
    (∃ (ts : List SessionToken) (err : Option Error),
      (Handle n w req opt handler).state.trace =
        [.getSessionTokenBytes, .redirectNewRequest, .getCreateSessionOptions,
          .getAcquireSessionOptions,
          .CreateAndAcquireSession req.Context
            ⟨opt.getCreateSessionOptions req, opt.getAcquireSessionOptions req⟩] ++
          createEvents ts ++ surfaced err ∧
      ∀ m, (∀ ctx o, (n.CreateAndAcquireSession ctx o).runsAtMost m) → ts.length ≤ m) ∨
    (∃ (t : SessionToken) (k : Nat) (offload : Bool) (err : Option Error),
      (Handle n w req opt handler).state.trace =
        [.getSessionTokenBytes, .getAcquireSessionOptions,
          .AcquireSession req.Context t (opt.getAcquireSessionOptions req)] ++
          List.replicate k (.handler t) ++
          (if offload then
            [.setSessionTokenBytes (opt.getSessionTokenBytes req), .redirectResponse t.Host]
           else []) ++ surfaced err ∧
      (offload = true → err = none) ∧
      ∀ m, (∀ ctx t o, (n.AcquireSession ctx t o).runsAtMost m) → k ≤ m) := by
  rcases hdecode : UnmarshallSessionToken (opt.getSessionTokenBytes req) with ⟨tok, derr⟩
  cases derr with
  | some e =>
    left
    refine ⟨e, ?_⟩
    simp [Handle, hdecode, start, State.malformedSessionTokenErrorResponse, Outcome.state]
  | none =>
    cases tok with
    | some t =>
      by_cases hhost : t.Host = n.Host
      · right; right; right; right; right
        obtain ⟨newToken, err, w1, k, hcall, hbound⟩ :=
          callAcquireSession_run n w req opt handler t
        rw [Handle_acquire n w req opt handler t hdecode hhost newToken err _ hcall]
        refine ⟨t, k, decide (err = none ∧ newToken ≠ none), err, ?_, ?_, ?_⟩
        · cases err <;> cases newToken <;>
            simp [finish, surfaced, Outcome.state, State.setSessionTokenBytes,
              State.redirectResponse, State.internalServerErrorResponse]
        · intro h
          simp at h
          exact h.1
        · exact fun m hm => hbound m (hm _ _ _)
      · right; left
        refine ⟨t, ?_⟩
        have hne : t.SessionLocation.Host ≠ n.Host := hhost
        simp [Handle, hdecode, start, dummyClientNeedsRedirect, hne, Outcome.state,
          State.setSessionTokenBytes, State.redirectResponse, SessionToken.Host]
    | none =>
      have hlen : opt.getSessionTokenBytes req = [] := by
        by_contra hne
        have hpos : (opt.getSessionTokenBytes req).length ≠ 0 := by
          simpa [List.length_eq_zero] using hne
        unfold UnmarshallSessionToken at hdecode
        rw [if_neg hpos] at hdecode
        rcases hj : jsonUnmarshal (opt.getSessionTokenBytes req) ⟨⟨[], []⟩⟩ with ⟨v, je⟩
        rw [hj] at hdecode
        cases je <;> simp at hdecode
      cases hpolicy : opt.redirectNewRequest req n with
      | true =>
        cases htarget : opt.redirectTarget req n with
        | ok host =>
          right; right; left
          exact ⟨host, by
            simp [Handle, hlen, UnmarshallSessionToken_nil, hpolicy, htarget, start, State.log,
              State.redirectResponse, Outcome.state]⟩
        | error e =>
          right; right; right; left
          exact ⟨e, by
            simp [Handle, hlen, UnmarshallSessionToken_nil, hpolicy, htarget, start, State.log,
              Outcome.state]⟩
      | false =>
        right; right; right; right; left
        obtain ⟨err, w1, ts, hcall, hbound⟩ :=
          callCreateAndAcquireSession_run n w req opt handler
        rw [Handle_create n w req opt handler hlen hpolicy err _ hcall]
        refine ⟨ts, err, ?_, fun m hm => hbound m (hm _ _)⟩
        cases err <;> simp [finish, surfaced, Outcome.state, State.internalServerErrorResponse]

/-! ### More on the branches of `Handle` -/

/-- The run of `Handle` on a token of the local node, spelled out: the calls up
to `AcquireSession`, one handler call per run of the continuation, the carrier
write and the redirect when a new token came back without error, and the
internal-error response when an error came back. -/
theorem Handle_acquire_trace (n : Node) (w : ResponseWriter) (req : Request)
    (opt : HandlerOptions) (handler : Handler) (t : SessionToken)
    (hdecode : UnmarshallSessionToken (opt.getSessionTokenBytes req) = (some t, none))
    (hhost : t.Host = n.Host) :
    ∃ (newToken : Option SessionToken) (err : Option Error) (w1 : ResponseWriter) (k : Nat),
      callAcquireSession n req opt handler t (start w) =
        .ok (newToken, err)
          { w := w1,
            trace := [.getSessionTokenBytes, .getAcquireSessionOptions,
                .AcquireSession req.Context t (opt.getAcquireSessionOptions req)] ++
              List.replicate k (.handler t) } ∧
      (∃ w2, Handle n w req opt handler =
        .ok ()
          { w := w2,
            trace := [.getSessionTokenBytes, .getAcquireSessionOptions,
                .AcquireSession req.Context t (opt.getAcquireSessionOptions req)] ++
              List.replicate k (.handler t) ++
              (if err = none ∧ newToken ≠ none then
                [.setSessionTokenBytes (opt.getSessionTokenBytes req), .redirectResponse t.Host]
               else []) ++ surfaced err }) := by
  obtain ⟨newToken, err, w1, k, hcall, _⟩ := callAcquireSession_run n w req opt handler t
  refine ⟨newToken, err, w1, k, hcall, ?_⟩
  rw [Handle_acquire n w req opt handler t hdecode hhost newToken err _ hcall]
  cases err <;> cases newToken <;>
    simp [finish, surfaced, State.setSessionTokenBytes, State.redirectResponse,
      State.internalServerErrorResponse]

/-- A run of `Handle` that calls `AcquireSession` is a run on a token of the
local node. -/
theorem acquireCalls_ne_nil (n : Node) (w : ResponseWriter) (req : Request)
    (opt : HandlerOptions) (handler : Handler)
    (h : acquireCalls (Handle n w req opt handler).state.trace ≠ []) :
    ∃ t, UnmarshallSessionToken (opt.getSessionTokenBytes req) = (some t, none) ∧
      t.Host = n.Host := by
  rcases hdecode : UnmarshallSessionToken (opt.getSessionTokenBytes req) with ⟨tok, derr⟩
  cases derr with
  | some e =>
    exfalso
    apply h
    simp [Handle, hdecode, start, State.malformedSessionTokenErrorResponse, Outcome.state]
  | none =>
    cases tok with
    | some t =>
      by_cases hhost : t.Host = n.Host
      · exact ⟨t, rfl, hhost⟩
      · exfalso
        apply h
        have hne : t.SessionLocation.Host ≠ n.Host := hhost
        simp [Handle, hdecode, start, dummyClientNeedsRedirect, hne, Outcome.state,
          State.setSessionTokenBytes, State.redirectResponse, SessionToken.Host]
    | none =>
      exfalso
      apply h
      have hget := UnmarshallSessionToken_absent_only _ hdecode
      cases hpolicy : opt.redirectNewRequest req n with
      | true =>
        cases htarget : opt.redirectTarget req n <;>
          simp [Handle, hget, UnmarshallSessionToken_nil, hpolicy, htarget, start, State.log,
            State.redirectResponse, Outcome.state]
      | false =>
        obtain ⟨err1, w1, ts, hcall, _⟩ := callCreateAndAcquireSession_run n w req opt handler
        rw [Handle_create n w req opt handler hget hpolicy err1 _ hcall]
        cases err1 <;>
          simp [finish, Outcome.state, State.internalServerErrorResponse,
            (quiet_createEvents ts).2.2.2.2]

/-- A run of `Handle` ends in a panic only where the `redirectTarget` policy
panics: the carrier is empty, `redirectNewRequest` answered true and the
panic is the policy's. -/
theorem Handle_panic (n : Node) (w : ResponseWriter) (req : Request) (opt : HandlerOptions)
    (handler : Handler) (s : State) (h : Handle n w req opt handler = .panic s) :
    opt.getSessionTokenBytes req = [] ∧ opt.redirectNewRequest req n = true ∧
      ∃ e, opt.redirectTarget req n = .error e ∧
        s = { w := w,
              trace := [.getSessionTokenBytes, .redirectNewRequest, .redirectTarget,
                .panic e] } := by
  rcases hdecode : UnmarshallSessionToken (opt.getSessionTokenBytes req) with ⟨tok, derr⟩
  cases derr with
  | some e =>
    simp [Handle, hdecode] at h
  | none =>
    cases tok with
    | some t =>
      by_cases hhost : t.Host = n.Host
      · obtain ⟨newToken, err, w1, k, _, w2, hH⟩ :=
          Handle_acquire_trace n w req opt handler t hdecode hhost
        rw [hH] at h
        cases h
      · have hne : t.SessionLocation.Host ≠ n.Host := hhost
        simp [Handle, hdecode, dummyClientNeedsRedirect, hne, SessionToken.Host] at h
    | none =>
      have hget := UnmarshallSessionToken_absent_only _ hdecode
      cases hpolicy : opt.redirectNewRequest req n with
      | true =>
        cases htarget : opt.redirectTarget req n with
        | ok host =>
          simp [Handle, hget, UnmarshallSessionToken_nil, hpolicy, htarget] at h
        | error e =>
          refine ⟨hget, rfl, e, rfl, ?_⟩
          simp [Handle, hget, UnmarshallSessionToken_nil, hpolicy, htarget, start,
            State.log] at h
          exact h.symm
      | false =>
        obtain ⟨err1, w1, ts, hcall, _⟩ := callCreateAndAcquireSession_run n w req opt handler
        rw [Handle_create n w req opt handler hget hpolicy err1 _ hcall] at h
        cases err1 <;> simp [finish] at h

/-- The default `redirectTarget` panics where the node has no parent: under the
default options with `redirectNewRequest` set to true, a request without token
on such a node ends in that panic, with nothing written. -/
theorem Handle_defaultRedirectTarget_panic :
    Handle Example.nodeOrphan Example.blank (Example.request [])
        ((NewHandlerOptionsBuilder Example.net).RedirectNewRequest (fun _ _ => true)).Build
        (Example.handler none) =
      .panic
        { w := Example.blank,
          trace := [.getSessionTokenBytes, .redirectNewRequest, .redirectTarget,
            .panic (.other "no parent")] } := by
  decide

/-! ## The claims -/

/-- C1 (dummy-client redirect): when the carrier bytes decode to a token whose
`Host` differs from the local node's `Host`, `Handle` reads the carrier, writes
the very same bytes to the response carrier, issues one redirect to the
token's `Host` and makes no other call. -/
theorem Handle_dummy_client_redirect (n : Node) (w : ResponseWriter) (req : Request)
    (opt : HandlerOptions) (handler : Handler) (sessionToken : SessionToken)
    (hdecode : UnmarshallSessionToken (opt.getSessionTokenBytes req) = (some sessionToken, none))
    (hhost : sessionToken.Host ≠ n.Host) :
    Handle n w req opt handler =
      .ok ()
        { w := opt.redirectResponse
            (opt.setSessionTokenBytes w (opt.getSessionTokenBytes req)) req sessionToken.Host,
          trace := [.getSessionTokenBytes,
                    .setSessionTokenBytes (opt.getSessionTokenBytes req),
                    .redirectResponse sessionToken.Host] } := by
  have hne : sessionToken.SessionLocation.Host ≠ n.Host := hhost
  simp [Handle, start, hdecode, dummyClientNeedsRedirect, hne, State.setSessionTokenBytes,
    State.redirectResponse, SessionToken.Host]

/-- Instance of C1: the token with `Host` "B" presented to node "A". -/
theorem Handle_dummy_client_redirect_witness :
    Handle Example.nodeA Example.blank (Example.request Example.bytesB)
        (Example.options false) (Example.handler none) =
      .ok ()
        { w := { Header := [(Example.tokenHeader, Example.bytesB)], status := 302,
                 body := [0x42] },
          trace := [.getSessionTokenBytes, .setSessionTokenBytes Example.bytesB,
                    .redirectResponse [0x42]] } :=
  Handle_dummy_client_redirect Example.nodeA Example.blank (Example.request Example.bytesB)
    (Example.options false) (Example.handler none) Example.tokenB (by decide) (by decide)

/-- C2, refuted as stated: node "A" reports that the session of the token it
is presented with has moved, without running the continuation.  The token's
`Host` is the node's, `AcquireSession` returns a new token and no error,
`Handle` writes the original bytes and redirects to "A", and the handler has
not been invoked at all. -/
theorem offload_redirect_without_handler_run :
    UnmarshallSessionToken
        ((Example.options false).getSessionTokenBytes (Example.request Example.bytesA)) =
      (some Example.tokenA, none) ∧
    Example.tokenA.Host = Example.nodeAOffloaded.Host ∧
    callAcquireSession Example.nodeAOffloaded (Example.request Example.bytesA)
        (Example.options false) (Example.handler none) Example.tokenA (start Example.blank) =
      .ok (some Example.tokenC, none)
        { w := Example.blank,
          trace := [.getSessionTokenBytes, .getAcquireSessionOptions,
                    .AcquireSession ⟨0⟩ Example.tokenA ⟨1⟩] } ∧
    Handle Example.nodeAOffloaded Example.blank (Example.request Example.bytesA)
        (Example.options false) (Example.handler none) =
      .ok ()
        { w := { Header := [(Example.tokenHeader, Example.bytesA)], status := 302,
                 body := [0x41] },
          trace := [.getSessionTokenBytes, .getAcquireSessionOptions,
                    .AcquireSession ⟨0⟩ Example.tokenA ⟨1⟩,
                    .setSessionTokenBytes Example.bytesA, .redirectResponse [0x41]] } ∧
    handlerRuns (Handle Example.nodeAOffloaded Example.blank (Example.request Example.bytesA)
        (Example.options false) (Example.handler none)).state.trace = [] := by
  decide

/-- C2, amended (offload mid-acquisition): for a token of the local node, when
the call of `AcquireSession` returns a new token and no error, `Handle` ends
with the write of the original carrier bytes followed by the redirect to the
original token's `Host`, and no internal-error response is produced.  Before
that the trace holds the call of `AcquireSession` and exactly one handler call
on the original token for each time the collaborator ran the continuation: a
collaborator that runs it once has the handler applied once to the writer of
the request, and one that returns without running it leaves the writer
untouched and the handler not invoked. -/
theorem Handle_offload_redirect (n : Node) (w : ResponseWriter) (req : Request)
    (opt : HandlerOptions) (handler : Handler) (t newToken : SessionToken) (s2 : State)
    (hdecode : UnmarshallSessionToken (opt.getSessionTokenBytes req) = (some t, none))
    (hhost : t.Host = n.Host)
    (hcall : callAcquireSession n req opt handler t (start w) =
      .ok (some newToken, none) s2) :
    Handle n w req opt handler =
      .ok ()
        { w := opt.redirectResponse
            (opt.setSessionTokenBytes s2.w (opt.getSessionTokenBytes req)) req t.Host,
          trace := s2.trace ++
            [.setSessionTokenBytes (opt.getSessionTokenBytes req), .redirectResponse t.Host] } ∧
    s2.trace =
      [.getSessionTokenBytes, .getAcquireSessionOptions,
        .AcquireSession req.Context t (opt.getAcquireSessionOptions req)] ++
        List.replicate
          ((n.AcquireSession req.Context t (opt.getAcquireSessionOptions req)).runCount
            (acquireContinuation req handler t)
            { w := w,
              trace := [.getSessionTokenBytes, .getAcquireSessionOptions,
                .AcquireSession req.Context t (opt.getAcquireSessionOptions req)] })
          (.handler t) ∧
    (∀ r : Option Error → Option SessionToken × Option Error,
      n.AcquireSession req.Context t (opt.getAcquireSessionOptions req) =
          .call () (fun err => .ret (r err)) →
        s2 =
          { w := (handler w req t).1,
            trace := [.getSessionTokenBytes, .getAcquireSessionOptions,
              .AcquireSession req.Context t (opt.getAcquireSessionOptions req),
              .handler t] }) ∧
    (∀ r : Option SessionToken × Option Error,
      n.AcquireSession req.Context t (opt.getAcquireSessionOptions req) = .ret r →
        s2 =
          { w := w,
            trace := [.getSessionTokenBytes, .getAcquireSessionOptions,
              .AcquireSession req.Context t (opt.getAcquireSessionOptions req)] }) ∧
    internalErrors (Handle n w req opt handler).state.trace = [] := by
  have hH := Handle_acquire n w req opt handler t hdecode hhost (some newToken) none s2 hcall
  have hs1 : ((start w).log .getAcquireSessionOptions).log
      (.AcquireSession req.Context t (opt.getAcquireSessionOptions req)) =
      { w := w,
        trace := [.getSessionTokenBytes, .getAcquireSessionOptions,
          .AcquireSession req.Context t (opt.getAcquireSessionOptions req)] } := by
    simp [State.log, start]
  have hcall0 : (n.AcquireSession req.Context t (opt.getAcquireSessionOptions req)).run
      (acquireContinuation req handler t)
      { w := w,
        trace := [.getSessionTokenBytes, .getAcquireSessionOptions,
          .AcquireSession req.Context t (opt.getAcquireSessionOptions req)] } =
      .ok (some newToken, none) s2 := by
    rw [← hs1]
    exact hcall
  obtain ⟨r1, w1, hrun⟩ := run_acquireContinuation_count req handler t
    (n.AcquireSession req.Context t (opt.getAcquireSessionOptions req))
    { w := w,
      trace := [.getSessionTokenBytes, .getAcquireSessionOptions,
        .AcquireSession req.Context t (opt.getAcquireSessionOptions req)] }
  have htrace : s2.trace =
      [.getSessionTokenBytes, .getAcquireSessionOptions,
        .AcquireSession req.Context t (opt.getAcquireSessionOptions req)] ++
        List.replicate
          ((n.AcquireSession req.Context t (opt.getAcquireSessionOptions req)).runCount
            (acquireContinuation req handler t)
            { w := w,
              trace := [.getSessionTokenBytes, .getAcquireSessionOptions,
                .AcquireSession req.Context t (opt.getAcquireSessionOptions req)] })
          (.handler t) := by
    rw [hrun] at hcall0
    injection hcall0 with _ hs
    rw [← hs]
  refine ⟨?_, htrace, ?_, ?_, ?_⟩
  · rw [hH]
    simp [finish, State.setSessionTokenBytes, State.redirectResponse]
  · intro r hr
    rw [hr] at hcall0
    simp only [Collab.run, acquireContinuation, State.handler] at hcall0
    injection hcall0 with _ hs
    rw [← hs]
    simp
  · intro r hr
    rw [hr] at hcall0
    simp only [Collab.run] at hcall0
    injection hcall0 with _ hs
    rw [← hs]
  · rw [hH]
    simp only [finish, State.setSessionTokenBytes, State.redirectResponse, Outcome.state]
    rw [htrace]
    simp [(quiet_replicate _ t).2.2.2.1]

/-- Instance of C2, amended: node "A" runs the continuation once and then
reports the new location on node "C": the handler has written its byte to the
body before the carrier write and the redirect. -/
theorem Handle_offload_redirect_witness :
    Handle Example.nodeAOffloading Example.blank (Example.request Example.bytesA)
        (Example.options false) (Example.handler none) =
      .ok ()
        { w := { Header := [(Example.tokenHeader, Example.bytesA)], status := 302,
                 body := [0x41] },
          trace := [.getSessionTokenBytes, .getAcquireSessionOptions,
                    .AcquireSession ⟨0⟩ Example.tokenA ⟨1⟩, .handler Example.tokenA,
                    .setSessionTokenBytes Example.bytesA, .redirectResponse [0x41]] } ∧
    handlerRuns (Handle Example.nodeAOffloading Example.blank (Example.request Example.bytesA)
        (Example.options false) (Example.handler none)).state.trace = [Example.tokenA] :=
  ⟨(Handle_offload_redirect Example.nodeAOffloading Example.blank
    (Example.request Example.bytesA) (Example.options false) (Example.handler none)
    Example.tokenA Example.tokenC
    { w := { Header := [], status := 0, body := [0x21] },
      trace := [.getSessionTokenBytes, .getAcquireSessionOptions,
                .AcquireSession ⟨0⟩ Example.tokenA ⟨1⟩, .handler Example.tokenA] }
    (by decide) (by decide) (by decide)).1, by decide⟩

/-- C3, refuted as stated: on node "A" a request without token whose handler
returns an error both runs the handler and emits the internal-error response;
and a request whose session is offloaded after the continuation has run both
runs the handler and redirects. -/
theorem handler_run_with_error_response_and_with_redirect :
    (handlerRuns (Handle Example.nodeA Example.blank (Example.request [])
        (Example.options false) (Example.handler (some (.other "boom")))).state.trace =
      [Example.tokenA] ∧
     internalErrors (Handle Example.nodeA Example.blank (Example.request [])
        (Example.options false) (Example.handler (some (.other "boom")))).state.trace =
      [.other "boom"]) ∧
    (handlerRuns (Handle Example.nodeAOffloading Example.blank
        (Example.request Example.bytesA) (Example.options false)
        (Example.handler none)).state.trace = [Example.tokenA] ∧
     redirects (Handle Example.nodeAOffloading Example.blank
        (Example.request Example.bytesA) (Example.options false)
        (Example.handler none)).state.trace = [[0x41]]) := by
  decide

/-- C3, amended: a single run of `Handle` performs at most one response action
among redirect, malformed-token error response and internal-error response;
the handler runs only after a call to the node collaborator, never together
with a malformed-token error response, and together with a redirect only
after a call of `AcquireSession`. -/
theorem Handle_at_most_one_response (n : Node) (w : ResponseWriter) (req : Request)
    (opt : HandlerOptions) (handler : Handler) :
    (redirects (Handle n w req opt handler).state.trace).length +
      (malformedErrors (Handle n w req opt handler).state.trace).length +
      (internalErrors (Handle n w req opt handler).state.trace).length ≤ 1 ∧
    (handlerRuns (Handle n w req opt handler).state.trace ≠ [] →
      malformedErrors (Handle n w req opt handler).state.trace = [] ∧
      (createCalls (Handle n w req opt handler).state.trace).length +
        (acquireCalls (Handle n w req opt handler).state.trace).length = 1) ∧
    (handlerRuns (Handle n w req opt handler).state.trace ≠ [] →
      redirects (Handle n w req opt handler).state.trace ≠ [] →
      (acquireCalls (Handle n w req opt handler).state.trace).length = 1) := by
  rcases Handle_trace n w req opt handler with
    ⟨e, h⟩ | ⟨t, h⟩ | ⟨host, h⟩ | ⟨e, h⟩ | ⟨ts, err, h, _⟩ | ⟨t, k, offload, err, h, hoff, _⟩
  · rw [h]
    simp
  · rw [h]
    simp
  · rw [h]
    simp
  · rw [h]
    simp
  · rw [h]
    obtain ⟨q1, q2, q3, q4, q5⟩ := quiet_createEvents ts
    cases err <;> simp [surfaced, q1, q2, q3, q4, q5, handlerRuns_createEvents]
  · rw [h]
    obtain ⟨q1, q2, q3, q4, q5, q6⟩ := quiet_replicate k t
    cases offload
    · cases err <;> simp [surfaced, q1, q2, q3, q4, q5, q6, handlerRuns_replicate]
    · rw [hoff rfl]
      simp [surfaced, q1, q2, q3, q4, q5, q6, handlerRuns_replicate]

/-- Instance of C3, amended: on node "A" the session is offloaded after the
continuation has run; the run holds one response action, the redirect, and the
handler run and the redirect come with one call of `AcquireSession`. -/
theorem Handle_at_most_one_response_witness :
    (redirects (Handle Example.nodeAOffloading Example.blank (Example.request Example.bytesA)
        (Example.options false) (Example.handler none)).state.trace).length +
      (malformedErrors (Handle Example.nodeAOffloading Example.blank
        (Example.request Example.bytesA) (Example.options false)
        (Example.handler none)).state.trace).length +
      (internalErrors (Handle Example.nodeAOffloading Example.blank
        (Example.request Example.bytesA) (Example.options false)
        (Example.handler none)).state.trace).length ≤ 1 ∧
    (acquireCalls (Handle Example.nodeAOffloading Example.blank
        (Example.request Example.bytesA) (Example.options false)
        (Example.handler none)).state.trace).length = 1 :=
  ⟨(Handle_at_most_one_response Example.nodeAOffloading Example.blank
      (Example.request Example.bytesA) (Example.options false) (Example.handler none)).1,
   (Handle_at_most_one_response Example.nodeAOffloading Example.blank
      (Example.request Example.bytesA) (Example.options false) (Example.handler none)).2.2
      (by decide) (by decide)⟩

/-- C4 (malformed token): when decoding the carrier bytes fails with `err`,
`Handle` reads the carrier, calls `malformedSessionTokenErrorResponse` once
with `err` and makes no other call. -/
theorem Handle_malformed_token (n : Node) (w : ResponseWriter) (req : Request)
    (opt : HandlerOptions) (handler : Handler) (err : Error)
    (hdecode : (UnmarshallSessionToken (opt.getSessionTokenBytes req)).2 = some err) :
    opt.getSessionTokenBytes req ≠ [] ∧
    Handle n w req opt handler =
      .ok ()
        { w := opt.malformedSessionTokenErrorResponse w err,
          trace := [.getSessionTokenBytes, .malformedSessionTokenErrorResponse err] } := by
  constructor
  · intro hnil
    rw [hnil, UnmarshallSessionToken_nil] at hdecode
    exact absurd hdecode (by simp)
  · rcases hu : UnmarshallSessionToken (opt.getSessionTokenBytes req) with ⟨tok, derr⟩
    rw [hu] at hdecode
    simp only at hdecode
    subst hdecode
    simp [Handle, hu, start, State.malformedSessionTokenErrorResponse]

/-- Instance of C4: the carrier holds the single byte of an opening brace. -/
theorem Handle_malformed_token_witness :
    (Example.options false).getSessionTokenBytes (Example.request [0x7B]) ≠ [] ∧
    Handle Example.nodeA Example.blank (Example.request [0x7B]) (Example.options false)
        (Example.handler none) =
      .ok ()
        { w := { Header := [], status := 400, body := [] },
          trace := [.getSessionTokenBytes,
                    .malformedSessionTokenErrorResponse (.json .syntaxError)] } :=
  Handle_malformed_token Example.nodeA Example.blank (Example.request [0x7B])
    (Example.options false) (Example.handler none) (.json .syntaxError) (by decide)

/-- C5 (new session, no redirect policy): for an empty carrier and
`redirectNewRequest` answering false, `Handle` calls `CreateAndAcquireSession`
exactly once, with the creation and acquisition options of the configuration,
never calls `AcquireSession` and never redirects; the continuation it passes,
run on a fresh token `t`, writes `MarshallSessionToken(t)` to the carrier and
then invokes the handler on `t`; and when the collaborator creates the session
`t` on the local node and runs the continuation once, the handler is invoked
exactly once, with a token whose `Host` is the local node's. -/
theorem Handle_new_session (n : Node) (w : ResponseWriter) (req : Request)
    (opt : HandlerOptions) (handler : Handler)
    (hempty : opt.getSessionTokenBytes req = [])
    (hpolicy : opt.redirectNewRequest req n = false) :
    (createCalls (Handle n w req opt handler).state.trace =
        [⟨opt.getCreateSessionOptions req, opt.getAcquireSessionOptions req⟩] ∧
      acquireCalls (Handle n w req opt handler).state.trace = [] ∧
      redirects (Handle n w req opt handler).state.trace = []) ∧
    (∀ (t : SessionToken) (s : State),
      createContinuation req opt handler t s =
        .ok (handler (opt.setSessionTokenBytes s.w (MarshallSessionToken t).1) req t).2
          { w := (handler (opt.setSessionTokenBytes s.w (MarshallSessionToken t).1) req t).1,
            trace := s.trace ++
              [.setSessionTokenBytes (MarshallSessionToken t).1, .handler t] }) ∧
    (∀ (t : SessionToken) (result : Option Error → Option Error),
      n.CreateAndAcquireSession req.Context
          ⟨opt.getCreateSessionOptions req, opt.getAcquireSessionOptions req⟩ =
        .call t (fun err => .ret (result err)) →
      t.Host = n.Host →
      ∃ t1, handlerRuns (Handle n w req opt handler).state.trace = [t1] ∧
        t1.Host = n.Host ∧
        carrierWrites (Handle n w req opt handler).state.trace =
          [(MarshallSessionToken t1).1]) := by
  obtain ⟨err, w1, ts, hcall, _⟩ := callCreateAndAcquireSession_run n w req opt handler
  have hH := Handle_create n w req opt handler hempty hpolicy err _ hcall
  obtain ⟨q1, q2, q3, q4, q5⟩ := quiet_createEvents ts
  refine ⟨?_, ?_, ?_⟩
  · rw [hH]
    cases err <;>
      simp [finish, Outcome.state, State.internalServerErrorResponse, q1, q4, q5]
  · intro t s
    rw [createContinuation_eq]
    simp [createEvents]
  · intro t result hnode hhost
    refine ⟨t, ?_, hhost, ?_⟩
    · simp only [Handle, hempty, UnmarshallSessionToken_nil, hpolicy, Bool.false_eq_true,
        if_false, callCreateAndAcquireSession, hnode, Collab.run, createContinuation_eq]
      cases hres : result (handler (opt.setSessionTokenBytes
          (State.log (State.log (State.log (State.log (start w) .redirectNewRequest)
            .getCreateSessionOptions) .getAcquireSessionOptions)
            (.CreateAndAcquireSession req.Context
              ⟨opt.getCreateSessionOptions req, opt.getAcquireSessionOptions req⟩)).w
          (MarshallSessionToken t).1) req t).2 <;>
        simp [finish, Outcome.state, State.internalServerErrorResponse, State.log, start,
          createEvents]
    · simp only [Handle, hempty, UnmarshallSessionToken_nil, hpolicy, Bool.false_eq_true,
        if_false, callCreateAndAcquireSession, hnode, Collab.run, createContinuation_eq]
      cases hres : result (handler (opt.setSessionTokenBytes
          (State.log (State.log (State.log (State.log (start w) .redirectNewRequest)
            .getCreateSessionOptions) .getAcquireSessionOptions)
            (.CreateAndAcquireSession req.Context
              ⟨opt.getCreateSessionOptions req, opt.getAcquireSessionOptions req⟩)).w
          (MarshallSessionToken t).1) req t).2 <;>
        simp [finish, Outcome.state, State.internalServerErrorResponse, State.log, start,
          createEvents]

/-- Instance of C5: node "A" creates the session "s1" for a request without
token; the carrier receives the encoding of that token and the handler runs
once on it. -/
theorem Handle_new_session_witness :
    (createCalls (Handle Example.nodeA Example.blank (Example.request [])
        (Example.options false) (Example.handler none)).state.trace = [⟨⟨2⟩, ⟨1⟩⟩] ∧
      acquireCalls (Handle Example.nodeA Example.blank (Example.request [])
        (Example.options false) (Example.handler none)).state.trace = [] ∧
      redirects (Handle Example.nodeA Example.blank (Example.request [])
        (Example.options false) (Example.handler none)).state.trace = []) ∧
    ∃ t1, handlerRuns (Handle Example.nodeA Example.blank (Example.request [])
        (Example.options false) (Example.handler none)).state.trace = [t1] ∧
      t1.Host = Example.nodeA.Host ∧
      carrierWrites (Handle Example.nodeA Example.blank (Example.request [])
        (Example.options false) (Example.handler none)).state.trace =
        [(MarshallSessionToken t1).1] :=
  ⟨(Handle_new_session Example.nodeA Example.blank (Example.request [])
      (Example.options false) (Example.handler none) (by decide) (by decide)).1,
   (Handle_new_session Example.nodeA Example.blank (Example.request [])
      (Example.options false) (Example.handler none) (by decide) (by decide)).2.2
      Example.tokenA (fun err => err) rfl rfl⟩

/-- C6 (new session, redirect policy): for an empty carrier and
`redirectNewRequest` answering true, `Handle` reads the carrier, asks the two
redirect policies and issues one redirect to the host `redirectTarget(req, n)`
returns; it makes no other call.  Where the policy panics instead of returning
a host, the run ends in that panic, again with no other call. -/
theorem Handle_new_request_redirect (n : Node) (w : ResponseWriter) (req : Request)
    (opt : HandlerOptions) (handler : Handler)
    (hempty : opt.getSessionTokenBytes req = [])
    (hpolicy : opt.redirectNewRequest req n = true) :
    Handle n w req opt handler =
      match opt.redirectTarget req n with
      | .ok host =>
        .ok ()
          { w := opt.redirectResponse w req host,
            trace := [.getSessionTokenBytes, .redirectNewRequest, .redirectTarget,
                      .redirectResponse host] }
      | .error err =>
        .panic
          { w := w,
            trace := [.getSessionTokenBytes, .redirectNewRequest, .redirectTarget,
                      .panic err] } := by
  cases htarget : opt.redirectTarget req n <;>
    simp [Handle, hempty, UnmarshallSessionToken_nil, hpolicy, htarget, start, State.log,
      State.redirectResponse]

/-- Instance of C6: node "A" with the policy that sends new requests to "P". -/
theorem Handle_new_request_redirect_witness :
    Handle Example.nodeA Example.blank (Example.request []) (Example.options true)
        (Example.handler none) =
      .ok ()
        { w := { Header := [], status := 302, body := [0x50] },
          trace := [.getSessionTokenBytes, .redirectNewRequest, .redirectTarget,
                    .redirectResponse [0x50]] } :=
  Handle_new_request_redirect Example.nodeA Example.blank (Example.request [])
    (Example.options true) (Example.handler none) (by decide) (by decide)

/-- C7, refuted as stated: a token whose `Host` is the single byte 0xFF, which
is not valid UTF-8, is encoded with the escape of U+FFFD and decodes to a
token whose `Host` is the three-byte encoding of U+FFFD. -/
theorem roundtrip_fails_on_invalid_utf8 :
    MarshallSessionToken ⟨⟨[0xFF], [0x73, 0x31]⟩⟩ =
      ([0x7B, 0x22, 0x48, 0x6F, 0x73, 0x74, 0x22, 0x3A, 0x22, 0x5C, 0x75, 0x66, 0x66, 0x66,
        0x64, 0x22, 0x2C, 0x22, 0x53, 0x65, 0x73, 0x73, 0x69, 0x6F, 0x6E, 0x49, 0x64, 0x22,
        0x3A, 0x22, 0x73, 0x31, 0x22, 0x7D], none) ∧
    UnmarshallSessionToken (MarshallSessionToken ⟨⟨[0xFF], [0x73, 0x31]⟩⟩).1 =
      (some ⟨⟨[0xEF, 0xBF, 0xBD], [0x73, 0x31]⟩⟩, none) ∧
    (⟨⟨[0xEF, 0xBF, 0xBD], [0x73, 0x31]⟩⟩ : SessionToken) ≠ ⟨⟨[0xFF], [0x73, 0x31]⟩⟩ := by
  decide

/-- C7, amended (round trip): for every token whose `Host` and `SessionId` are
valid UTF-8, `MarshallSessionToken` succeeds with bytes `b`, and
`UnmarshallSessionToken(b)` returns a nil error and a token equal to the
original one. -/
theorem MarshallSessionToken_roundtrip (t : SessionToken)
    (hHost : validUTF8 t.Host = true) (hId : validUTF8 t.SessionId = true) :
    ∃ b, MarshallSessionToken t = (b, none) ∧ UnmarshallSessionToken b = (some t, none) := by
  refine ⟨(jsonMarshal t).1, MarshallSessionToken_eq t, ?_⟩
  have hlen : (jsonMarshal t).1.length ≠ 0 := by
    simp [jsonMarshal_eq]
  unfold UnmarshallSessionToken
  rw [if_neg hlen, jsonUnmarshal_jsonMarshal t _ hHost hId]

/-- Instance of C7, amended: the token with `Host` "A" and `SessionId` "s1". -/
theorem MarshallSessionToken_roundtrip_witness :
    ∃ b, MarshallSessionToken Example.tokenA = (b, none) ∧
      UnmarshallSessionToken b = (some Example.tokenA, none) :=
  MarshallSessionToken_roundtrip Example.tokenA (by decide) (by decide)

/-- C8 (error surfacing): in both branches that reach the node collaborator
the collaborator call returns.  When it returns the non-nil error `e`,
`Handle` ends by applying `internalServerErrorResponse` to the writer the call
left and `e`, as its one further call: no redirect is issued, whatever new
token `AcquireSession` returned with the error.  When it returns a nil error,
`internalServerErrorResponse` is not called: `Handle` ends where the call
ended, or after the carrier write and the redirect of an offload.  The call
itself makes no internal-error response and no redirect, so the errors passed
to `internalServerErrorResponse` during the run are exactly the error the call
returned. -/
theorem Handle_error_surfacing (n : Node) (w : ResponseWriter) (req : Request)
    (opt : HandlerOptions) (handler : Handler) :
    (opt.getSessionTokenBytes req = [] → opt.redirectNewRequest req n = false →
      (∃ (err : Option Error) (s2 : State),
        callCreateAndAcquireSession n req opt handler ((start w).log .redirectNewRequest) =
          .ok err s2) ∧
      ∀ (err : Option Error) (s2 : State),
        callCreateAndAcquireSession n req opt handler ((start w).log .redirectNewRequest) =
          .ok err s2 →
        Handle n w req opt handler =
          .ok ()
            (match err with
              | some e =>
                { w := opt.internalServerErrorResponse s2.w e,
                  trace := s2.trace ++ [.internalServerErrorResponse e] }
              | none => s2) ∧
        internalErrors s2.trace = [] ∧ redirects s2.trace = [] ∧
        internalErrors (Handle n w req opt handler).state.trace = err.toList ∧
        (err ≠ none → redirects (Handle n w req opt handler).state.trace = [])) ∧
    (∀ t : SessionToken,
      UnmarshallSessionToken (opt.getSessionTokenBytes req) = (some t, none) →
      t.Host = n.Host →
      (∃ (newToken : Option SessionToken) (err : Option Error) (s2 : State),
        callAcquireSession n req opt handler t (start w) = .ok (newToken, err) s2) ∧
      ∀ (newToken : Option SessionToken) (err : Option Error) (s2 : State),
        callAcquireSession n req opt handler t (start w) = .ok (newToken, err) s2 →
        Handle n w req opt handler =
          .ok ()
            (match err with
              | some e =>
                { w := opt.internalServerErrorResponse s2.w e,
                  trace := s2.trace ++ [.internalServerErrorResponse e] }
              | none =>
                if newToken ≠ none then
                  { w := opt.redirectResponse
                      (opt.setSessionTokenBytes s2.w (opt.getSessionTokenBytes req)) req t.Host,
                    trace := s2.trace ++
                      [.setSessionTokenBytes (opt.getSessionTokenBytes req),
                       .redirectResponse t.Host] }
                else s2) ∧
        internalErrors s2.trace = [] ∧ redirects s2.trace = [] ∧
        internalErrors (Handle n w req opt handler).state.trace = err.toList ∧
        (err ≠ none → redirects (Handle n w req opt handler).state.trace = [])) := by
  constructor
  · intro hempty hpolicy
    obtain ⟨err0, w1, ts, hcall0, _⟩ := callCreateAndAcquireSession_run n w req opt handler
    refine ⟨⟨err0, _, hcall0⟩, ?_⟩
    intro err s2 hcall
    obtain ⟨q1, q2, q3, q4, q5⟩ := quiet_createEvents ts
    have hs2 : s2.trace =
        [.getSessionTokenBytes, .redirectNewRequest, .getCreateSessionOptions,
          .getAcquireSessionOptions,
          .CreateAndAcquireSession req.Context
            ⟨opt.getCreateSessionOptions req, opt.getAcquireSessionOptions req⟩] ++
          createEvents ts := by
      rw [hcall0] at hcall
      injection hcall with _ hs
      rw [← hs]
    have hi : internalErrors s2.trace = [] := by rw [hs2]; simp [q3]
    have hr : redirects s2.trace = [] := by rw [hs2]; simp [q1]
    rw [Handle_create n w req opt handler hempty hpolicy err _ hcall]
    refine ⟨?_, hi, hr, ?_, ?_⟩
    · cases err <;> simp [finish, State.internalServerErrorResponse]
    · cases err <;> simp [finish, Outcome.state, State.internalServerErrorResponse, hi]
    · intro _
      cases err <;> simp [finish, Outcome.state, State.internalServerErrorResponse, hr]
  · intro t hdecode hhost
    obtain ⟨newToken0, err0, w1, k, hcall0, _⟩ := callAcquireSession_run n w req opt handler t
    refine ⟨⟨newToken0, err0, _, hcall0⟩, ?_⟩
    intro newToken err s2 hcall
    obtain ⟨q1, q2, q3, q4, q5, q6⟩ := quiet_replicate k t
    have hs2 : s2.trace =
        [.getSessionTokenBytes, .getAcquireSessionOptions,
          .AcquireSession req.Context t (opt.getAcquireSessionOptions req)] ++
          List.replicate k (.handler t) := by
      rw [hcall0] at hcall
      injection hcall with _ hs
      rw [← hs]
    have hi : internalErrors s2.trace = [] := by rw [hs2]; simp [q4]
    have hr : redirects s2.trace = [] := by rw [hs2]; simp [q2]
    rw [Handle_acquire n w req opt handler t hdecode hhost newToken err _ hcall]
    refine ⟨?_, hi, hr, ?_, ?_⟩
    · cases err <;> cases newToken <;>
        simp [finish, State.internalServerErrorResponse, State.setSessionTokenBytes,
          State.redirectResponse]
    · cases err <;> cases newToken <;>
        simp [finish, Outcome.state, State.internalServerErrorResponse,
          State.setSessionTokenBytes, State.redirectResponse, hi]
    · intro hne
      cases err with
      | none => exact absurd rfl hne
      | some e =>
        simp [finish, Outcome.state, State.internalServerErrorResponse, hr]

/-- Instance of C8: on node "A" the handler's error "boom" comes back from
session creation and from session acquisition, and in both runs `Handle` ends
with the internal-error response, status 500, after the handler has written
its byte. -/
theorem Handle_error_surfacing_witness :
    Handle Example.nodeA Example.blank (Example.request []) (Example.options false)
        (Example.handler (some (.other "boom"))) =
      .ok ()
        { w := { Header := [(Example.tokenHeader, Example.bytesA)], status := 500,
                 body := [0x21] },
          trace := [.getSessionTokenBytes, .redirectNewRequest, .getCreateSessionOptions,
                    .getAcquireSessionOptions, .CreateAndAcquireSession ⟨0⟩ ⟨⟨2⟩, ⟨1⟩⟩,
                    .setSessionTokenBytes Example.bytesA, .handler Example.tokenA,
                    .internalServerErrorResponse (.other "boom")] } ∧
    Handle Example.nodeA Example.blank (Example.request Example.bytesA)
        (Example.options false) (Example.handler (some (.other "boom"))) =
      .ok ()
        { w := { Header := [], status := 500, body := [0x21] },
          trace := [.getSessionTokenBytes, .getAcquireSessionOptions,
                    .AcquireSession ⟨0⟩ Example.tokenA ⟨1⟩, .handler Example.tokenA,
                    .internalServerErrorResponse (.other "boom")] } :=
  ⟨(((Handle_error_surfacing Example.nodeA Example.blank (Example.request [])
      (Example.options false) (Example.handler (some (.other "boom")))).1
      (by decide) (by decide)).2 (some (.other "boom"))
      { w := { Header := [(Example.tokenHeader, Example.bytesA)], status := 0,
               body := [0x21] },
        trace := [.getSessionTokenBytes, .redirectNewRequest, .getCreateSessionOptions,
                  .getAcquireSessionOptions, .CreateAndAcquireSession ⟨0⟩ ⟨⟨2⟩, ⟨1⟩⟩,
                  .setSessionTokenBytes Example.bytesA, .handler Example.tokenA] }
      (by decide)).1,
   (((Handle_error_surfacing Example.nodeA Example.blank (Example.request Example.bytesA)
      (Example.options false) (Example.handler (some (.other "boom")))).2
      Example.tokenA (by decide) (by decide)).2 none (some (.other "boom"))
      { w := { Header := [], status := 0, body := [0x21] },
        trace := [.getSessionTokenBytes, .getAcquireSessionOptions,
                  .AcquireSession ⟨0⟩ Example.tokenA ⟨1⟩, .handler Example.tokenA] }
      (by decide)).1⟩

/-- C9, refuted as stated: node "A" resumes the session of `tokenA`, the
collaborator reports no new location and the handler runs without error, yet
nothing is written to the response's token carrier. -/
theorem resume_leaves_carrier_unwritten :
    Handle Example.nodeA Example.blank (Example.request Example.bytesA)
        (Example.options false) (Example.handler none) =
      .ok ()
        { w := { Header := [], status := 0, body := [0x21] },
          trace := [.getSessionTokenBytes, .getAcquireSessionOptions,
                    .AcquireSession ⟨0⟩ Example.tokenA ⟨1⟩, .handler Example.tokenA] } ∧
    carrierWrites (Handle Example.nodeA Example.blank (Example.request Example.bytesA)
        (Example.options false) (Example.handler none)).state.trace = [] := by
  decide

/-- C9, amended: when a new session is created, every handler run is
accompanied by the write of that run's token, encoded, to the response's
token carrier, so a created session whose handler ran has its token in the
carrier; when an existing session of the local node is resumed and the
collaborator reports no new location, `Handle` writes nothing to the token
carrier. -/
theorem Handle_token_serialized (n : Node) (w : ResponseWriter) (req : Request)
    (opt : HandlerOptions) (handler : Handler) :
    (opt.getSessionTokenBytes req = [] → opt.redirectNewRequest req n = false →
      carrierWrites (Handle n w req opt handler).state.trace =
        (handlerRuns (Handle n w req opt handler).state.trace).map
          fun t => (MarshallSessionToken t).1) ∧
    (∀ (t : SessionToken) (err : Option Error) (s2 : State),
      UnmarshallSessionToken (opt.getSessionTokenBytes req) = (some t, none) →
      t.Host = n.Host →
      callAcquireSession n req opt handler t (start w) = .ok (none, err) s2 →
      carrierWrites (Handle n w req opt handler).state.trace = []) := by
  constructor
  · intro hempty hpolicy
    obtain ⟨err, w1, ts, hcall, _⟩ := callCreateAndAcquireSession_run n w req opt handler
    rw [Handle_create n w req opt handler hempty hpolicy err _ hcall]
    cases err <;>
      simp [finish, Outcome.state, State.internalServerErrorResponse,
        handlerRuns_createEvents, carrierWrites_createEvents]
  · intro t err s2 hdecode hhost hcall
    obtain ⟨newToken1, err1, w1, k, hcall1, _⟩ := callAcquireSession_run n w req opt handler t
    rw [hcall] at hcall1
    injection hcall1 with _ hs
    rw [Handle_acquire n w req opt handler t hdecode hhost none err s2 hcall, hs]
    cases err <;>
      simp [finish, Outcome.state, State.internalServerErrorResponse,
        (quiet_replicate k t).1]

/-- Instance of C9, amended: session creation on node "A" writes the encoding
of the fresh token; resumption on node "A" writes nothing. -/
theorem Handle_token_serialized_witness :
    carrierWrites (Handle Example.nodeA Example.blank (Example.request [])
        (Example.options false) (Example.handler none)).state.trace =
      (handlerRuns (Handle Example.nodeA Example.blank (Example.request [])
        (Example.options false) (Example.handler none)).state.trace).map
        (fun t => (MarshallSessionToken t).1) ∧
    carrierWrites (Handle Example.nodeA Example.blank (Example.request Example.bytesA)
        (Example.options false) (Example.handler none)).state.trace = [] :=
  ⟨(Handle_token_serialized Example.nodeA Example.blank (Example.request [])
      (Example.options false) (Example.handler none)).1 (by decide) (by decide),
   (Handle_token_serialized Example.nodeA Example.blank (Example.request Example.bytesA)
      (Example.options false) (Example.handler none)).2 Example.tokenA none
      { w := { Header := [], status := 0, body := [0x21] },
        trace := [.getSessionTokenBytes, .getAcquireSessionOptions,
                  .AcquireSession ⟨0⟩ Example.tokenA ⟨1⟩, .handler Example.tokenA] }
      (by decide) (by decide) (by decide)⟩

/-- C10 (at most once): when the node collaborator runs the continuation it is
given at most `k` times with `k` at most one, a run of `Handle` writes the
token carrier at most once and invokes the handler at most `k` times: at most
once, and not at all when the collaborator does not run the continuation. -/
theorem Handle_at_most_once (n : Node) (w : ResponseWriter) (req : Request)
    (opt : HandlerOptions) (handler : Handler) (k : Nat) (hk : k ≤ 1)
    (hcreate : ∀ ctx o, (n.CreateAndAcquireSession ctx o).runsAtMost k)
    (hacquire : ∀ ctx t o, (n.AcquireSession ctx t o).runsAtMost k) :
    (carrierWrites (Handle n w req opt handler).state.trace).length ≤ 1 ∧
    (handlerRuns (Handle n w req opt handler).state.trace).length ≤ k := by
  rcases Handle_trace n w req opt handler with
    ⟨e, h⟩ | ⟨t, h⟩ | ⟨host, h⟩ | ⟨e, h⟩ | ⟨ts, err, h, hb⟩ |
    ⟨t, j, offload, err, h, hoff, hb⟩
  · rw [h]
    simp
  · rw [h]
    simp
  · rw [h]
    simp
  · rw [h]
    simp
  · rw [h]
    have hlen := hb k hcreate
    cases err <;>
      simp [surfaced, handlerRuns_createEvents, carrierWrites_createEvents] <;> omega
  · rw [h]
    have hlen := hb k hacquire
    obtain ⟨q1, _⟩ := quiet_replicate j t
    cases offload <;> cases err <;>
      simp [surfaced, handlerRuns_replicate, q1] <;> omega

/-- Instance of C10: the collaborator of node "A" runs the continuation once. -/
theorem Handle_at_most_once_witness :
    (carrierWrites (Handle Example.nodeA Example.blank (Example.request [])
        (Example.options false) (Example.handler none)).state.trace).length ≤ 1 ∧
    (handlerRuns (Handle Example.nodeA Example.blank (Example.request [])
        (Example.options false) (Example.handler none)).state.trace).length ≤ 1 :=
  Handle_at_most_once Example.nodeA Example.blank (Example.request [])
    (Example.options false) (Example.handler none) 1 (Nat.le_refl 1)
    (fun _ _ _ => trivial) (fun _ _ _ _ => trivial)

/-- C11 (resume): for a token of the local node, `Handle` calls
`AcquireSession` exactly once, with the decoded token and the acquisition
options of the configuration, and calls neither `CreateAndAcquireSession` nor
the `redirectNewRequest` policy; the continuation it passes invokes the handler
on the decoded token, so every handler run of the request is on that token;
and when the call returns no error and no new token, `Handle` ends there, with
no redirect and no error response. -/
theorem Handle_resume (n : Node) (w : ResponseWriter) (req : Request) (opt : HandlerOptions)
    (handler : Handler) (t : SessionToken)
    (hdecode : UnmarshallSessionToken (opt.getSessionTokenBytes req) = (some t, none))
    (hhost : t.Host = n.Host) :
    (acquireCalls (Handle n w req opt handler).state.trace =
        [(t, opt.getAcquireSessionOptions req)] ∧
      createCalls (Handle n w req opt handler).state.trace = [] ∧
      Event.redirectNewRequest ∉ (Handle n w req opt handler).state.trace) ∧
    ((∀ (u : Unit) (s : State),
        acquireContinuation req handler t u s =
          .ok (handler s.w req t).2
            { w := (handler s.w req t).1, trace := s.trace ++ [.handler t] }) ∧
      ∀ x ∈ handlerRuns (Handle n w req opt handler).state.trace, x = t) ∧
    (∀ s2 : State,
      callAcquireSession n req opt handler t (start w) = .ok (none, none) s2 →
      Handle n w req opt handler = .ok () s2 ∧
      redirects (Handle n w req opt handler).state.trace = [] ∧
      malformedErrors (Handle n w req opt handler).state.trace = [] ∧
      internalErrors (Handle n w req opt handler).state.trace = []) := by
  obtain ⟨newToken, err, w1, k, hcall, w2, hH⟩ :=
    Handle_acquire_trace n w req opt handler t hdecode hhost
  obtain ⟨q1, q2, q3, q4, q5, q6⟩ := quiet_replicate k t
  refine ⟨⟨?_, ?_, ?_⟩, ⟨?_, ?_⟩, ?_⟩
  · rw [hH]
    cases err <;> cases newToken <;> simp [Outcome.state, surfaced, q6]
  · rw [hH]
    cases err <;> cases newToken <;> simp [Outcome.state, surfaced, q5]
  · rw [hH]
    cases err <;> cases newToken <;> simp [Outcome.state, surfaced, List.mem_replicate]
  · intro u s
    rfl
  · rw [hH]
    cases err <;> cases newToken <;>
      simp [Outcome.state, surfaced, handlerRuns_replicate, List.mem_replicate]
  · intro s2 hs2
    rw [hcall] at hs2
    injection hs2 with hres hstate
    injection hres with hnew herr
    subst hnew herr
    have hfin : Handle n w req opt handler = .ok () s2 := by
      rw [Handle_acquire n w req opt handler t hdecode hhost none none _ hcall, ← hstate]
      simp [finish]
    refine ⟨hfin, ?_, ?_, ?_⟩
    · rw [hfin, ← hstate]
      simp [Outcome.state, q2]
    · rw [hfin, ← hstate]
      simp [Outcome.state, q3]
    · rw [hfin, ← hstate]
      simp [Outcome.state, q4]

/-- Instance of C11: node "A" resumes the session of the token with `Host`
"A". -/
theorem Handle_resume_witness :
    acquireCalls (Handle Example.nodeA Example.blank (Example.request Example.bytesA)
        (Example.options false) (Example.handler none)).state.trace =
      [(Example.tokenA, ⟨1⟩)] ∧
    createCalls (Handle Example.nodeA Example.blank (Example.request Example.bytesA)
        (Example.options false) (Example.handler none)).state.trace = [] ∧
    Event.redirectNewRequest ∉
      (Handle Example.nodeA Example.blank (Example.request Example.bytesA)
        (Example.options false) (Example.handler none)).state.trace :=
  (Handle_resume Example.nodeA Example.blank (Example.request Example.bytesA)
    (Example.options false) (Example.handler none) Example.tokenA (by decide) (by decide)).1

/-- C12, refuted as stated: the input `\x7b"Host":null,"SessionId":"s1"\x7d`, whose
`Host` is not a string, is answered with a nil error and a token whose `Host`
is empty. -/
theorem UnmarshallSessionToken_null_host :
    UnmarshallSessionToken [0x7B, 0x22, 0x48, 0x6F, 0x73, 0x74, 0x22, 0x3A, 0x6E, 0x75, 0x6C,
        0x6C, 0x2C, 0x22, 0x53, 0x65, 0x73, 0x73, 0x69, 0x6F, 0x6E, 0x49, 0x64, 0x22, 0x3A,
        0x22, 0x73, 0x31, 0x22, 0x7D] = (some ⟨⟨[], [0x73, 0x31]⟩⟩, none) := by
  decide

/-- C12, amended (malformed input): a non-empty input is answered with a
non-nil error and a nil token when it fails `checkValid` (it is not one
complete JSON value), in particular when it is a truncation of the encoding
of a token, and when it holds a value that does not fit: at the top level
anything but an object or `null`, as the value of a member whose key selects
`Host` or `SessionId` anything but a string or `null`.  No input is answered
with both a token and an error, and whenever the decoder is inside a string
literal `unquoteBytes` succeeds on what it has read of it, so the decoder's
panic on a scanned literal that cannot be unquoted is not reached. -/
theorem UnmarshallSessionToken_malformed (sessionTokenBytes : List Nat) :
    (sessionTokenBytes ≠ [] →
      (checkValid sessionTokenBytes = false ∨
        (∃ t, sessionTokenBytes <+: (MarshallSessionToken t).1 ∧
          sessionTokenBytes ≠ (MarshallSessionToken t).1) ∨
        (∃ p c rest, sessionTokenBytes = p ++ c :: rest ∧
          (p.foldl DecodeState.next (DecodeState.init ⟨⟨[], []⟩⟩)).scan.step =
            .stateBeginValue ∧
          isSpace c = false ∧
          (((p.foldl DecodeState.next (DecodeState.init ⟨⟨[], []⟩⟩)).scan.parseState = [] ∧
              c ≠ 0x7B ∧ c ≠ 0x6E) ∨
            ((p.foldl DecodeState.next (DecodeState.init ⟨⟨[], []⟩⟩)).scan.parseState =
                [.parseObjectValue] ∧
              (p.foldl DecodeState.next (DecodeState.init ⟨⟨[], []⟩⟩)).field.isSome = true ∧
              c ≠ 0x22 ∧ c ≠ 0x6E)))) →
      ∃ err, UnmarshallSessionToken sessionTokenBytes = (none, some err)) ∧
    (∀ t err, UnmarshallSessionToken sessionTokenBytes ≠ (some t, some err)) ∧
    ((sessionTokenBytes.foldl DecodeState.next (DecodeState.init ⟨⟨[], []⟩⟩)).scan.step =
        .stateInString →
      ∃ s, unquote
        (sessionTokenBytes.foldl DecodeState.next (DecodeState.init ⟨⟨[], []⟩⟩)).lit =
          some s) := by
  refine ⟨?_, ?_, unquote_lit sessionTokenBytes _⟩
  · intro hne hbad
    rcases hbad with h | ⟨t, hp, hproper⟩ | ⟨p, c, rest, rfl, hstep, hc, hfit⟩
    · exact ⟨_, UnmarshallSessionToken_syntaxError _ hne h⟩
    · exact ⟨_, UnmarshallSessionToken_truncated t _ hp hne hproper⟩
    · exact UnmarshallSessionToken_misfit p c rest hstep hc hfit
  · intro t err h
    have := (UnmarshallSessionToken_some _ t (some err) h).1
    cases this

/-- Instance of C12, amended: the encoding of the token with `Host` "A" cut
after the `A` is answered with the syntax error, and the input
`\x7b"Host":5\x7d` with the type error. -/
theorem UnmarshallSessionToken_malformed_witness :
    UnmarshallSessionToken [0x7B, 0x22, 0x48, 0x6F, 0x73, 0x74, 0x22, 0x3A, 0x22, 0x41] =
      (none, some (.json .syntaxError)) ∧
    UnmarshallSessionToken [0x7B, 0x22, 0x48, 0x6F, 0x73, 0x74, 0x22, 0x3A, 0x35, 0x7D] =
      (none, some (.json .unmarshalTypeError)) ∧
    (∃ err, UnmarshallSessionToken
      [0x7B, 0x22, 0x48, 0x6F, 0x73, 0x74, 0x22, 0x3A, 0x22, 0x41] = (none, some err)) ∧
    (∃ err, UnmarshallSessionToken
      [0x7B, 0x22, 0x48, 0x6F, 0x73, 0x74, 0x22, 0x3A, 0x35, 0x7D] = (none, some err)) :=
  ⟨by decide, by decide,
    (UnmarshallSessionToken_malformed
        [0x7B, 0x22, 0x48, 0x6F, 0x73, 0x74, 0x22, 0x3A, 0x22, 0x41]).1 (by decide)
      (Or.inr (Or.inl ⟨Example.tokenA, by decide, by decide⟩)),
    (UnmarshallSessionToken_malformed
        [0x7B, 0x22, 0x48, 0x6F, 0x73, 0x74, 0x22, 0x3A, 0x35, 0x7D]).1 (by decide)
      (Or.inr (Or.inr ⟨[0x7B, 0x22, 0x48, 0x6F, 0x73, 0x74, 0x22, 0x3A], 0x35, [0x7D], rfl,
        by decide, by decide, Or.inr ⟨by decide, by decide, by decide, by decide⟩⟩))⟩

/-- C13, refuted as stated: the two bytes `\x7b\x7d`, an object without members,
decode to a token with a nil error whose `Host` and `SessionId` are both
empty, and so does the literal `null`. -/
theorem UnmarshallSessionToken_empty_fields :
    UnmarshallSessionToken [0x7B, 0x7D] = (some ⟨⟨[], []⟩⟩, none) ∧
    UnmarshallSessionToken [0x6E, 0x75, 0x6C, 0x6C] = (some ⟨⟨[], []⟩⟩, none) ∧
    (⟨⟨[], []⟩⟩ : SessionToken).Host = [] ∧ (⟨⟨[], []⟩⟩ : SessionToken).SessionId = [] := by
  decide

/-- C13, amended (decoded fields): for every byte input on which
`UnmarshallSessionToken` returns a non-nil token, the error is nil, the input
is non-empty and passes `checkValid`, and the token's `Host` and `SessionId`
are valid UTF-8 strings; either may be empty, as nothing checks for it. -/
theorem UnmarshallSessionToken_fields (sessionTokenBytes : List Nat) (t : SessionToken)
    (err : Option Error) (h : UnmarshallSessionToken sessionTokenBytes = (some t, err)) :
    err = none ∧ sessionTokenBytes ≠ [] ∧ checkValid sessionTokenBytes = true ∧
      validUTF8 t.Host = true ∧ validUTF8 t.SessionId = true := by
  obtain ⟨he, hne, hvalid, ht⟩ := UnmarshallSessionToken_some sessionTokenBytes t err h
  refine ⟨he, hne, hvalid, ?_⟩
  rw [ht]
  exact validUTF8_foldl_next sessionTokenBytes _ ⟨rfl, rfl⟩

/-- Instance of C13, amended: the input `\x7b"Host":"\xff"\x7d`, whose `Host` holds a byte
that is not valid UTF-8 and which has no `SessionId`, decodes to a token whose
`Host` is U+FFFD and whose `SessionId` is empty. -/
theorem UnmarshallSessionToken_fields_witness :
    UnmarshallSessionToken [0x7B, 0x22, 0x48, 0x6F, 0x73, 0x74, 0x22, 0x3A, 0x22, 0xFF, 0x22,
        0x7D] = (some ⟨⟨[0xEF, 0xBF, 0xBD], []⟩⟩, none) ∧
    ((none : Option Error) = none ∧
      [0x7B, 0x22, 0x48, 0x6F, 0x73, 0x74, 0x22, 0x3A, 0x22, 0xFF, 0x22, 0x7D] ≠ [] ∧
      checkValid [0x7B, 0x22, 0x48, 0x6F, 0x73, 0x74, 0x22, 0x3A, 0x22, 0xFF, 0x22, 0x7D] =
        true ∧
      validUTF8 (SessionToken.Host ⟨⟨[0xEF, 0xBF, 0xBD], []⟩⟩) = true ∧
      validUTF8 (SessionToken.SessionId ⟨⟨[0xEF, 0xBF, 0xBD], []⟩⟩) = true) :=
  ⟨by decide,
    UnmarshallSessionToken_fields
      [0x7B, 0x22, 0x48, 0x6F, 0x73, 0x74, 0x22, 0x3A, 0x22, 0xFF, 0x22, 0x7D]
      ⟨⟨[0xEF, 0xBF, 0xBD], []⟩⟩ none (by decide)⟩

/-- C14 (absence): `UnmarshallSessionToken` returns a nil token and a nil error
on the empty byte sequence, and on no other input. -/
theorem UnmarshallSessionToken_absent (sessionTokenBytes : List Nat) :
    UnmarshallSessionToken sessionTokenBytes = (none, none) ↔ sessionTokenBytes = [] := by
  constructor
  · exact UnmarshallSessionToken_absent_only sessionTokenBytes
  · intro h
    rw [h]
    rfl

/-- C15 (encoding format): for every token the bytes returned by
`MarshallSessionToken` are an opening brace, the member `"Host"` with the
quoted `Host`, a comma, the member `"SessionId"` with the quoted `SessionId`
and a closing brace; each quoted value is read by the scanner as one complete
string literal, at the depth it started at, so the object is flat; the bytes
decode without error; and for `Host` "A" and `SessionId` "s1" they are exactly
`\x7b"Host":"A","SessionId":"s1"\x7d`. -/
theorem MarshallSessionToken_format (t : SessionToken) :
    (MarshallSessionToken t).1 =
      [0x7B] ++ quote [0x48, 0x6F, 0x73, 0x74] ++ [0x3A] ++ quote t.Host ++ [0x2C] ++
        quote [0x53, 0x65, 0x73, 0x73, 0x69, 0x6F, 0x6E, 0x49, 0x64] ++ [0x3A] ++
        quote t.SessionId ++ [0x7D] ∧
    (∀ (endTop : Bool) (ps : List ParseState),
      Scanner.run ⟨.stateBeginValue, endTop, ps, false⟩ (quote t.Host) =
        ⟨.stateEndValue, endTop, ps, false⟩ ∧
      Scanner.run ⟨.stateBeginValue, endTop, ps, false⟩ (quote t.SessionId) =
        ⟨.stateEndValue, endTop, ps, false⟩) ∧
    (UnmarshallSessionToken (MarshallSessionToken t).1).2 = none ∧
    MarshallSessionToken ⟨⟨[0x41], [0x73, 0x31]⟩⟩ =
      ([0x7B, 0x22, 0x48, 0x6F, 0x73, 0x74, 0x22, 0x3A, 0x22, 0x41, 0x22, 0x2C, 0x22, 0x53,
        0x65, 0x73, 0x73, 0x69, 0x6F, 0x6E, 0x49, 0x64, 0x22, 0x3A, 0x22, 0x73, 0x31, 0x22,
        0x7D], none) := by
  refine ⟨?_, fun endTop ps => ⟨Scanner_run_quote _ endTop ps, Scanner_run_quote _ endTop ps⟩,
    ?_, by decide⟩
  · have hk1 : quote [0x48, 0x6F, 0x73, 0x74] = [0x22, 0x48, 0x6F, 0x73, 0x74, 0x22] := by
      decide
    have hk2 : quote [0x53, 0x65, 0x73, 0x73, 0x69, 0x6F, 0x6E, 0x49, 0x64] =
        [0x22, 0x53, 0x65, 0x73, 0x73, 0x69, 0x6F, 0x6E, 0x49, 0x64, 0x22] := by
      decide
    rw [hk1, hk2, MarshallSessionToken_eq]
    simp [jsonMarshal_eq]
  · have hlen : (jsonMarshal t).1.length ≠ 0 := by
      simp [jsonMarshal_eq]
    have hno := jsonUnmarshal_jsonMarshal_no_error t ⟨⟨[], []⟩⟩
    rw [MarshallSessionToken_eq]
    unfold UnmarshallSessionToken
    rw [if_neg hlen]
    rcases hj : jsonUnmarshal (jsonMarshal t).1 ⟨⟨[], []⟩⟩ with ⟨v, je⟩
    rw [hj] at hno
    simp only at hno
    subst hno
    rfl

/-- C16 (encode is total): for every token the encoder of `json.Marshal`
succeeds, the dispatch reaching only the struct encoder and the string
encoder, so `MarshallSessionToken` returns a nil error and bytes that are not
empty.  The creation closure of `Handle` therefore passes its `panic(err)` on
every token and in every state: it writes the encoded token to the carrier and
runs the handler.  A run of `Handle` that ends in a panic has made no call to
`CreateAndAcquireSession`: it ends in the panic of the `redirectTarget` policy
and not in the closure's. -/
theorem MarshallSessionToken_total (t : SessionToken) :
    encodeValue t.reflect = .ok (MarshallSessionToken t).1 ∧
    (MarshallSessionToken t).2 = none ∧ (MarshallSessionToken t).1 ≠ [] ∧
    (∀ (req : Request) (opt : HandlerOptions) (handler : Handler) (s : State),
      createContinuation req opt handler t s =
        .ok (handler (opt.setSessionTokenBytes s.w (MarshallSessionToken t).1) req t).2
          { w := (handler (opt.setSessionTokenBytes s.w (MarshallSessionToken t).1) req t).1,
            trace := s.trace ++
              [.setSessionTokenBytes (MarshallSessionToken t).1, .handler t] }) ∧
    (∀ (n : Node) (w : ResponseWriter) (req : Request) (opt : HandlerOptions)
      (handler : Handler) (s : State),
      Handle n w req opt handler = .panic s →
        createCalls s.trace = [] ∧
        ∃ e, opt.redirectTarget req n = .error e ∧
          s.trace = [.getSessionTokenBytes, .redirectNewRequest, .redirectTarget,
            .panic e]) := by
  have hbytes : (MarshallSessionToken t).1 =
      [0x7B, 0x22, 0x48, 0x6F, 0x73, 0x74, 0x22, 0x3A] ++ quote t.Host ++
        [0x2C, 0x22, 0x53, 0x65, 0x73, 0x73, 0x69, 0x6F, 0x6E, 0x49, 0x64, 0x22, 0x3A] ++
        quote t.SessionId ++ [0x7D] := by
    rw [MarshallSessionToken_eq, jsonMarshal_eq]
  refine ⟨?_, ?_, ?_, ?_, ?_⟩
  · rw [hbytes]
    simp [SessionToken.reflect, encodeValue, encodeFields, encodeField, joinMembers,
      SessionToken.Host, SessionToken.SessionId]
  · rw [MarshallSessionToken_eq]
  · rw [hbytes]
    simp
  · intro req opt handler s
    rw [createContinuation_eq]
    rfl
  · intro n w req opt handler s h
    obtain ⟨_, _, e, he, hs⟩ := Handle_panic n w req opt handler s h
    refine ⟨?_, e, he, ?_⟩
    · rw [hs]
      simp
    · rw [hs]

/-- C17 (independent overrides): after each single-policy setter, `Build`
returns the options held before with the one field replaced by the supplied
function, so the other eight fields are as before; `SessionTokenHeaderName`
replaces `getSessionTokenBytes` and `setSessionTokenBytes` and leaves the other
seven fields as before. -/
theorem HandlerOptionsBuilder_setters (builder : HandlerOptionsBuilder) (net : NetHTTP) :
    (∀ f, (builder.GetAcquireSessionOptionsFunc f).Build =
      { builder.Build with getAcquireSessionOptions := f }) ∧
    (∀ f, (builder.GetCreateSessionOptionsFunc f).Build =
      { builder.Build with getCreateSessionOptions := f }) ∧
    (∀ f, (builder.GetSessionTokenBytes f).Build =
      { builder.Build with getSessionTokenBytes := f }) ∧
    (∀ f, (builder.RedirectNewRequest f).Build =
      { builder.Build with redirectNewRequest := f }) ∧
    (∀ f, (builder.RedirectTarget f).Build =
      { builder.Build with redirectTarget := f }) ∧
    (∀ f, (builder.SetSessionTokenBytes f).Build =
      { builder.Build with setSessionTokenBytes := f }) ∧
    (∀ f, (builder.RedirectResponse f).Build =
      { builder.Build with redirectResponse := f }) ∧
    (∀ f, (builder.MalformedSessionTokenErrorResponse f).Build =
      { builder.Build with malformedSessionTokenErrorResponse := f }) ∧
    (∀ f, (builder.InternalServerErrorResponse f).Build =
      { builder.Build with internalServerErrorResponse := f }) ∧
    (∀ header, (builder.SessionTokenHeaderName net header).Build =
      { builder.Build with
        getSessionTokenBytes := fun req => GetSessionTokenBytesFromHeader req header
        setSessionTokenBytes := fun w sessionTokenBytes =>
          SetSessionTokenBytesToHeader net w sessionTokenBytes header }) :=
  ⟨fun _ => rfl, fun _ => rfl, fun _ => rfl, fun _ => rfl, fun _ => rfl, fun _ => rfl,
    fun _ => rfl, fun _ => rfl, fun _ => rfl, fun _ => rfl⟩

/-- C18 (default policy): the default options, which are also what a fresh
builder builds, answer false to `redirectNewRequest` for every request and
node; under them a request with an empty carrier is never redirected, the
`redirectTarget` policy is not called for it, and `CreateAndAcquireSession` is
called once, with the default options. -/
theorem DefaultHandlerOptions_redirectNewRequest (net : NetHTTP) :
    (∀ req node, (DefaultHandlerOptions net).redirectNewRequest req node = false) ∧
    (NewHandlerOptionsBuilder net).Build = DefaultHandlerOptions net ∧
    (∀ (n : Node) (w : ResponseWriter) (req : Request) (handler : Handler),
      (DefaultHandlerOptions net).getSessionTokenBytes req = [] →
      redirects (Handle n w req (DefaultHandlerOptions net) handler).state.trace = [] ∧
      Event.redirectTarget ∉ (Handle n w req (DefaultHandlerOptions net) handler).state.trace ∧
      createCalls (Handle n w req (DefaultHandlerOptions net) handler).state.trace =
        [⟨DefaultCreateSessionOptions, DefaultAcquireSessionOptions⟩]) := by
  refine ⟨fun _ _ => rfl, rfl, ?_⟩
  intro n w req handler hempty
  have hc : ∀ ts : List SessionToken, Event.redirectTarget ∉ createEvents ts := by
    intro ts
    induction ts with
    | nil => simp [createEvents]
    | cons t ts ih => simpa [createEvents] using ih
  obtain ⟨err, w1, ts, hcall, _⟩ :=
    callCreateAndAcquireSession_run n w req (DefaultHandlerOptions net) handler
  obtain ⟨q1, q2, q3, q4, q5⟩ := quiet_createEvents ts
  rw [Handle_create n w req (DefaultHandlerOptions net) handler hempty rfl err _ hcall]
  refine ⟨?_, ?_, ?_⟩
  · cases err <;> simp [finish, Outcome.state, State.internalServerErrorResponse, q1]
  · cases err <;> simp [finish, Outcome.state, State.internalServerErrorResponse, hc ts]
  · cases err <;>
      simp [finish, Outcome.state, State.internalServerErrorResponse, q4, DefaultHandlerOptions]

/-- Instance of C18: a request without token header on node "A" with the
default options. -/
theorem DefaultHandlerOptions_redirectNewRequest_witness :
    redirects (Handle Example.nodeA Example.blank (Example.request [])
        (DefaultHandlerOptions Example.net) (Example.handler none)).state.trace = [] ∧
    Event.redirectTarget ∉ (Handle Example.nodeA Example.blank (Example.request [])
        (DefaultHandlerOptions Example.net) (Example.handler none)).state.trace ∧
    createCalls (Handle Example.nodeA Example.blank (Example.request [])
        (DefaultHandlerOptions Example.net) (Example.handler none)).state.trace =
      [⟨DefaultCreateSessionOptions, DefaultAcquireSessionOptions⟩] :=
  (DefaultHandlerOptions_redirectNewRequest Example.net).2.2 Example.nodeA Example.blank
    (Example.request []) (Example.handler none) (by decide)

/-- C19 (offload destination): a run of `Handle` that calls `AcquireSession`
is a run on a decoded token whose `Host` equals the local node's `Host`, and
every redirect issued in it goes to that token's `Host`, which is the local
node's own `Host`, whatever new location `AcquireSession` reported. -/
theorem Handle_offload_destination (n : Node) (w : ResponseWriter) (req : Request)
    (opt : HandlerOptions) (handler : Handler)
    (hacquire : acquireCalls (Handle n w req opt handler).state.trace ≠ []) :
    ∃ t, UnmarshallSessionToken (opt.getSessionTokenBytes req) = (some t, none) ∧
      t.Host = n.Host ∧
      ∀ host ∈ redirects (Handle n w req opt handler).state.trace,
        host = t.Host ∧ host = n.Host := by
  obtain ⟨t, hdecode, hhost⟩ := acquireCalls_ne_nil n w req opt handler hacquire
  obtain ⟨newToken, err, w1, k, _, w2, hH⟩ :=
    Handle_acquire_trace n w req opt handler t hdecode hhost
  obtain ⟨q1, q2, _⟩ := quiet_replicate k t
  refine ⟨t, hdecode, hhost, ?_⟩
  rw [hH]
  intro host hmem
  cases err <;> cases newToken <;>
    simp [Outcome.state, surfaced, q2] at hmem
  rw [hmem]
  exact ⟨rfl, hhost⟩

/-- Instance of C19: node "A" reports the session offloaded to node "C", and
the one redirect goes to "A". -/
theorem Handle_offload_destination_witness :
    redirects (Handle Example.nodeAOffloaded Example.blank (Example.request Example.bytesA)
        (Example.options false) (Example.handler none)).state.trace = [[0x41]] ∧
    ∃ t, UnmarshallSessionToken
        ((Example.options false).getSessionTokenBytes (Example.request Example.bytesA)) =
          (some t, none) ∧
      t.Host = Example.nodeAOffloaded.Host ∧
      ∀ host ∈ redirects (Handle Example.nodeAOffloaded Example.blank
          (Example.request Example.bytesA) (Example.options false)
          (Example.handler none)).state.trace,
        host = t.Host ∧ host = Example.nodeAOffloaded.Host :=
  ⟨by decide,
    Handle_offload_destination Example.nodeAOffloaded Example.blank
      (Example.request Example.bytesA) (Example.options false) (Example.handler none)
      (by decide)⟩

end Ermes
